import Mathlib

/-!
MeshWorker::mesh_loop: the face-visitation decision engine

A shallow embedding of `MeshWorker::mesh_loop` and of the `cell_action` lambda it
submits to `WorkStream::run` (`include/deal.II/meshworker/mesh_loop.h`, deal.II 9.1.1).

* The mesh is read through the queries the source calls on `cell` and `neighbor`;
  they are the fields of `Mesh`.
* The workers are optional state transformers on `(ScratchData, CopyData)`, as the
  `std::function` arguments of the source are; calling an empty one fails.
* Every worker invocation is recorded, with its arguments, in the `trace` of the
  state that is threaded through the code.

Two leaf utilities follow the engine: `MultithreadInfo::set_thread_limit` and `n_threads`
(`source/base/multithread_info.cc`), and the scaled fallback loop of
`LinearAlgebra::Vector::l2_norm` (`include/deal.II/lac/la_vector.templates.h`).
-/

namespace MeshWorker

/-! ## Flags -/

/-- Modelled from the spec: the `AssembleFlags` bitmask of `assemble_flags.h`, which is
not among the sources. A flag set is an unsigned bitmask. -/
abbrev AssembleFlags := Nat

/-- Modelled from the spec: `assemble_flags.h` is absent; the switch "assemble own cells",
one bit of the mask. -/
def assemble_own_cells : AssembleFlags := 0x0001

/-- Modelled from the spec: `assemble_flags.h` is absent; the switch "assemble ghost cells". -/
def assemble_ghost_cells : AssembleFlags := 0x0002

/-- Modelled from the spec: `assemble_flags.h` is absent; the switch "assemble own interior
faces once". -/
def assemble_own_interior_faces_once : AssembleFlags := 0x0004

/-- Modelled from the spec: `assemble_flags.h` is absent; the switch "assemble own interior
faces both". -/
def assemble_own_interior_faces_both : AssembleFlags := 0x0008

/-- Modelled from the spec: `assemble_flags.h` is absent; the switch "assemble ghost faces
once". -/
def assemble_ghost_faces_once : AssembleFlags := 0x0010

/-- Modelled from the spec: `assemble_flags.h` is absent; the switch "assemble ghost faces
both". -/
def assemble_ghost_faces_both : AssembleFlags := 0x0020

/-- Modelled from the spec: `assemble_flags.h` is absent; the switch "assemble boundary
faces". -/
def assemble_boundary_faces : AssembleFlags := 0x0040

/-- Modelled from the spec: `assemble_flags.h` is absent; the switch "cells after faces". -/
def cells_after_faces : AssembleFlags := 0x0080

/-- Modelled from the spec: `assemble_flags.h` is absent; the two cell-visiting switches. -/
def work_on_cells : AssembleFlags := assemble_own_cells ||| assemble_ghost_cells

/-- Modelled from the spec: `assemble_flags.h` is absent; the four face switches. -/
def work_on_faces : AssembleFlags :=
  assemble_own_interior_faces_once ||| assemble_own_interior_faces_both |||
    assemble_ghost_faces_once ||| assemble_ghost_faces_both

/-- Modelled from the spec: `assemble_flags.h` is absent; the boundary switch. -/
def work_on_boundary : AssembleFlags := assemble_boundary_faces

/-- The conversion of `flags & mask` to `bool` in a condition: the intersection is
non-zero. -/
def test (flags mask : AssembleFlags) : Bool := (flags &&& mask) != 0

/-! ## Reserved identifiers -/

/-- The reserved values of namespace `numbers` that the source compares against. Their
definitions (`types.h`) are not among the sources, so they are parameters. -/
structure Numbers where
  invalid_unsigned_int : Nat
  invalid_subdomain_id : Nat
  artificial_subdomain_id : Nat
  deriving DecidableEq, Repr

/-! ## The mesh, as the cell action reads it -/

/-- The queries `cell_action` makes on the triangulation, on `cell` and on `neighbor`. -/
structure Mesh (Cell : Type) where
  /-- Query `cell->get_triangulation().locally_owned_subdomain()`. -/
  locally_owned_subdomain : Nat
  /-- The constant `GeometryInfo<dim>::faces_per_cell`. -/
  faces_per_cell : Nat
  /-- Query `dealii::internal::is_active_iterator(cell)`: fixed by the iterator type. -/
  is_active_iterator : Bool
  is_level_cell : Cell → Bool
  level_subdomain_id : Cell → Nat
  subdomain_id : Cell → Nat
  active : Cell → Bool
  has_children : Cell → Bool
  level : Cell → Int
  /-- The comparison `a < b` of cell iterators. -/
  less : Cell → Cell → Bool
  at_boundary : Cell → Nat → Bool
  has_periodic_neighbor : Cell → Nat → Bool
  neighbor_or_periodic_neighbor : Cell → Nat → Cell
  neighbor_is_coarser : Cell → Nat → Bool
  periodic_neighbor_is_coarser : Cell → Nat → Bool
  neighbor_of_coarser_neighbor : Cell → Nat → Nat × Nat
  periodic_neighbor_of_coarser_periodic_neighbor : Cell → Nat → Nat × Nat
  neighbor_face_no : Cell → Nat → Nat
  periodic_neighbor_face_no : Cell → Nat → Nat
  /-- The test `neighbor->face(neighbor_face_no) == cell->face(face_no)`, as
  `same_face cell face_no neighbor neighbor_face_no`. -/
  same_face : Cell → Nat → Cell → Nat → Bool

/-! ## Workers, calls and failures -/

/-- The three optional `std::function` workers; `none` is an empty `std::function`. -/
structure Workers (Cell S C : Type) where
  cell_worker : Option (Cell → S → C → S × C)
  boundary_worker : Option (Cell → Nat → S → C → S × C)
  face_worker : Option (Cell → Nat → Nat → Cell → Nat → Nat → S → C → S × C)

/-- One worker invocation with its arguments (scratch and copy data apart). -/
inductive Call (Cell : Type) where
  | cell (c : Cell)
  | boundary (c : Cell) (face_no : Nat)
  | face (c : Cell) (face_no subface_no : Nat) (n : Cell) (n_face_no n_subface_no : Nat)
  deriving DecidableEq, Repr

/-- The assertions of `mesh_loop` that guard the request, in source order. -/
inductive Rule where
  | cell_worker_flags
  | own_interior_faces_once_or_both
  | ghost_faces_once_or_both
  | cells_after_faces_needs_cells
  | face_worker_flags
  | boundary_worker_flags
  deriving DecidableEq, Repr

/-- The ways a call can abort. `ExcMessage` and `ExcInternalError` are violated
`Assert`s; `bad_function_call` is the invocation of an empty `std::function`. -/
inductive Failure where
  | ExcMessage (rule : Rule)
  | ExcInternalError
  | bad_function_call
  deriving DecidableEq, Repr

/-- The data one cell visit works on, and the record of the calls made so far. -/
structure State (Cell S C : Type) where
  scratch : S
  copy : C
  trace : List (Call Cell)

/-- The outcome of a piece of code: the state it ends in, or a failure together with
the state at the point of failure. -/
abbrev Res (Cell S C : Type) := Except (Failure × State Cell S C) (State Cell S C)

/-- The state a piece of code ends in, whether it completed or aborted. -/
def Res.state {Cell S C : Type} : Res Cell S C → State Cell S C
  | .ok st => st
  | .error (_, st) => st

/-- The failure, if any. -/
def Res.failure {Cell S C : Type} : Res Cell S C → Option Failure
  | .ok _ => none
  | .error (e, _) => some e

section Engine

variable {Cell S C : Type}

/-- The call `cell_worker(cell, scratch, copy)`. -/
def call_cell_worker (w : Workers Cell S C) (cell : Cell) (st : State Cell S C) :
    Res Cell S C :=
  match w.cell_worker with
  | none => .error (Failure.bad_function_call, st)
  | some f =>
    .ok { scratch := (f cell st.scratch st.copy).1
          copy := (f cell st.scratch st.copy).2
          trace := st.trace ++ [Call.cell cell] }

/-- The call `boundary_worker(cell, face_no, scratch, copy)`. -/
def call_boundary_worker (w : Workers Cell S C) (cell : Cell) (face_no : Nat)
    (st : State Cell S C) : Res Cell S C :=
  match w.boundary_worker with
  | none => .error (Failure.bad_function_call, st)
  | some f =>
    .ok { scratch := (f cell face_no st.scratch st.copy).1
          copy := (f cell face_no st.scratch st.copy).2
          trace := st.trace ++ [Call.boundary cell face_no] }

/-- The call `face_worker(cell, face_no, subface_no, neighbor, n_face_no, n_subface_no,
scratch, copy)`. -/
def call_face_worker (w : Workers Cell S C) (cell : Cell) (face_no subface_no : Nat)
    (neighbor : Cell) (n_face_no n_subface_no : Nat) (st : State Cell S C) :
    Res Cell S C :=
  match w.face_worker with
  | none => .error (Failure.bad_function_call, st)
  | some f =>
    .ok { scratch :=
            (f cell face_no subface_no neighbor n_face_no n_subface_no st.scratch st.copy).1
          copy :=
            (f cell face_no subface_no neighbor n_face_no n_subface_no st.scratch st.copy).2
          trace :=
            st.trace ++ [Call.face cell face_no subface_no neighbor n_face_no n_subface_no] }

/-- The `current_subdomain_id` of `cell_action` (lines 267-269). -/
def current_subdomain_id (m : Mesh Cell) (cell : Cell) : Nat :=
  if m.is_level_cell cell then m.level_subdomain_id cell else m.subdomain_id cell

/-- The `ignore_subdomain` of `cell_action` (lines 263-265). -/
def ignore_subdomain (num : Numbers) (m : Mesh Cell) : Bool :=
  m.locally_owned_subdomain == num.invalid_subdomain_id

/-- The `own_cell` of `cell_action` (lines 271-274). -/
def own_cell (num : Numbers) (m : Mesh Cell) (cell : Cell) : Bool :=
  ignore_subdomain num m || (current_subdomain_id m cell == m.locally_owned_subdomain)

/-- The `neighbor_subdomain_id` of `cell_action` (lines 304-310). -/
def neighbor_subdomain_id (num : Numbers) (m : Mesh Cell) (neighbor : Cell) : Nat :=
  if m.is_level_cell neighbor then m.level_subdomain_id neighbor
  else if m.active neighbor then m.subdomain_id neighbor
  else num.artificial_subdomain_id

/-- The `own_neighbor` of `cell_action` (lines 312-315). -/
def own_neighbor (num : Numbers) (m : Mesh Cell) (neighbor : Cell) : Bool :=
  ignore_subdomain num m ||
    (neighbor_subdomain_id num m neighbor == m.locally_owned_subdomain)

/-- The refinement-edge branch of the face loop (lines 343-383): the neighbor across
`face_no` is coarser than `cell`. -/
def refinement_edge (num : Numbers) (m : Mesh Cell) (w : Workers Cell S C)
    (flags : AssembleFlags) (cell : Cell) (face_no : Nat) (neighbor : Cell)
    (periodic_neighbor : Bool) (st : State Cell S C) : Res Cell S C :=
  if m.has_children cell then .error (Failure.ExcInternalError, st)
  else if m.has_children neighbor then .error (Failure.ExcInternalError, st)
  -- skip if only one processor needs to assemble the face to a ghost cell and the
  -- fine cell is not ours
  else if !own_cell num m cell && test flags assemble_ghost_faces_once then .ok st
  else
    let neighbor_face_no : Nat × Nat :=
      if periodic_neighbor then m.periodic_neighbor_of_coarser_periodic_neighbor cell face_no
      else m.neighbor_of_coarser_neighbor cell face_no
    match call_face_worker w cell face_no num.invalid_unsigned_int neighbor
        neighbor_face_no.1 neighbor_face_no.2 st with
    | .error e => .error e
    | .ok st1 =>
      if test flags assemble_own_interior_faces_both then
        -- call the face worker again with swapped arguments
        call_face_worker w neighbor neighbor_face_no.1 neighbor_face_no.2 cell
          face_no num.invalid_unsigned_int st1
      else .ok st1

/-- The other branch of the face loop (lines 385-434): the neighbor is not coarser. -/
def same_level (num : Numbers) (m : Mesh Cell) (w : Workers Cell S C)
    (flags : AssembleFlags) (cell : Cell) (face_no : Nat) (neighbor : Cell)
    (periodic_neighbor : Bool) (st : State Cell S C) : Res Cell S C :=
  -- if iterator is active and neighbor is refined, skip internal face
  if m.is_active_iterator && m.has_children neighbor then .ok st
  -- now neighbor is on same level, double-check this
  else if m.level cell != m.level neighbor then .error (Failure.ExcInternalError, st)
  -- if we own both cells only do faces from one side
  else if own_cell num m cell && own_neighbor num m neighbor &&
      test flags assemble_own_interior_faces_once && m.less neighbor cell then .ok st
  -- we only look at faces to ghost on the same level once
  else if !own_cell num m cell then .ok st
  -- the processor with the smaller (level-)subdomain id assembles the face
  else if own_cell num m cell && !own_neighbor num m neighbor &&
      test flags assemble_ghost_faces_once &&
      decide (neighbor_subdomain_id num m neighbor < current_subdomain_id m cell)
    then .ok st
  else
    let neighbor_face_no : Nat :=
      if periodic_neighbor then m.periodic_neighbor_face_no cell face_no
      else m.neighbor_face_no cell face_no
    if !(periodic_neighbor || m.same_face cell face_no neighbor neighbor_face_no) then
      .error (Failure.ExcInternalError, st)
    else
      call_face_worker w cell face_no num.invalid_unsigned_int neighbor
        neighbor_face_no num.invalid_unsigned_int st

/-- The body of the face loop of `cell_action` (lines 290-436) for one `face_no`;
`continue` is completion with the state unchanged. -/
def face_body (num : Numbers) (m : Mesh Cell) (w : Workers Cell S C) (flags : AssembleFlags)
    (cell : Cell) (face_no : Nat) (st : State Cell S C) : Res Cell S C :=
  if m.at_boundary cell face_no && !m.has_periodic_neighbor cell face_no then
    -- only integrate boundary faces of own cells
    if test flags assemble_boundary_faces && own_cell num m cell then
      call_boundary_worker w cell face_no st
    else .ok st
  else
    -- interior face, potentially assemble
    let neighbor := m.neighbor_or_periodic_neighbor cell face_no
    -- skip all faces between two ghost cells
    if !own_cell num m cell && !own_neighbor num m neighbor then .ok st
    -- skip if the user doesn't want faces between own cells
    else if own_cell num m cell && own_neighbor num m neighbor &&
        !test flags (assemble_own_interior_faces_both ||| assemble_own_interior_faces_once)
      then .ok st
    -- skip face to ghost
    else if (own_cell num m cell != own_neighbor num m neighbor) &&
        !test flags (assemble_ghost_faces_both ||| assemble_ghost_faces_once)
      then .ok st
    else
      let periodic_neighbor := m.has_periodic_neighbor cell face_no
      if (!periodic_neighbor && m.neighbor_is_coarser cell face_no) ||
          (periodic_neighbor && m.periodic_neighbor_is_coarser cell face_no) then
        refinement_edge num m w flags cell face_no neighbor periodic_neighbor st
      else
        same_level num m w flags cell face_no neighbor periodic_neighbor st

/-- The face loop `for (face_no = 0; face_no < faces_per_cell; ++face_no)` run over the
face numbers still to visit. -/
def face_loop (num : Numbers) (m : Mesh Cell) (w : Workers Cell S C) (flags : AssembleFlags)
    (cell : Cell) : List Nat → State Cell S C → Res Cell S C
  | [], st => .ok st
  | face_no :: rest, st =>
    match face_body num m w flags cell face_no st with
    | .error e => .error e
    | .ok st1 => face_loop num m w flags cell rest st1

/-- The guard of both `cell_worker` calls of `cell_action` (lines 281-282, 440-441). -/
def cell_guard (num : Numbers) (m : Mesh Cell) (flags : AssembleFlags) (cell : Cell) : Bool :=
  (test flags assemble_own_cells && own_cell num m cell) ||
    (test flags assemble_ghost_cells && !own_cell num m cell)

/-- The lambda `cell_action` of `mesh_loop` (lines 256-443). The record of calls of a
visit starts empty. -/
def cell_action (num : Numbers) (m : Mesh Cell) (w : Workers Cell S C) (flags : AssembleFlags)
    (sample_copy_data : C) (cell : Cell) (scratch : S) (copy : C) : Res Cell S C :=
  let st : State Cell S C := { scratch := scratch, copy := copy, trace := [] }
  -- first reset the CopyData class to the empty copy_data given by the user
  let st0 : State Cell S C := { st with copy := sample_copy_data }
  if !ignore_subdomain num m &&
      (current_subdomain_id m cell == num.artificial_subdomain_id) then .ok st0
  else
    match (if !test flags cells_after_faces && cell_guard num m flags cell then
             call_cell_worker w cell st0
           else .ok st0) with
    | .error e => .error e
    | .ok st1 =>
      match (if test flags (work_on_faces ||| work_on_boundary) then
               face_loop num m w flags cell (List.range m.faces_per_cell) st1
             else .ok st1) with
      | .error e => .error e
      | .ok st2 =>
        -- execute the cell_worker if faces are handled before cells
        if test flags cells_after_faces && cell_guard num m flags cell then
          call_cell_worker w cell st2
        else .ok st2

/-- What a traversal leaves behind: the data the copier has accumulated, the record of
the worker calls made, and the failure that aborted it, if any. -/
structure Outcome (Cell G : Type) where
  global : G
  trace : List (Call Cell)
  failure : Option Failure

/-- Modelled from the spec: the item loop of `WorkStream::run` (`work_stream.h` is absent).
Each cell of the range is handed once to the worker, with the scratch workspace of the
executing thread and a copy of the sample result; the copier then consumes the result, in
submission order. One thread is modelled, so the scratch workspace passes from one cell to
the next. A failing worker aborts the run. -/
def WorkStream.run_items {G : Type} (worker : Cell → S → C → Res Cell S C)
    (copier : C → G → G) (sample_copy_data : C) :
    List Cell → S → G → List (Call Cell) → Outcome Cell G
  | [], _, g, tr => { global := g, trace := tr, failure := none }
  | cell :: rest, scratch, g, tr =>
    match worker cell scratch sample_copy_data with
    | .error (e, st) => { global := g, trace := tr ++ st.trace, failure := some e }
    | .ok st =>
      WorkStream.run_items worker copier sample_copy_data rest st.scratch (copier st.copy g)
        (tr ++ st.trace)

/-- Modelled from the spec: `WorkStream::run` (`work_stream.h` is absent). The range
`[begin, end)` is the list of its cells; `queue_length` and `chunk_size` tune the pipeline
and do not affect which calls are made. -/
def WorkStream.run {G : Type} (cells : List Cell) (worker : Cell → S → C → Res Cell S C)
    (copier : C → G → G) (sample_scratch_data : S) (sample_copy_data : C)
    (_queue_length _chunk_size : Nat) (g : G) : Outcome Cell G :=
  WorkStream.run_items worker copier sample_copy_data cells sample_scratch_data g []

/-- A violated `Assert` of `mesh_loop`: the call aborts where it stands. Modelled from the
spec: the `Assert` macro (`exceptions.h`) is absent; a violated precondition is fatal to
the call. -/
def assert_failed {G : Type} (rule : Rule) (g : G) : Outcome Cell G :=
  { global := g, trace := [], failure := some (Failure.ExcMessage rule) }

/-- The function `mesh_loop` (lines 179-454): the six assertions on the request, then
the submission of `cell_action` to `WorkStream::run`. `g` is the data the copier
accumulates into. -/
def mesh_loop {G : Type} (num : Numbers) (m : Mesh Cell) (cells : List Cell)
    (w : Workers Cell S C) (copier : C → G → G) (sample_scratch_data : S)
    (sample_copy_data : C) (flags : AssembleFlags) (queue_length chunk_size : Nat) (g : G) :
    Outcome Cell G :=
  if !(w.cell_worker.isNone == !test flags work_on_cells) then
    assert_failed Rule.cell_worker_flags g
  else if !((flags &&& (assemble_own_interior_faces_once ||| assemble_own_interior_faces_both))
      != (assemble_own_interior_faces_once ||| assemble_own_interior_faces_both)) then
    assert_failed Rule.own_interior_faces_once_or_both g
  else if !((flags &&& (assemble_ghost_faces_once ||| assemble_ghost_faces_both))
      != (assemble_ghost_faces_once ||| assemble_ghost_faces_both)) then
    assert_failed Rule.ghost_faces_once_or_both g
  else if !(!test flags cells_after_faces ||
      test flags (assemble_own_cells ||| assemble_ghost_cells)) then
    assert_failed Rule.cells_after_faces_needs_cells g
  else if !(w.face_worker.isNone == !test flags work_on_faces) then
    assert_failed Rule.face_worker_flags g
  else if !(w.boundary_worker.isNone == !test flags assemble_boundary_faces) then
    assert_failed Rule.boundary_worker_flags g
  else
    -- submit to workstream
    WorkStream.run cells (cell_action num m w flags sample_copy_data) copier
      sample_scratch_data sample_copy_data queue_length chunk_size g

/-! ## The decisions of a visit, separated from their execution

The workers cannot influence the control flow of `cell_action`: which calls are made is
a function of the mesh and the flags alone. The definitions below compute that list of
calls; `cell_action_eq_run` shows that `cell_action` is the execution of it. -/

/-- The calls the refinement-edge branch decides on, or the assertion it trips before
making any. -/
def refinement_edge_plan (num : Numbers) (m : Mesh Cell) (flags : AssembleFlags)
    (cell : Cell) (face_no : Nat) (neighbor : Cell) (periodic_neighbor : Bool) :
    Except Failure (List (Call Cell)) :=
  if m.has_children cell then .error Failure.ExcInternalError
  else if m.has_children neighbor then .error Failure.ExcInternalError
  else if !own_cell num m cell && test flags assemble_ghost_faces_once then .ok []
  else
    let neighbor_face_no : Nat × Nat :=
      if periodic_neighbor then m.periodic_neighbor_of_coarser_periodic_neighbor cell face_no
      else m.neighbor_of_coarser_neighbor cell face_no
    if test flags assemble_own_interior_faces_both then
      .ok [Call.face cell face_no num.invalid_unsigned_int neighbor
             neighbor_face_no.1 neighbor_face_no.2,
           Call.face neighbor neighbor_face_no.1 neighbor_face_no.2 cell
             face_no num.invalid_unsigned_int]
    else
      .ok [Call.face cell face_no num.invalid_unsigned_int neighbor
             neighbor_face_no.1 neighbor_face_no.2]

/-- The calls the not-coarser branch decides on, or the assertion it trips before
making any. -/
def same_level_plan (num : Numbers) (m : Mesh Cell) (flags : AssembleFlags)
    (cell : Cell) (face_no : Nat) (neighbor : Cell) (periodic_neighbor : Bool) :
    Except Failure (List (Call Cell)) :=
  if m.is_active_iterator && m.has_children neighbor then .ok []
  else if m.level cell != m.level neighbor then .error Failure.ExcInternalError
  else if own_cell num m cell && own_neighbor num m neighbor &&
      test flags assemble_own_interior_faces_once && m.less neighbor cell then .ok []
  else if !own_cell num m cell then .ok []
  else if own_cell num m cell && !own_neighbor num m neighbor &&
      test flags assemble_ghost_faces_once &&
      decide (neighbor_subdomain_id num m neighbor < current_subdomain_id m cell)
    then .ok []
  else
    let neighbor_face_no : Nat :=
      if periodic_neighbor then m.periodic_neighbor_face_no cell face_no
      else m.neighbor_face_no cell face_no
    if !(periodic_neighbor || m.same_face cell face_no neighbor neighbor_face_no) then
      .error Failure.ExcInternalError
    else
      .ok [Call.face cell face_no num.invalid_unsigned_int neighbor
             neighbor_face_no num.invalid_unsigned_int]

/-- The calls the body of the face loop decides on for `face_no`, or the assertion it
trips before making any. -/
def face_plan (num : Numbers) (m : Mesh Cell) (flags : AssembleFlags) (cell : Cell)
    (face_no : Nat) : Except Failure (List (Call Cell)) :=
  if m.at_boundary cell face_no && !m.has_periodic_neighbor cell face_no then
    if test flags assemble_boundary_faces && own_cell num m cell then
      .ok [Call.boundary cell face_no]
    else .ok []
  else
    let neighbor := m.neighbor_or_periodic_neighbor cell face_no
    if !own_cell num m cell && !own_neighbor num m neighbor then .ok []
    else if own_cell num m cell && own_neighbor num m neighbor &&
        !test flags (assemble_own_interior_faces_both ||| assemble_own_interior_faces_once)
      then .ok []
    else if (own_cell num m cell != own_neighbor num m neighbor) &&
        !test flags (assemble_ghost_faces_both ||| assemble_ghost_faces_once)
      then .ok []
    else
      let periodic_neighbor := m.has_periodic_neighbor cell face_no
      if (!periodic_neighbor && m.neighbor_is_coarser cell face_no) ||
          (periodic_neighbor && m.periodic_neighbor_is_coarser cell face_no) then
        refinement_edge_plan num m flags cell face_no neighbor periodic_neighbor
      else
        same_level_plan num m flags cell face_no neighbor periodic_neighbor

/-- The calls the face loop decides on over the given face numbers, up to the first
tripped assertion, and that assertion. -/
def loop_plan (num : Numbers) (m : Mesh Cell) (flags : AssembleFlags) (cell : Cell) :
    List Nat → List (Call Cell) × Option Failure
  | [] => ([], none)
  | face_no :: rest =>
    match face_plan num m flags cell face_no with
    | .error e => ([], some e)
    | .ok l =>
      (l ++ (loop_plan num m flags cell rest).1, (loop_plan num m flags cell rest).2)

/-- The calls a whole visit decides on, up to the first tripped assertion, and that
assertion. -/
def cell_plan (num : Numbers) (m : Mesh Cell) (flags : AssembleFlags) (cell : Cell) :
    List (Call Cell) × Option Failure :=
  if !ignore_subdomain num m &&
      (current_subdomain_id m cell == num.artificial_subdomain_id) then ([], none)
  else
    let before : List (Call Cell) :=
      if !test flags cells_after_faces && cell_guard num m flags cell then [Call.cell cell]
      else []
    let faces : List (Call Cell) × Option Failure :=
      if test flags (work_on_faces ||| work_on_boundary) then
        loop_plan num m flags cell (List.range m.faces_per_cell)
      else ([], none)
    let after : List (Call Cell) :=
      if test flags cells_after_faces && cell_guard num m flags cell then [Call.cell cell]
      else []
    match faces.2 with
    | some e => (before ++ faces.1, some e)
    | none => (before ++ faces.1 ++ after, none)

/-- The execution of one recorded call. -/
def invoke (w : Workers Cell S C) : Call Cell → State Cell S C → Res Cell S C
  | .cell c, st => call_cell_worker w c st
  | .boundary c f, st => call_boundary_worker w c f st
  | .face c f sf n nf nsf, st => call_face_worker w c f sf n nf nsf st

/-- The execution of a list of calls in order, aborting at the first empty worker. -/
def exec (w : Workers Cell S C) : List (Call Cell) → State Cell S C → Res Cell S C
  | [], st => .ok st
  | c :: cs, st =>
    match invoke w c st with
    | .error e => .error e
    | .ok st1 => exec w cs st1

/-- The execution of a list of calls followed by the tripped assertion, if any. -/
def run (w : Workers Cell S C) (p : List (Call Cell) × Option Failure)
    (st : State Cell S C) : Res Cell S C :=
  match exec w p.1 st with
  | .error e => .error e
  | .ok st1 =>
    match p.2 with
    | none => .ok st1
    | some e => .error (e, st1)

/-- The effect of the calls of a list on scratch and copy data, with no record kept and
absent workers skipped: "the callbacks applied in order". -/
def replay (w : Workers Cell S C) : List (Call Cell) → S × C → S × C
  | [], x => x
  | .cell c :: cs, x =>
    replay w cs (match w.cell_worker with | some f => f c x.1 x.2 | none => x)
  | .boundary c f :: cs, x =>
    replay w cs (match w.boundary_worker with | some g => g c f x.1 x.2 | none => x)
  | .face c f sf n nf nsf :: cs, x =>
    replay w cs (match w.face_worker with | some g => g c f sf n nf nsf x.1 x.2 | none => x)

/-- A call that addresses the face `face_no` of `cell`: a boundary call on it, or a
face call with `(cell, face_no)` on either side. -/
def Call.involves [DecidableEq Cell] (cell : Cell) (face_no : Nat) : Call Cell → Bool
  | .cell _ => false
  | .boundary c f => decide (c = cell ∧ f = face_no)
  | .face c f _ n nf _ => decide ((c = cell ∧ f = face_no) ∨ (n = cell ∧ nf = face_no))

/-- A face call for the pairing of face `fa` of `a` with face `fb` of `b`, with either
cell as the current one. -/
def Call.between [DecidableEq Cell] (a : Cell) (fa : Nat) (b : Cell) (fb : Nat) :
    Call Cell → Bool
  | .face c f _ n nf _ =>
    decide ((c = a ∧ f = fa ∧ n = b ∧ nf = fb) ∨ (c = b ∧ f = fb ∧ n = a ∧ nf = fa))
  | _ => false

/-- A cell-worker call. -/
def Call.isCell : Call Cell → Bool
  | .cell _ => true
  | _ => false

/-- The calls decided on for `face_no` when no assertion is tripped there. -/
def face_calls (num : Numbers) (m : Mesh Cell) (flags : AssembleFlags) (cell : Cell)
    (face_no : Nat) : List (Call Cell) :=
  match face_plan num m flags cell face_no with
  | .ok l => l
  | .error _ => []

/-! ## Vocabulary for the statements -/

/-- The test of line 291-292: `face_no` is a boundary face of `cell`, with no periodic
pairing. -/
def Mesh.boundary_face (m : Mesh Cell) (cell : Cell) (face_no : Nat) : Bool :=
  m.at_boundary cell face_no && !m.has_periodic_neighbor cell face_no

/-- The test of lines 339-342: the neighbor across `face_no` is coarser than `cell`. -/
def Mesh.coarser (m : Mesh Cell) (cell : Cell) (face_no : Nat) : Bool :=
  (!m.has_periodic_neighbor cell face_no && m.neighbor_is_coarser cell face_no) ||
    (m.has_periodic_neighbor cell face_no && m.periodic_neighbor_is_coarser cell face_no)

/-- The coarser-neighbor lookup of lines 352-357: face and subface number of the
coarser neighbor. -/
def Mesh.coarser_face_no (m : Mesh Cell) (cell : Cell) (face_no : Nat) : Nat × Nat :=
  if m.has_periodic_neighbor cell face_no then
    m.periodic_neighbor_of_coarser_periodic_neighbor cell face_no
  else m.neighbor_of_coarser_neighbor cell face_no

/-- The lookup of lines 417-420: the neighbor's number for the face `face_no` of `cell`. -/
def Mesh.matching_face_no (m : Mesh Cell) (cell : Cell) (face_no : Nat) : Nat :=
  if m.has_periodic_neighbor cell face_no then m.periodic_neighbor_face_no cell face_no
  else m.neighbor_face_no cell face_no

/-- The early return of lines 276-278: the cell is artificial for this participant. -/
def is_artificial (num : Numbers) (m : Mesh Cell) (cell : Cell) : Bool :=
  !ignore_subdomain num m && (current_subdomain_id m cell == num.artificial_subdomain_id)

/-- The mesh as participant `p` sees it: the same cells and owner identifiers, with `p`
as the locally owned subdomain. -/
def Mesh.as_participant (m : Mesh Cell) (p : Nat) : Mesh Cell :=
  { m with locally_owned_subdomain := p }

/-- The interior face `face_no` of `cell` gets past the three skips of lines 317-331:
faces between two cells that are not owned, faces between own cells when no own-face flag
is set, faces to a ghost when no ghost-face flag is set. -/
def passes_filters (num : Numbers) (m : Mesh Cell) (flags : AssembleFlags) (cell : Cell)
    (face_no : Nat) : Bool :=
  !(!own_cell num m cell && !own_neighbor num m (m.neighbor_or_periodic_neighbor cell face_no))
    && !(own_cell num m cell && own_neighbor num m (m.neighbor_or_periodic_neighbor cell face_no)
      && !test flags (assemble_own_interior_faces_both ||| assemble_own_interior_faces_once))
    && !((own_cell num m cell != own_neighbor num m (m.neighbor_or_periodic_neighbor cell face_no))
      && !test flags (assemble_ghost_faces_both ||| assemble_ghost_faces_once))

/-- The face `face_no` of `cell`, whose neighbor is not coarser, gets past the three
skips of lines 396-415: the face between own cells taken from the other side under "once",
the visited cell that is not owned, the face to a ghost left to the participant with the
smaller identifier under "once". -/
def passes_once_rules (num : Numbers) (m : Mesh Cell) (flags : AssembleFlags) (cell : Cell)
    (face_no : Nat) : Bool :=
  !(own_cell num m cell && own_neighbor num m (m.neighbor_or_periodic_neighbor cell face_no) &&
      test flags assemble_own_interior_faces_once &&
      m.less (m.neighbor_or_periodic_neighbor cell face_no) cell)
    && !(!own_cell num m cell)
    && !(own_cell num m cell &&
      !own_neighbor num m (m.neighbor_or_periodic_neighbor cell face_no) &&
      test flags assemble_ghost_faces_once &&
      decide (neighbor_subdomain_id num m (m.neighbor_or_periodic_neighbor cell face_no) <
        current_subdomain_id m cell))

/-- The first face-worker call of the refinement-edge branch (lines 359-366). -/
def edge_call (num : Numbers) (m : Mesh Cell) (cell : Cell) (face_no : Nat) : Call Cell :=
  Call.face cell face_no num.invalid_unsigned_int (m.neighbor_or_periodic_neighbor cell face_no)
    (m.coarser_face_no cell face_no).1 (m.coarser_face_no cell face_no).2

/-- The second face-worker call of the refinement-edge branch, with the two sides swapped
(lines 374-381). -/
def edge_call_swapped (num : Numbers) (m : Mesh Cell) (cell : Cell) (face_no : Nat) :
    Call Cell :=
  Call.face (m.neighbor_or_periodic_neighbor cell face_no) (m.coarser_face_no cell face_no).1
    (m.coarser_face_no cell face_no).2 cell face_no num.invalid_unsigned_int

/-- The face-worker call of the branch in which the neighbor is not coarser (lines
426-433). -/
def level_call (num : Numbers) (m : Mesh Cell) (cell : Cell) (face_no : Nat) : Call Cell :=
  Call.face cell face_no num.invalid_unsigned_int (m.neighbor_or_periodic_neighbor cell face_no)
    (m.matching_face_no cell face_no) num.invalid_unsigned_int

/-- A face-worker call. -/
def Call.isFace : Call Cell → Bool
  | .face _ _ _ _ _ _ => true
  | _ => false

/-- The six asserted conditions of `mesh_loop` (lines 223-254) hold of the request. -/
def request_valid (w : Workers Cell S C) (flags : AssembleFlags) : Bool :=
  (w.cell_worker.isNone == !test flags work_on_cells) &&
  ((flags &&& (assemble_own_interior_faces_once ||| assemble_own_interior_faces_both))
    != (assemble_own_interior_faces_once ||| assemble_own_interior_faces_both)) &&
  ((flags &&& (assemble_ghost_faces_once ||| assemble_ghost_faces_both))
    != (assemble_ghost_faces_once ||| assemble_ghost_faces_both)) &&
  (!test flags cells_after_faces ||
    test flags (assemble_own_cells ||| assemble_ghost_cells)) &&
  (w.face_worker.isNone == !test flags work_on_faces) &&
  (w.boundary_worker.isNone == !test flags assemble_boundary_faces)

/-- The worker a recorded call invokes is supplied. -/
def Call.supplied (w : Workers Cell S C) : Call Cell → Bool
  | .cell _ => w.cell_worker.isSome
  | .boundary _ _ => w.boundary_worker.isSome
  | .face _ _ _ _ _ _ => w.face_worker.isSome

end Engine

/-! ## Concrete meshes and workers -/

/-- The reserved values as they are for 32-bit unsigned identifiers. -/
def numbers32 : Numbers :=
  { invalid_unsigned_int := 4294967295
    invalid_subdomain_id := 4294967295
    artificial_subdomain_id := 4294967294 }

/-- Two active cells `0` and `1` side by side on level 0, with two faces each: face 1 of
cell 0 is face 0 of cell 1, the two outer faces are at the boundary. Cell `c` belongs to
subdomain `c`; `owner` is the locally owned subdomain. -/
def two_cells (owner : Nat) : Mesh Nat :=
  { locally_owned_subdomain := owner
    faces_per_cell := 2
    is_active_iterator := true
    is_level_cell := fun _ => false
    level_subdomain_id := fun c => c
    subdomain_id := fun c => c
    active := fun _ => true
    has_children := fun _ => false
    level := fun _ => 0
    less := fun a b => decide (a < b)
    at_boundary := fun c f => decide (c = f)
    has_periodic_neighbor := fun _ _ => false
    neighbor_or_periodic_neighbor := fun c _ => 1 - c
    neighbor_is_coarser := fun _ _ => false
    periodic_neighbor_is_coarser := fun _ _ => false
    neighbor_of_coarser_neighbor := fun _ _ => (0, 0)
    periodic_neighbor_of_coarser_periodic_neighbor := fun _ _ => (0, 0)
    neighbor_face_no := fun _ f => 1 - f
    periodic_neighbor_face_no := fun _ f => 1 - f
    same_face := fun c f n nf => decide (c + f = n + nf) }

/-- A refinement edge, two faces per cell: the coarse active cell `0` and the refined
cell `1` are on level 0; cell `2`, a child of cell `1` on level 1, meets face 1 of cell
`0` through its face 0. Seen from cell `0`, the neighbor across face 1 is the refined
cell `1`. All cells belong to subdomain `owner_of_coarse` except cell `2`, which belongs
to subdomain 7; `owner` is the locally owned subdomain. -/
def hanging (owner owner_of_coarse : Nat) : Mesh Nat :=
  { locally_owned_subdomain := owner
    faces_per_cell := 2
    is_active_iterator := true
    is_level_cell := fun _ => false
    level_subdomain_id := fun c => if c = 2 then 7 else owner_of_coarse
    subdomain_id := fun c => if c = 2 then 7 else owner_of_coarse
    active := fun c => decide (c ≠ 1)
    has_children := fun c => decide (c = 1)
    level := fun c => if c = 2 then 1 else 0
    less := fun a b => decide (a < b)
    at_boundary := fun c f => decide ((c = 0 ∧ f = 0) ∨ (c = 2 ∧ f = 1) ∨ (c = 1 ∧ f = 1))
    has_periodic_neighbor := fun _ _ => false
    neighbor_or_periodic_neighbor := fun c _ => if c = 0 then 1 else 0
    neighbor_is_coarser := fun c f => decide (c = 2 ∧ f = 0)
    periodic_neighbor_is_coarser := fun _ _ => false
    neighbor_of_coarser_neighbor := fun _ _ => (1, 0)
    periodic_neighbor_of_coarser_periodic_neighbor := fun _ _ => (1, 0)
    neighbor_face_no := fun _ f => 1 - f
    periodic_neighbor_face_no := fun _ f => 1 - f
    same_face := fun _ _ _ _ => true }

/-- Workers that count: the cell worker adds 1 to the copy data, the boundary worker 10,
the face worker 100; each adds 1 to the scratch data. -/
def counting : Workers Nat Nat Nat :=
  { cell_worker := some (fun _ s c => (s + 1, c + 1))
    boundary_worker := some (fun _ _ s c => (s + 1, c + 10))
    face_worker := some (fun _ _ _ _ _ _ s c => (s + 1, c + 100)) }

/-- One active cell `0` with two faces that are periodic images of each other: across
either face the periodic neighbor of the cell is the cell itself. The mesh is not
partitioned. -/
def self_periodic : Mesh Nat :=
  { locally_owned_subdomain := 4294967295
    faces_per_cell := 2
    is_active_iterator := true
    is_level_cell := fun _ => false
    level_subdomain_id := fun _ => 0
    subdomain_id := fun _ => 0
    active := fun _ => true
    has_children := fun _ => false
    level := fun _ => 0
    less := fun a b => decide (a < b)
    at_boundary := fun _ _ => true
    has_periodic_neighbor := fun _ _ => true
    neighbor_or_periodic_neighbor := fun c _ => c
    neighbor_is_coarser := fun _ _ => false
    periodic_neighbor_is_coarser := fun _ _ => false
    neighbor_of_coarser_neighbor := fun _ _ => (0, 0)
    periodic_neighbor_of_coarser_periodic_neighbor := fun _ _ => (0, 0)
    neighbor_face_no := fun _ f => 1 - f
    periodic_neighbor_face_no := fun _ f => 1 - f
    same_face := fun c f n nf => decide (c = n ∧ f = nf) }

/-- The two-cell mesh traversed with level iterators, as in a multigrid loop: every cell
is a level cell, both cells are active, and each cell has level-subdomain id 3 and
subdomain id 5; `owner` is the locally owned subdomain. -/
def level_cells (owner : Nat) : Mesh Nat :=
  { two_cells owner with
    is_active_iterator := false
    is_level_cell := fun _ => true
    level_subdomain_id := fun _ => 3
    subdomain_id := fun _ => 5 }

/-- The refinement edge of `hanging`, corrupted: the fine cell `2`, whose neighbor across
face 0 is reported coarser, has children itself. -/
def broken_edge (owner owner_of_coarse : Nat) : Mesh Nat :=
  { hanging owner owner_of_coarse with
    has_children := fun c => decide (c = 1 ∨ c = 2) }

/-- The mesh `hanging` traversed with a non-active iterator. -/
def hanging_level (owner owner_of_coarse : Nat) : Mesh Nat :=
  { hanging owner owner_of_coarse with is_active_iterator := false }

/-- A cell worker alone, adding 1 to scratch and copy data. -/
def cell_only : Workers Nat Nat Nat :=
  { cell_worker := some (fun _ s c => (s + 1, c + 1))
    boundary_worker := none
    face_worker := none }

/-! ## The member-function variant of `mesh_loop` -/

section Member

variable {Cell S C : Type}

/-- The overload of `mesh_loop` for worker and copier member functions of a class (lines
650-735). `main_class` is the caller's object; a member function is a function of the
object it is called on, and a null member pointer is `none`. The three workers are bound
with `std::ref(main_class)`, so they are called on the caller's object, which they are
modelled as reading. The copier is bound with `std::bind(copier, main_class, _1)`: the
binder stores a copy of `main_class`, and the bound copier is called on that copy. The
result is the caller's object after the call, together with the outcome of the inner
`mesh_loop`, whose `global` is the copy held by the bound copier. -/
def mesh_loop_member {M : Type} (num : Numbers) (m : Mesh Cell) (cells : List Cell)
    (main_class : M) (cell_worker : Option (M → Cell → S → C → S × C))
    (copier : M → C → M) (sample_scratch_data : S) (sample_copy_data : C)
    (flags : AssembleFlags)
    (boundary_worker : Option (M → Cell → Nat → S → C → S × C))
    (face_worker : Option (M → Cell → Nat → Nat → Cell → Nat → Nat → S → C → S × C))
    (queue_length chunk_size : Nat) : M × Outcome Cell M :=
  let f_cell_worker : Option (Cell → S → C → S × C) :=
    match cell_worker with
    | some f => some (f main_class)
    | none => none
  let f_boundary_worker : Option (Cell → Nat → S → C → S × C) :=
    match boundary_worker with
    | some f => some (f main_class)
    | none => none
  let f_face_worker : Option (Cell → Nat → Nat → Cell → Nat → Nat → S → C → S × C) :=
    match face_worker with
    | some f => some (f main_class)
    | none => none
  let bound_copy : M := main_class
  (main_class,
    mesh_loop num m cells
      { cell_worker := f_cell_worker
        boundary_worker := f_boundary_worker
        face_worker := f_face_worker }
      (fun copy_data object => copier object copy_data)
      sample_scratch_data sample_copy_data flags queue_length chunk_size bound_copy)

end Member

end MeshWorker

/-! ## MultithreadInfo: the limit on the number of threads

`source/base/multithread_info.cc`, the branch compiled with `DEAL_II_WITH_THREADS`. -/

namespace MultithreadInfo

/-- The exceptions of `set_thread_limit` and `n_threads`. -/
inductive Thrown where
  | not_an_integer
  | not_a_positive_number
  | ExcInternalError
  deriving DecidableEq, Repr

/-- The conversion of an `int` to `unsigned int` in the initialisation
`unsigned int max_threads_env = Utilities::string_to_int(...)`: reduction modulo 2^32. -/
def to_unsigned (i : Int) : Nat := (i % 4294967296).toNat

/-- The function `MultithreadInfo::set_thread_limit` (lines 115-165). `penv` is the result
of `getenv("DEAL_II_NUM_THREADS")`, `none` for a null pointer. `string_to_int` is
`Utilities::string_to_int`, which is not among the sources: it returns an `int`, or throws
(`none`). `default_num_threads` is what TBB recommends. The result is the new value of the
static `n_max_threads`; when an exception is thrown, it comes with the value
`n_max_threads` has at that point. The initialisation of the scheduler has no part in the
value. -/
def set_thread_limit (num : MeshWorker.Numbers) (string_to_int : String → Option Int)
    (default_num_threads : Nat) (penv : Option String) (max_threads : Nat) :
    Except (Thrown × Nat) Nat :=
  -- set the maximal number of threads to the given value as specified
  let n_max_threads : Nat := max_threads
  -- then also see if something was given in the environment
  let from_env : Except (Thrown × Nat) Nat :=
    match penv with
    | none => .ok n_max_threads
    | some text =>
      match string_to_int text with
      | none => .error (Thrown.not_an_integer, n_max_threads)
      | some i =>
        let max_threads_env : Nat := to_unsigned i
        if !decide (max_threads_env > 0) then
          .error (Thrown.not_a_positive_number, n_max_threads)
        else if n_max_threads != num.invalid_unsigned_int then
          .ok (min n_max_threads max_threads_env)
        else .ok max_threads_env
  match from_env with
  | .error e => .error e
  | .ok n =>
    -- without restrictions from the user query TBB for the recommended number of threads
    if n == num.invalid_unsigned_int then .ok default_num_threads else .ok n

/-- The function `MultithreadInfo::n_threads` (lines 168-173), given the value of the
static `n_max_threads`. -/
def n_threads (num : MeshWorker.Numbers) (n_max_threads : Nat) : Except Thrown Nat :=
  if !(n_max_threads != num.invalid_unsigned_int) then .error Thrown.ExcInternalError
  else .ok n_max_threads

end MultithreadInfo

/-! ## LinearAlgebra::Vector::l2_norm: the scaled fallback loop

`include/deal.II/lac/la_vector.templates.h`, lines 484-505, over an ordered field in place
of the floating-point `real_type`, for a vector of real entries. -/

namespace LinearAlgebra

/-- The body of the fallback loop of `Vector::l2_norm` (lines 490-501) on the entry `x`,
from the values `(scale, sum)`. A division by zero is recorded as `none`. -/
def Vector.l2_norm_step {K : Type} [LinearOrderedField K] (acc : K × K) (x : K) :
    Option (K × K) :=
  if x ≠ 0 then
    let abs_x : K := abs x
    if acc.1 < abs_x then
      if abs_x = 0 then none
      else some (abs_x, 1 + acc.2 * (acc.1 / abs_x) * (acc.1 / abs_x))
    else
      if acc.1 = 0 then none
      else some (acc.1, acc.2 + (abs_x / acc.1) * (abs_x / acc.1))
  else some acc

/-- The fallback loop of `Vector::l2_norm` (lines 488-502) over the entries still to
process. -/
def Vector.l2_norm_loop {K : Type} [LinearOrderedField K] : List K → K × K → Option (K × K)
  | [], acc => some acc
  | x :: rest, acc =>
    match Vector.l2_norm_step acc x with
    | none => none
    | some acc1 => Vector.l2_norm_loop rest acc1

/-- The else-branch of `Vector::l2_norm` (lines 484-505): the loop from `scale = 0`,
`sum = 1`, then `scale * std::sqrt(sum)`. `sqrt` is `std::sqrt`. -/
def Vector.l2_norm_fallback {K : Type} [LinearOrderedField K] (sqrt : K → K)
    (values : List K) : Option K :=
  match Vector.l2_norm_loop values (0, 1) with
  | none => none
  | some acc => some (acc.1 * sqrt acc.2)

end LinearAlgebra

namespace MeshWorker

/-! ## Flag arithmetic -/

theorem lor_eq_zero (x y : Nat) : x ||| y = 0 ↔ x = 0 ∧ y = 0 := by
  constructor
  · intro h
    have key : ∀ i, (x.testBit i || y.testBit i) = false := by
      intro i
      rw [← Nat.testBit_or, h]
      simp
    constructor <;>
    · apply Nat.eq_of_testBit_eq
      intro i
      have := key i
      simp only [Bool.or_eq_false_iff] at this
      simp [this.1, this.2]
  · rintro ⟨rfl, rfl⟩
    rfl

theorem test_or (f a b : Nat) : test f (a ||| b) = (test f a || test f b) := by
  unfold test
  rw [Nat.and_or_distrib_left, Bool.eq_iff_iff]
  simp only [bne_iff_ne, ne_eq, lor_eq_zero, Bool.or_eq_true]
  tauto

theorem and_bit_cases (f i : Nat) : f &&& 2 ^ i = 0 ∨ f &&& 2 ^ i = 2 ^ i := by
  rw [Nat.and_two_pow]
  cases f.testBit i <;> simp

theorem own_once_both_mask (f : Nat) :
    ((f &&& (assemble_own_interior_faces_once ||| assemble_own_interior_faces_both))
        != (assemble_own_interior_faces_once ||| assemble_own_interior_faces_both))
      = !(test f assemble_own_interior_faces_once && test f assemble_own_interior_faces_both) := by
  have h1 := and_bit_cases f 2
  have h2 := and_bit_cases f 3
  norm_num at h1 h2
  unfold test assemble_own_interior_faces_once assemble_own_interior_faces_both
  rw [Nat.and_or_distrib_left]
  rcases h1 with h1 | h1 <;> rcases h2 with h2 | h2 <;> simp [h1, h2]

theorem ghost_once_both_mask (f : Nat) :
    ((f &&& (assemble_ghost_faces_once ||| assemble_ghost_faces_both))
        != (assemble_ghost_faces_once ||| assemble_ghost_faces_both))
      = !(test f assemble_ghost_faces_once && test f assemble_ghost_faces_both) := by
  have h1 := and_bit_cases f 4
  have h2 := and_bit_cases f 5
  norm_num at h1 h2
  unfold test assemble_ghost_faces_once assemble_ghost_faces_both
  rw [Nat.and_or_distrib_left]
  rcases h1 with h1 | h1 <;> rcases h2 with h2 | h2 <;> simp [h1, h2]

/-! ## Execution of the decided calls -/

section Exec

variable {Cell S C : Type}

theorem exec_append (w : Workers Cell S C) (l1 l2 : List (Call Cell)) (st : State Cell S C) :
    exec w (l1 ++ l2) st =
      (match exec w l1 st with
       | .error e => .error e
       | .ok st1 => exec w l2 st1) := by
  induction l1 generalizing st with
  | nil => rfl
  | cons c cs ih =>
    simp only [List.cons_append, exec]
    cases h : invoke w c st with
    | error e => rfl
    | ok st1 => simpa using ih st1

theorem res_bind_ok (r : Res Cell S C) :
    (match r with
     | .error e => (.error e : Res Cell S C)
     | .ok st1 => .ok st1) = r := by
  cases r <;> rfl

theorem exec_singleton (w : Workers Cell S C) (c : Call Cell) (st : State Cell S C) :
    exec w [c] st = invoke w c st := by
  simp only [exec]
  exact res_bind_ok _

theorem refinement_edge_eq (num : Numbers) (m : Mesh Cell) (w : Workers Cell S C)
    (flags : AssembleFlags) (cell : Cell) (face_no : Nat) (neighbor : Cell) (pn : Bool)
    (st : State Cell S C) :
    refinement_edge num m w flags cell face_no neighbor pn st =
      (match refinement_edge_plan num m flags cell face_no neighbor pn with
       | .error e => .error (e, st)
       | .ok l => exec w l st) := by
  unfold refinement_edge refinement_edge_plan
  split_ifs <;> simp only [exec, invoke, res_bind_ok]

theorem same_level_eq (num : Numbers) (m : Mesh Cell) (w : Workers Cell S C)
    (flags : AssembleFlags) (cell : Cell) (face_no : Nat) (neighbor : Cell) (pn : Bool)
    (st : State Cell S C) :
    same_level num m w flags cell face_no neighbor pn st =
      (match same_level_plan num m flags cell face_no neighbor pn with
       | .error e => .error (e, st)
       | .ok l => exec w l st) := by
  unfold same_level same_level_plan
  split_ifs <;> simp only [exec, invoke, res_bind_ok]
  all_goals split_ifs <;> simp only [exec, invoke, res_bind_ok]

theorem face_body_eq (num : Numbers) (m : Mesh Cell) (w : Workers Cell S C)
    (flags : AssembleFlags) (cell : Cell) (face_no : Nat) (st : State Cell S C) :
    face_body num m w flags cell face_no st =
      (match face_plan num m flags cell face_no with
       | .error e => .error (e, st)
       | .ok l => exec w l st) := by
  unfold face_body face_plan
  simp only [refinement_edge_eq, same_level_eq]
  split_ifs <;> simp only [exec, invoke, res_bind_ok]

theorem face_loop_eq (num : Numbers) (m : Mesh Cell) (w : Workers Cell S C)
    (flags : AssembleFlags) (cell : Cell) (faces : List Nat) (st : State Cell S C) :
    face_loop num m w flags cell faces st = run w (loop_plan num m flags cell faces) st := by
  induction faces generalizing st with
  | nil => rfl
  | cons f fs ih =>
    simp only [face_loop, loop_plan, face_body_eq]
    cases hp : face_plan num m flags cell f with
    | error e => simp [run, exec]
    | ok l =>
      simp only [run, exec_append]
      cases hl : exec w l st with
      | error e => rfl
      | ok st1 => simp only [ih, run]

theorem run_seq (w : Workers Cell S C) (before after : List (Call Cell))
    (faces : List (Call Cell) × Option Failure) (st : State Cell S C) :
    run w (match faces.2 with
           | some e => (before ++ faces.1, some e)
           | none => (before ++ faces.1 ++ after, none)) st =
      (match exec w before st with
       | .error e => .error e
       | .ok st1 =>
         match run w faces st1 with
         | .error e => .error e
         | .ok st2 => exec w after st2) := by
  obtain ⟨l, f⟩ := faces
  cases f with
  | none =>
    simp only [run, exec_append]
    cases exec w before st with
    | error e => rfl
    | ok st1 =>
      simp only []
      cases exec w l st1 with
      | error e => rfl
      | ok st2 =>
        simp only []
        cases exec w after st2 <;> rfl
  | some e =>
    simp only [run, exec_append]
    cases exec w before st with
    | error e => rfl
    | ok st1 =>
      simp only []
      cases exec w l st1 <;> rfl

theorem exec_cond_cell (w : Workers Cell S C) (c : Bool) (cell : Cell) (st : State Cell S C) :
    (if c = true then call_cell_worker w cell st else .ok st) =
      exec w (if c = true then [Call.cell cell] else []) st := by
  cases c <;> simp [exec, invoke, res_bind_ok]

theorem run_cond (w : Workers Cell S C) (c : Bool) (p : List (Call Cell) × Option Failure)
    (st : State Cell S C) :
    (if c = true then run w p st else .ok st) =
      run w (if c = true then p else ([], none)) st := by
  cases c <;> simp [run, exec]

theorem cell_action_eq_run (num : Numbers) (m : Mesh Cell) (w : Workers Cell S C)
    (flags : AssembleFlags) (sample_copy_data : C) (cell : Cell) (scratch : S) (copy : C) :
    cell_action num m w flags sample_copy_data cell scratch copy =
      run w (cell_plan num m flags cell)
        { scratch := scratch, copy := sample_copy_data, trace := [] } := by
  unfold cell_action cell_plan
  simp only [face_loop_eq]
  by_cases hart : (!ignore_subdomain num m &&
      (current_subdomain_id m cell == num.artificial_subdomain_id)) = true
  · simp [hart, run, exec]
  · simp only [hart, if_false, Bool.false_eq_true]
    rw [run_seq]
    simp only [exec_cond_cell, run_cond]

/-! ### What an execution leaves behind -/

theorem invoke_spec (w : Workers Cell S C) (c : Call Cell) (st : State Cell S C) :
    (∃ st1, invoke w c st = .ok st1 ∧ st1.trace = st.trace ++ [c] ∧
        (st1.scratch, st1.copy) = replay w [c] (st.scratch, st.copy)) ∨
      (invoke w c st = .error (Failure.bad_function_call, st)) := by
  cases c with
  | cell a =>
    simp only [invoke, call_cell_worker, replay]
    cases w.cell_worker <;> simp
  | boundary a f =>
    simp only [invoke, call_boundary_worker, replay]
    cases w.boundary_worker <;> simp
  | face a f sf n nf nsf =>
    simp only [invoke, call_face_worker, replay]
    cases w.face_worker <;> simp

theorem replay_append (w : Workers Cell S C) (l1 l2 : List (Call Cell)) (x : S × C) :
    replay w (l1 ++ l2) x = replay w l2 (replay w l1 x) := by
  induction l1 generalizing x with
  | nil => rfl
  | cons c cs ih => cases c <;> simp [replay, ih]

/-- The calls recorded by an execution are a prefix of the decided ones, all of them when
it completes, and the data are those calls replayed. -/
theorem exec_spec (w : Workers Cell S C) (l : List (Call Cell)) (st : State Cell S C) :
    ∃ l1 l2, l = l1 ++ l2 ∧ (exec w l st).state.trace = st.trace ++ l1 ∧
      ((exec w l st).state.scratch, (exec w l st).state.copy) =
        replay w l1 (st.scratch, st.copy) ∧
      ((exec w l st).failure = none → l2 = []) := by
  induction l generalizing st with
  | nil => exact ⟨[], [], rfl, by simp [exec, Res.state], rfl, fun _ => rfl⟩
  | cons c cs ih =>
    rcases invoke_spec w c st with ⟨st1, h1, ht, hd⟩ | h1
    · obtain ⟨l1, l2, hl, htr, hdat, hfail⟩ := ih st1
      refine ⟨c :: l1, l2, by simp [hl], ?_, ?_, ?_⟩
      · simp only [exec, h1, htr, ht]
        simp
      · simp only [exec, h1, hdat]
        rw [show c :: l1 = [c] ++ l1 from rfl, replay_append, ← hd]
      · simpa only [exec, h1] using hfail
    · refine ⟨[], c :: cs, rfl, ?_, ?_, ?_⟩
      · simp [exec, h1, Res.state]
      · simp [exec, h1, Res.state, replay]
      · simp [exec, h1, Res.failure]

theorem run_spec (w : Workers Cell S C) (p : List (Call Cell) × Option Failure)
    (st : State Cell S C) :
    ∃ l1 l2, p.1 = l1 ++ l2 ∧ (run w p st).state.trace = st.trace ++ l1 ∧
      ((run w p st).state.scratch, (run w p st).state.copy) =
        replay w l1 (st.scratch, st.copy) ∧
      ((run w p st).failure = none → l2 = [] ∧ p.2 = none) := by
  obtain ⟨l1, l2, hl, htr, hdat, hfail⟩ := exec_spec w p.1 st
  refine ⟨l1, l2, hl, ?_, ?_, ?_⟩
  · unfold run
    cases h : exec w p.1 st with
    | error e => simpa [h] using htr
    | ok st1 =>
      rw [h] at htr
      cases p.2 <;> simpa [Res.state] using htr
  · unfold run
    cases h : exec w p.1 st with
    | error e => simpa [h] using hdat
    | ok st1 =>
      rw [h] at hdat
      cases p.2 <;> simpa [Res.state] using hdat
  · unfold run
    cases h : exec w p.1 st with
    | error e => obtain ⟨e1, e2⟩ := e; simp [Res.failure]
    | ok st1 =>
      rw [h] at hfail
      cases hp : p.2 with
      | none => intro _; exact ⟨hfail rfl, rfl⟩
      | some e => simp [Res.failure]

/-- A visit that completes has made exactly the calls of `cell_plan`, which tripped no
assertion. -/
theorem cell_action_ok (num : Numbers) (m : Mesh Cell) (w : Workers Cell S C)
    (flags : AssembleFlags) (sample_copy_data : C) (cell : Cell) (scratch : S) (copy : C)
    (r : State Cell S C)
    (h : cell_action num m w flags sample_copy_data cell scratch copy = .ok r) :
    r.trace = (cell_plan num m flags cell).1 ∧ (cell_plan num m flags cell).2 = none := by
  rw [cell_action_eq_run] at h
  obtain ⟨l1, l2, hl, htr, -, hfail⟩ :=
    run_spec w (cell_plan num m flags cell)
      { scratch := scratch, copy := sample_copy_data, trace := [] }
  rw [h] at htr hfail
  obtain ⟨h2, hnone⟩ := hfail rfl
  refine ⟨?_, hnone⟩
  simp only [Res.state, List.nil_append] at htr
  rw [htr, hl, h2, List.append_nil]

/-! ### The shape of the decided calls -/

section Plan

variable [DecidableEq Cell]

theorem refinement_edge_plan_involves (num : Numbers) (m : Mesh Cell) (flags : AssembleFlags)
    (cell : Cell) (f : Nat) (neighbor : Cell) (pn : Bool) (l : List (Call Cell))
    (h : refinement_edge_plan num m flags cell f neighbor pn = .ok l) :
    ∀ c ∈ l, Call.involves cell f c = true := by
  unfold refinement_edge_plan at h
  split_ifs at h
  all_goals cases h
  all_goals simp [Call.involves]

theorem same_level_plan_involves (num : Numbers) (m : Mesh Cell) (flags : AssembleFlags)
    (cell : Cell) (f : Nat) (neighbor : Cell) (pn : Bool) (l : List (Call Cell))
    (h : same_level_plan num m flags cell f neighbor pn = .ok l) :
    ∀ c ∈ l, Call.involves cell f c = true := by
  unfold same_level_plan at h
  dsimp only at h
  split_ifs at h
  all_goals cases h
  all_goals simp [Call.involves]

theorem face_plan_involves (num : Numbers) (m : Mesh Cell) (flags : AssembleFlags)
    (cell : Cell) (f : Nat) (l : List (Call Cell))
    (h : face_plan num m flags cell f = .ok l) :
    ∀ c ∈ l, Call.involves cell f c = true := by
  unfold face_plan at h
  dsimp only at h
  split_ifs at h
  all_goals first
    | exact refinement_edge_plan_involves num m flags cell f _ _ l h
    | exact same_level_plan_involves num m flags cell f _ _ l h
    | (cases h; simp [Call.involves])

theorem face_calls_involves (num : Numbers) (m : Mesh Cell) (flags : AssembleFlags)
    (cell : Cell) (f : Nat) :
    ∀ c ∈ face_calls num m flags cell f, Call.involves cell f c = true := by
  unfold face_calls
  cases h : face_plan num m flags cell f with
  | error e => simp
  | ok l => exact face_plan_involves num m flags cell f l h

end Plan

theorem loop_plan_split (num : Numbers) (m : Mesh Cell) (flags : AssembleFlags) (cell : Cell)
    (faces : List Nat) :
    ∃ done rest, faces = done ++ rest ∧
      (loop_plan num m flags cell faces).1 = done.flatMap (face_calls num m flags cell) ∧
      ((loop_plan num m flags cell faces).2 = none → rest = []) ∧
      (∀ f ∈ done, ∃ l, face_plan num m flags cell f = .ok l) := by
  induction faces with
  | nil => exact ⟨[], [], rfl, rfl, fun _ => rfl, by simp⟩
  | cons f fs ih =>
    obtain ⟨done, rest, hsplit, hcalls, hnone, hok⟩ := ih
    cases hp : face_plan num m flags cell f with
    | error e =>
      refine ⟨[], f :: fs, rfl, ?_, ?_, by simp⟩
      · simp [loop_plan, hp]
      · simp [loop_plan, hp]
    | ok l =>
      refine ⟨f :: done, rest, by simp [hsplit], ?_, ?_, ?_⟩
      · simp [loop_plan, hp, hcalls, face_calls]
      · simpa [loop_plan, hp] using hnone
      · intro g hg
        rcases List.mem_cons.mp hg with rfl | hg
        · exact ⟨l, hp⟩
        · exact hok g hg

theorem loop_plan_none (num : Numbers) (m : Mesh Cell) (flags : AssembleFlags) (cell : Cell)
    (faces : List Nat) (h : (loop_plan num m flags cell faces).2 = none) :
    (loop_plan num m flags cell faces).1 = faces.flatMap (face_calls num m flags cell) ∧
      ∀ f ∈ faces, ∃ l, face_plan num m flags cell f = .ok l := by
  obtain ⟨done, rest, hsplit, hcalls, hnone, hok⟩ := loop_plan_split num m flags cell faces
  have hr := hnone h
  subst hr
  simp only [List.append_nil] at hsplit
  subst hsplit
  exact ⟨hcalls, hok⟩

/-- The calls of a visit that trips no assertion, on a cell that is not artificial. -/
theorem cell_plan_none (num : Numbers) (m : Mesh Cell) (flags : AssembleFlags) (cell : Cell)
    (hart : is_artificial num m cell = false)
    (h : (cell_plan num m flags cell).2 = none) :
    (cell_plan num m flags cell).1 =
      (if !test flags cells_after_faces && cell_guard num m flags cell then [Call.cell cell]
       else []) ++
      (if test flags (work_on_faces ||| work_on_boundary) then
         (List.range m.faces_per_cell).flatMap (face_calls num m flags cell)
       else []) ++
      (if test flags cells_after_faces && cell_guard num m flags cell then [Call.cell cell]
       else []) ∧
    (test flags (work_on_faces ||| work_on_boundary) = true →
      ∀ f < m.faces_per_cell, ∃ l, face_plan num m flags cell f = .ok l) := by
  unfold is_artificial at hart
  unfold cell_plan at h ⊢
  simp only [hart, Bool.false_eq_true, if_false] at h ⊢
  by_cases hw : test flags (work_on_faces ||| work_on_boundary) = true
  · simp only [hw, if_true] at h ⊢
    cases hl : (loop_plan num m flags cell (List.range m.faces_per_cell)).2 with
    | some e => simp [hl] at h
    | none =>
      obtain ⟨h1, h2⟩ := loop_plan_none num m flags cell _ hl
      refine ⟨by simp only [h1], fun _ f hf => h2 f (List.mem_range.mpr hf)⟩
  · simp only [hw, Bool.false_eq_true, if_false]
    exact ⟨trivial, fun h' => absurd h' (by simp)⟩

theorem filter_flatMap_single {α β : Type} (p : β → Bool) (g : α → List β) (a : α)
    (l : List α) (hnd : l.Nodup) (ha : a ∈ l)
    (hother : ∀ x ∈ l, x ≠ a → (g x).filter p = []) :
    (l.flatMap g).filter p = (g a).filter p := by
  induction l with
  | nil => simp at ha
  | cons x xs ih =>
    rw [List.nodup_cons] at hnd
    simp only [List.flatMap_cons, List.filter_append]
    rcases List.mem_cons.mp ha with rfl | hmem
    · have : (xs.flatMap g).filter p = [] := by
        rw [List.filter_eq_nil_iff]
        intro b hb
        obtain ⟨y, hy, hby⟩ := List.mem_flatMap.mp hb
        have hne : y ≠ a := fun e => hnd.1 (e ▸ hy)
        have := hother y (List.mem_cons_of_mem _ hy) hne
        rw [List.filter_eq_nil_iff] at this
        exact this b hby
      rw [this, List.append_nil]
    · have hxa : x ≠ a := fun e => hnd.1 (e ▸ hmem)
      rw [hother x (List.mem_cons_self _ _) hxa, List.nil_append]
      exact ih hnd.2 hmem (fun y hy => hother y (List.mem_cons_of_mem _ hy))

theorem unpartitioned_own (num : Numbers) (m : Mesh Cell) (cell : Cell)
    (h : m.locally_owned_subdomain = num.invalid_subdomain_id) :
    ignore_subdomain num m = true ∧ own_cell num m cell = true ∧
      own_neighbor num m cell = true ∧ is_artificial num m cell = false := by
  have hi : ignore_subdomain num m = true := by simp [ignore_subdomain, h]
  simp [own_cell, own_neighbor, is_artificial, hi]

theorem own_not_artificial (num : Numbers) (m : Mesh Cell) (cell : Cell)
    (hlocal : m.locally_owned_subdomain ≠ num.artificial_subdomain_id)
    (hown : own_cell num m cell = true) : is_artificial num m cell = false := by
  unfold own_cell at hown
  unfold is_artificial
  cases hi : ignore_subdomain num m
  · simp only [hi, Bool.false_or, beq_iff_eq] at hown
    simp only [Bool.not_false, Bool.true_and, beq_eq_false_iff_ne, ne_eq]
    rw [hown]
    exact hlocal
  · rfl

theorem cell_plan_artificial (num : Numbers) (m : Mesh Cell) (flags : AssembleFlags)
    (cell : Cell) (hart : is_artificial num m cell = true) :
    cell_plan num m flags cell = ([], none) := by
  unfold is_artificial at hart
  unfold cell_plan
  simp only [hart, if_true]

theorem work_of_own_once (flags : AssembleFlags)
    (h : test flags assemble_own_interior_faces_once = true) :
    test flags (work_on_faces ||| work_on_boundary) = true := by
  simp [work_on_faces, test_or, h]

/-- The calls decided on at a matching-level face between two owned cells under the
"once" policy. -/
theorem face_calls_own_once (num : Numbers) (m : Mesh Cell) (flags : AssembleFlags)
    (a b : Cell) (fa fb : Nat)
    (hown : own_cell num m a = true) (hownb : own_neighbor num m b = true)
    (honce : test flags assemble_own_interior_faces_once = true)
    (hint : m.boundary_face a fa = false)
    (hnb : m.neighbor_or_periodic_neighbor a fa = b)
    (hnf : m.matching_face_no a fa = fb)
    (hco : m.coarser a fa = false)
    (hch : m.has_children b = false)
    (l : List (Call Cell)) (hl : face_plan num m flags a fa = .ok l) :
    l = if m.less b a = true then []
        else [Call.face a fa num.invalid_unsigned_int b fb num.invalid_unsigned_int] := by
  unfold Mesh.boundary_face at hint
  unfold Mesh.coarser at hco
  unfold Mesh.matching_face_no at hnf
  unfold face_plan at hl
  simp only [hint, hnb, hown, hownb, hco, test_or, honce, Bool.false_eq_true, if_false,
    Bool.not_true, Bool.and_self, Bool.and_false, Bool.or_true, Bool.true_and,
    bne_self_eq_false, Bool.false_and] at hl
  unfold same_level_plan at hl
  simp only [hch, hown, hownb, honce, Bool.and_false, Bool.false_eq_true, if_false,
    Bool.true_and, Bool.not_true, Bool.false_and, hnf] at hl
  split_ifs at hl <;> cases hl <;> simp [*]

theorem work_of_ghost_once (flags : AssembleFlags)
    (h : test flags assemble_ghost_faces_once = true) :
    test flags (work_on_faces ||| work_on_boundary) = true := by
  simp [work_on_faces, test_or, h]

theorem neighbor_subdomain_id_active (num : Numbers) (m : Mesh Cell) (c : Cell)
    (h : m.active c = true) : neighbor_subdomain_id num m c = current_subdomain_id m c := by
  unfold neighbor_subdomain_id current_subdomain_id
  simp [h]

/-- How participant `p` classifies an active cell whose owner identifier is `q`. -/
theorem participant_view (num : Numbers) (m : Mesh Cell) (c : Cell) (p q : Nat)
    (hp : p ≠ num.invalid_subdomain_id) (hq : q ≠ num.artificial_subdomain_id)
    (hact : m.active c = true) (hid : current_subdomain_id m c = q) :
    own_cell num (m.as_participant p) c = (q == p) ∧
      own_neighbor num (m.as_participant p) c = (q == p) ∧
      is_artificial num (m.as_participant p) c = false ∧
      current_subdomain_id (m.as_participant p) c = q ∧
      neighbor_subdomain_id num (m.as_participant p) c = q := by
  have hl : (m.as_participant p).locally_owned_subdomain = p := rfl
  have hi : ignore_subdomain num (m.as_participant p) = false := by
    simp [ignore_subdomain, hl, hp]
  have hc : current_subdomain_id (m.as_participant p) c = q := hid
  have hn : neighbor_subdomain_id num (m.as_participant p) c = q := by
    rw [neighbor_subdomain_id_active num (m.as_participant p) c hact, hc]
  refine ⟨?_, ?_, ?_, hc, hn⟩
  · simp [own_cell, hi, hc, hl]
  · simp [own_neighbor, hi, hn, hl]
  · simp [is_artificial, hi, hc, hq]

/-- The calls decided on at a matching-level face of an owned cell whose neighbor is a
ghost, under the ghost "once" policy. -/
theorem face_calls_ghost_once (num : Numbers) (m : Mesh Cell) (flags : AssembleFlags)
    (a b : Cell) (fa fb : Nat)
    (hown : own_cell num m a = true) (hownb : own_neighbor num m b = false)
    (honce : test flags assemble_ghost_faces_once = true)
    (hint : m.boundary_face a fa = false)
    (hnb : m.neighbor_or_periodic_neighbor a fa = b)
    (hnf : m.matching_face_no a fa = fb)
    (hco : m.coarser a fa = false)
    (hch : m.has_children b = false)
    (l : List (Call Cell)) (hl : face_plan num m flags a fa = .ok l) :
    l = if neighbor_subdomain_id num m b < current_subdomain_id m a then []
        else [Call.face a fa num.invalid_unsigned_int b fb num.invalid_unsigned_int] := by
  unfold Mesh.boundary_face at hint
  unfold Mesh.coarser at hco
  unfold Mesh.matching_face_no at hnf
  unfold face_plan at hl
  simp only [hint, hnb, hown, hownb, hco, test_or, honce, Bool.false_eq_true, if_false,
    Bool.not_true, Bool.not_false, Bool.and_self, Bool.and_false, Bool.or_true,
    Bool.true_and, Bool.false_and, Bool.and_true, bne_iff_ne, ne_eq] at hl
  unfold same_level_plan at hl
  simp only [hch, hown, hownb, honce, Bool.and_false, Bool.false_eq_true, if_false,
    Bool.true_and, Bool.not_true, Bool.not_false, Bool.false_and, hnf, Bool.and_true,
    decide_eq_true_eq] at hl
  split_ifs at hl <;> cases hl <;> simp [*]

/-- At a face whose neighbor is not coarser, a cell that is not owned makes no call. -/
theorem face_calls_not_own (num : Numbers) (m : Mesh Cell) (flags : AssembleFlags)
    (a : Cell) (fa : Nat)
    (hown : own_cell num m a = false)
    (hco : m.coarser a fa = false)
    (l : List (Call Cell)) (hl : face_plan num m flags a fa = .ok l) : l = [] := by
  unfold Mesh.coarser at hco
  unfold face_plan at hl
  simp only [hown, hco, Bool.false_eq_true, if_false, Bool.and_false, Bool.false_and,
    Bool.not_false, Bool.true_and] at hl
  unfold same_level_plan at hl
  simp only [hown, Bool.false_and, Bool.not_false, if_true, Bool.false_eq_true,
    if_false] at hl
  split_ifs at hl <;> cases hl <;> rfl

theorem work_of_own_both (flags : AssembleFlags)
    (h : test flags assemble_own_interior_faces_both = true) :
    test flags (work_on_faces ||| work_on_boundary) = true := by
  simp [work_on_faces, test_or, h]

/-- The calls decided on at a refinement edge between an owned fine cell and its owned
coarser neighbor under the "both" policy. -/
theorem face_calls_own_both_edge (num : Numbers) (m : Mesh Cell) (flags : AssembleFlags)
    (c n : Cell) (f : Nat)
    (hown : own_cell num m c = true) (hownn : own_neighbor num m n = true)
    (hboth : test flags assemble_own_interior_faces_both = true)
    (hint : m.boundary_face c f = false)
    (hnb : m.neighbor_or_periodic_neighbor c f = n)
    (hco : m.coarser c f = true)
    (l : List (Call Cell)) (hl : face_plan num m flags c f = .ok l) :
    l = [Call.face c f num.invalid_unsigned_int n (m.coarser_face_no c f).1
           (m.coarser_face_no c f).2,
         Call.face n (m.coarser_face_no c f).1 (m.coarser_face_no c f).2 c f
           num.invalid_unsigned_int] := by
  unfold Mesh.boundary_face at hint
  unfold Mesh.coarser at hco
  unfold Mesh.coarser_face_no
  unfold face_plan at hl
  simp only [hint, hnb, hown, hownn, hco, test_or, hboth, Bool.false_eq_true, if_false,
    Bool.not_true, Bool.and_self, Bool.and_false, Bool.true_or, Bool.true_and,
    bne_self_eq_false, Bool.false_and, if_true] at hl
  unfold refinement_edge_plan at hl
  simp only [hown, hboth, Bool.not_true, Bool.false_and, Bool.false_eq_true, if_false,
    if_true] at hl
  split_ifs at hl <;> cases hl <;> simp [*]

/-- Through an active iterator, a face whose neighbor is not coarser and has children
yields no face call. -/
theorem face_calls_refined_neighbor (num : Numbers) (m : Mesh Cell) (flags : AssembleFlags)
    (n : Cell) (f : Nat)
    (hact : m.is_active_iterator = true)
    (hco : m.coarser n f = false)
    (hch : m.has_children (m.neighbor_or_periodic_neighbor n f) = true)
    (l : List (Call Cell)) (hl : face_plan num m flags n f = .ok l) :
    l = [] ∨ l = [Call.boundary n f] := by
  unfold Mesh.coarser at hco
  unfold face_plan at hl
  simp only [hco, Bool.false_eq_true, if_false] at hl
  unfold same_level_plan at hl
  simp only [hact, hch, Bool.and_self, if_true] at hl
  split_ifs at hl <;> cases hl <;> simp

theorem face_calls_not_cell (num : Numbers) (m : Mesh Cell) (flags : AssembleFlags)
    (cell : Cell) (f : Nat) :
    ∀ c ∈ face_calls num m flags cell f, Call.isCell c = false := by
  classical
  intro c hc
  have h := face_calls_involves num m flags cell f c hc
  cases c <;> simp_all [Call.involves, Call.isCell]

theorem loop_plan_not_cell (num : Numbers) (m : Mesh Cell) (flags : AssembleFlags)
    (cell : Cell) (faces : List Nat) :
    ∀ c ∈ (loop_plan num m flags cell faces).1, Call.isCell c = false := by
  obtain ⟨done, rest, -, hcalls, -, -⟩ := loop_plan_split num m flags cell faces
  rw [hcalls]
  intro c hc
  obtain ⟨f, -, hf⟩ := List.mem_flatMap.mp hc
  exact face_calls_not_cell num m flags cell f c hf

/-- Every visit decides on: the cell call if the cell comes first, the face and boundary
calls, the cell call if the cell comes last. -/
theorem cell_plan_shape (num : Numbers) (m : Mesh Cell) (flags : AssembleFlags)
    (cell : Cell) :
    ∃ (mid : List (Call Cell)) (a b : Bool),
      (∀ c ∈ mid, Call.isCell c = false) ∧
      (cell_plan num m flags cell).1 =
        (if a = true then [Call.cell cell] else []) ++ mid ++
          (if b = true then [Call.cell cell] else []) ∧
      (a = true → test flags cells_after_faces = false) ∧
      (b = true → test flags cells_after_faces = true) := by
  have ha : (!test flags cells_after_faces && cell_guard num m flags cell) = true →
      test flags cells_after_faces = false := by
    intro h
    simp only [Bool.and_eq_true, Bool.not_eq_true'] at h
    exact h.1
  have hb : (test flags cells_after_faces && cell_guard num m flags cell) = true →
      test flags cells_after_faces = true := by
    intro h
    simp only [Bool.and_eq_true] at h
    exact h.1
  unfold cell_plan
  by_cases hart : (!ignore_subdomain num m &&
      (current_subdomain_id m cell == num.artificial_subdomain_id)) = true
  · rw [if_pos hart]
    exact ⟨[], false, false, by simp, by simp, by simp, by simp⟩
  · rw [if_neg hart]
    dsimp only
    have hmid : ∀ c ∈ (if test flags (work_on_faces ||| work_on_boundary) = true then
        loop_plan num m flags cell (List.range m.faces_per_cell) else ([], none)).1,
        Call.isCell c = false := by
      split_ifs
      · exact loop_plan_not_cell num m flags cell _
      · simp
    generalize (if test flags (work_on_faces ||| work_on_boundary) = true then
        loop_plan num m flags cell (List.range m.faces_per_cell) else ([], none)) = faces
      at hmid ⊢
    obtain ⟨l, fl⟩ := faces
    cases fl with
    | some e =>
      exact ⟨l, !test flags cells_after_faces && cell_guard num m flags cell, false, hmid,
        by simp, ha, by simp⟩
    | none =>
      exact ⟨l, !test flags cells_after_faces && cell_guard num m flags cell,
        test flags cells_after_faces && cell_guard num m flags cell, hmid, by simp, ha, hb⟩

theorem initial_not_cell (l1 l2 mid : List (Call Cell)) (h : mid = l1 ++ l2)
    (hmid : ∀ c ∈ mid, Call.isCell c = false) : ∀ c ∈ l1, Call.isCell c = false := by
  intro c hc
  exact hmid c (h ▸ List.mem_append_left _ hc)

/-- C5 (ordering invariant). In the calls recorded by one cell visit, completed or
aborted: when `cells_after_faces` is set, the cell call, if any, is the last entry and
every boundary and face call precedes it; when it is not set, the cell call, if any, is
the first entry and every boundary and face call follows it. -/
theorem ordering_invariant (num : Numbers) (m : Mesh Cell) (w : Workers Cell S C)
    (flags : AssembleFlags) (sample_copy_data : C) (cell : Cell) (scratch : S) (copy : C) :
    ∃ t : List (Call Cell), (∀ c ∈ t, Call.isCell c = false) ∧
      (if test flags cells_after_faces = true then
         (cell_action num m w flags sample_copy_data cell scratch copy).state.trace = t ∨
         (cell_action num m w flags sample_copy_data cell scratch copy).state.trace =
           t ++ [Call.cell cell]
       else
         (cell_action num m w flags sample_copy_data cell scratch copy).state.trace = t ∨
         (cell_action num m w flags sample_copy_data cell scratch copy).state.trace =
           Call.cell cell :: t) := by
  rw [cell_action_eq_run]
  obtain ⟨l1, l2, hl, htr, -, -⟩ := run_spec w (cell_plan num m flags cell)
    { scratch := scratch, copy := sample_copy_data, trace := [] }
  obtain ⟨mid, a, b, hmid, hshape, ha, hb⟩ := cell_plan_shape num m flags cell
  simp only [List.nil_append] at htr
  rw [htr]
  rw [hshape] at hl
  by_cases hcaf : test flags cells_after_faces = true
  · simp only [if_pos hcaf]
    have ha' : a = false := by
      cases a
      · rfl
      · simpa [hcaf] using ha rfl
    subst ha'
    simp only [Bool.false_eq_true, if_false, List.nil_append] at hl
    rcases List.append_eq_append_iff.mp hl with ⟨a', h1, h2⟩ | ⟨c', h1, h2⟩
    · have hpost : a' = [] ∨ a' = [Call.cell cell] := by
        cases b
        · simp only [Bool.false_eq_true, if_false] at h2
          left
          exact (List.append_eq_nil.mp h2.symm).1
        · simp only [if_true] at h2
          cases a' with
          | nil => left; rfl
          | cons x xs =>
            right
            simp only [List.cons_append, List.cons.injEq] at h2
            obtain ⟨hx, hxs⟩ := h2
            rw [← hx, (List.append_eq_nil.mp hxs.symm).1]
      rcases hpost with e | e
      · exact ⟨mid, hmid, Or.inl (by rw [h1, e, List.append_nil])⟩
      · exact ⟨mid, hmid, Or.inr (by rw [h1, e])⟩
    · exact ⟨l1, initial_not_cell l1 c' mid h1 hmid, Or.inl rfl⟩
  · simp only [if_neg hcaf]
    have hb' : b = false := by
      cases b
      · rfl
      · exact absurd (hb rfl) hcaf
    subst hb'
    simp only [Bool.false_eq_true, if_false, List.append_nil] at hl
    cases a
    · simp only [Bool.false_eq_true, if_false, List.nil_append] at hl
      exact ⟨l1, initial_not_cell l1 l2 mid hl hmid, Or.inl rfl⟩
    · simp only [if_true] at hl
      cases l1 with
      | nil => exact ⟨[], by simp, Or.inl rfl⟩
      | cons x xs =>
        simp only [List.cons_append, List.cons.injEq, List.nil_append] at hl
        obtain ⟨hx, hxs⟩ := hl
        exact ⟨xs, initial_not_cell xs l2 mid hxs hmid, Or.inr (by rw [hx])⟩

/-- C6 (idempotent result reset). The outcome of the cell action, completed or aborted,
does not depend on the incoming result accumulator, and the accumulator (with the scratch
data) it leaves is the caller-supplied prototype with the recorded calls of this visit
applied to it in order. -/
theorem idempotent_result_reset (num : Numbers) (m : Mesh Cell) (w : Workers Cell S C)
    (flags : AssembleFlags) (sample_copy_data : C) (cell : Cell) (scratch : S)
    (copy1 copy2 : C) :
    cell_action num m w flags sample_copy_data cell scratch copy1 =
        cell_action num m w flags sample_copy_data cell scratch copy2 ∧
      ((cell_action num m w flags sample_copy_data cell scratch copy1).state.scratch,
        (cell_action num m w flags sample_copy_data cell scratch copy1).state.copy) =
        replay w (cell_action num m w flags sample_copy_data cell scratch copy1).state.trace
          (scratch, sample_copy_data) := by
  refine ⟨by rw [cell_action_eq_run, cell_action_eq_run], ?_⟩
  rw [cell_action_eq_run]
  obtain ⟨l1, l2, -, htr, hdat, -⟩ := run_spec w (cell_plan num m flags cell)
    { scratch := scratch, copy := sample_copy_data, trace := [] }
  simp only [List.nil_append] at htr
  rw [hdat, htr]

/-! ### The assertions of `mesh_loop` -/

/-- A request that violates one of the six assertions is rejected: `mesh_loop` aborts
with the data of the copier untouched and no call made. -/
theorem mesh_loop_rejects {G : Type} (num : Numbers) (m : Mesh Cell) (cells : List Cell)
    (w : Workers Cell S C) (copier : C → G → G) (sample_scratch_data : S)
    (sample_copy_data : C) (flags : AssembleFlags) (queue_length chunk_size : Nat) (g : G)
    (h : ¬((w.cell_worker.isNone == !test flags work_on_cells) = true ∧
      ((flags &&& (assemble_own_interior_faces_once ||| assemble_own_interior_faces_both))
        != (assemble_own_interior_faces_once ||| assemble_own_interior_faces_both)) = true ∧
      ((flags &&& (assemble_ghost_faces_once ||| assemble_ghost_faces_both))
        != (assemble_ghost_faces_once ||| assemble_ghost_faces_both)) = true ∧
      (!test flags cells_after_faces ||
        test flags (assemble_own_cells ||| assemble_ghost_cells)) = true ∧
      (w.face_worker.isNone == !test flags work_on_faces) = true ∧
      (w.boundary_worker.isNone == !test flags assemble_boundary_faces) = true)) :
    ∃ rule, mesh_loop num m cells w copier sample_scratch_data sample_copy_data flags
      queue_length chunk_size g =
        { global := g, trace := [], failure := some (Failure.ExcMessage rule) } := by
  unfold mesh_loop
  split_ifs with h1 h2 h3 h4 h5 h6
  · exact ⟨_, rfl⟩
  · exact ⟨_, rfl⟩
  · exact ⟨_, rfl⟩
  · exact ⟨_, rfl⟩
  · exact ⟨_, rfl⟩
  · exact ⟨_, rfl⟩
  · exfalso
    apply h
    simp only [Bool.not_eq_true', Bool.not_eq_false] at h1 h2 h3 h4 h5 h6
    exact ⟨h1, h2, h3, h4, h5, h6⟩

/-- C7 (boundary worker and flag must match). Whenever a boundary callable is supplied
and `assemble_boundary_faces` is not set, or the flag is set and no boundary callable is
supplied, `mesh_loop` fails on an assertion with no call made and the copier's data
untouched. -/
theorem boundary_worker_validation {G : Type} (num : Numbers) (m : Mesh Cell)
    (cells : List Cell) (w : Workers Cell S C) (copier : C → G → G)
    (sample_scratch_data : S) (sample_copy_data : C) (flags : AssembleFlags)
    (queue_length chunk_size : Nat) (g : G)
    (h : w.boundary_worker.isSome ≠ test flags assemble_boundary_faces) :
    ∃ rule, mesh_loop num m cells w copier sample_scratch_data sample_copy_data flags
      queue_length chunk_size g =
        { global := g, trace := [], failure := some (Failure.ExcMessage rule) } := by
  apply mesh_loop_rejects
  rintro ⟨-, -, -, -, -, h6⟩
  apply h
  cases hw : w.boundary_worker <;> cases ht : test flags assemble_boundary_faces <;>
    simp_all

/-- C8 (once and both are exclusive). For every flag set that contains both
`assemble_own_interior_faces_once` and `assemble_own_interior_faces_both`, or both
`assemble_ghost_faces_once` and `assemble_ghost_faces_both`, whatever the other flags and
the callables, `mesh_loop` fails on an assertion with no call made and the copier's data
untouched. -/
theorem once_both_exclusive {G : Type} (num : Numbers) (m : Mesh Cell)
    (cells : List Cell) (w : Workers Cell S C) (copier : C → G → G)
    (sample_scratch_data : S) (sample_copy_data : C) (flags : AssembleFlags)
    (queue_length chunk_size : Nat) (g : G)
    (h : (test flags assemble_own_interior_faces_once = true ∧
          test flags assemble_own_interior_faces_both = true) ∨
         (test flags assemble_ghost_faces_once = true ∧
          test flags assemble_ghost_faces_both = true)) :
    ∃ rule, mesh_loop num m cells w copier sample_scratch_data sample_copy_data flags
      queue_length chunk_size g =
        { global := g, trace := [], failure := some (Failure.ExcMessage rule) } := by
  apply mesh_loop_rejects
  rintro ⟨-, h2, h3, -, -, -⟩
  rw [own_once_both_mask] at h2
  rw [ghost_once_both_mask] at h3
  rcases h with ⟨a, b⟩ | ⟨a, b⟩
  · simp [a, b] at h2
  · simp [a, b] at h3

/-- C9 (cell worker and flags must match). Whenever a cell callable is supplied but
neither `assemble_own_cells` nor `assemble_ghost_cells` is set, or one of the two flags is
set but no cell callable is supplied, `mesh_loop` fails on its first assertion, before
the traversal: no call is made and the copier's data are untouched. -/
theorem cell_worker_validation {G : Type} (num : Numbers) (m : Mesh Cell)
    (cells : List Cell) (w : Workers Cell S C) (copier : C → G → G)
    (sample_scratch_data : S) (sample_copy_data : C) (flags : AssembleFlags)
    (queue_length chunk_size : Nat) (g : G)
    (h : w.cell_worker.isSome ≠
      (test flags assemble_own_cells || test flags assemble_ghost_cells)) :
    mesh_loop num m cells w copier sample_scratch_data sample_copy_data flags
      queue_length chunk_size g =
        { global := g, trace := [],
          failure := some (Failure.ExcMessage Rule.cell_worker_flags) } := by
  unfold mesh_loop
  rw [if_pos]
  · rfl
  · rw [work_on_cells, test_or]
    cases hw : w.cell_worker <;>
      cases ht : (test flags assemble_own_cells || test flags assemble_ghost_cells) <;>
      simp_all

/-- C10 (face worker and flags must match). Whenever a face callable is supplied but none
of the four face flags is set, or one of them is set but no face callable is supplied,
`mesh_loop` fails on an assertion before the traversal: no call is made and the copier's
data are untouched. -/
theorem face_worker_validation {G : Type} (num : Numbers) (m : Mesh Cell)
    (cells : List Cell) (w : Workers Cell S C) (copier : C → G → G)
    (sample_scratch_data : S) (sample_copy_data : C) (flags : AssembleFlags)
    (queue_length chunk_size : Nat) (g : G)
    (h : w.face_worker.isSome ≠
      (test flags assemble_own_interior_faces_once ||
        test flags assemble_own_interior_faces_both ||
        test flags assemble_ghost_faces_once || test flags assemble_ghost_faces_both)) :
    ∃ rule, mesh_loop num m cells w copier sample_scratch_data sample_copy_data flags
      queue_length chunk_size g =
        { global := g, trace := [], failure := some (Failure.ExcMessage rule) } := by
  apply mesh_loop_rejects
  rintro ⟨-, -, -, -, h5, -⟩
  apply h
  rw [work_on_faces, test_or, test_or, test_or] at h5
  cases hw : w.face_worker <;>
    cases ht : (test flags assemble_own_interior_faces_once ||
        test flags assemble_own_interior_faces_both ||
        test flags assemble_ghost_faces_once || test flags assemble_ghost_faces_both) <;>
    simp_all

section Claims

variable [DecidableEq Cell]

/-- Among the calls of a visit that trips no assertion, those selected by a predicate
that can only hold of calls addressing face `f` of the visited cell are the selected
calls decided on at face `f`. -/
theorem plan_filter (num : Numbers) (m : Mesh Cell) (flags : AssembleFlags) (cell : Cell)
    (f : Nat) (p : Call Cell → Bool)
    (hp : ∀ c f', p c = true → Call.involves cell f' c = true → f' = f)
    (hpc : p (Call.cell cell) = false)
    (hart : is_artificial num m cell = false)
    (hnone : (cell_plan num m flags cell).2 = none)
    (hf : f < m.faces_per_cell) :
    (cell_plan num m flags cell).1.filter p =
      if test flags (work_on_faces ||| work_on_boundary) = true then
        (face_calls num m flags cell f).filter p
      else [] := by
  rw [(cell_plan_none num m flags cell hart hnone).1]
  have h1 : ∀ c : Bool, (if c = true then [Call.cell cell] else []).filter p = [] := by
    intro c
    cases c <;> simp [hpc]
  simp only [List.filter_append, h1, List.nil_append, List.append_nil]
  split_ifs with hw
  · apply filter_flatMap_single p _ f _ (List.nodup_range _) (List.mem_range.mpr hf)
    intro x _ hx
    rw [List.filter_eq_nil_iff]
    intro c hc hpcall
    exact hx (hp c x hpcall (face_calls_involves num m flags cell x c hc))
  · rfl

theorem between_involves_left (a b : Cell) (fa fb : Nat) (hab : a ≠ b) (c : Call Cell)
    (f' : Nat) (h : Call.between a fa b fb c = true) (hi : Call.involves a f' c = true) :
    f' = fa := by
  cases c with
  | cell x => simp [Call.between] at h
  | boundary x g => simp [Call.between] at h
  | face x g sg y h' sh =>
    simp only [Call.between, decide_eq_true_eq] at h
    simp only [Call.involves, decide_eq_true_eq] at hi
    rcases h with ⟨e1, e2, e3, -⟩ | ⟨e1, -, e3, e4⟩
    · rcases hi with ⟨_, h2⟩ | ⟨h1, _⟩
      · exact h2.symm.trans e2
      · exact absurd (h1.symm.trans e3) hab
    · rcases hi with ⟨h1, _⟩ | ⟨_, h2⟩
      · exact absurd (h1.symm.trans e1) hab
      · exact h2.symm.trans e4

theorem between_involves_right (a b : Cell) (fa fb : Nat) (hab : a ≠ b) (c : Call Cell)
    (f' : Nat) (h : Call.between a fa b fb c = true) (hi : Call.involves b f' c = true) :
    f' = fb := by
  cases c with
  | cell x => simp [Call.between] at h
  | boundary x g => simp [Call.between] at h
  | face x g sg y h' sh =>
    simp only [Call.between, decide_eq_true_eq] at h
    simp only [Call.involves, decide_eq_true_eq] at hi
    rcases h with ⟨e1, -, e3, e4⟩ | ⟨e1, e2, e3, -⟩
    · rcases hi with ⟨h1, _⟩ | ⟨_, h2⟩
      · exact absurd (e1.symm.trans h1) hab
      · exact h2.symm.trans e4
    · rcases hi with ⟨_, h2⟩ | ⟨h1, _⟩
      · exact h2.symm.trans e2
      · exact absurd (e3.symm.trans h1) hab

/-- C1 (exactly-once interior face). On an unpartitioned mesh with
`assemble_own_interior_faces_once` set, let face `fA` of `A` and face `fB` of `B` be the
two sides of one matching-level interior face: each cell is the other's neighbor there,
neither neighbor is coarser, neither cell has children, `A` and `B` are distinct and
ordered strictly one way. Then the completed visits of `A` and of `B` together contain
exactly one face call for that pairing, and its current (first) cell is the lower-ordered
of the two. -/
theorem exactly_once_interior_face (num : Numbers) (m : Mesh Cell) (w : Workers Cell S C)
    (flags : AssembleFlags) (sample_copy_data : C) (A B : Cell) (fA fB : Nat)
    (sA sB : S) (cA cB : C) (rA rB : State Cell S C)
    (hunpart : m.locally_owned_subdomain = num.invalid_subdomain_id)
    (honce : test flags assemble_own_interior_faces_once = true)
    (hAB : A ≠ B)
    (hfA : fA < m.faces_per_cell) (hfB : fB < m.faces_per_cell)
    (hintA : m.boundary_face A fA = false) (hintB : m.boundary_face B fB = false)
    (hnbA : m.neighbor_or_periodic_neighbor A fA = B)
    (hnbB : m.neighbor_or_periodic_neighbor B fB = A)
    (hnfA : m.matching_face_no A fA = fB) (hnfB : m.matching_face_no B fB = fA)
    (hcoA : m.coarser A fA = false) (hcoB : m.coarser B fB = false)
    (hchA : m.has_children A = false) (hchB : m.has_children B = false)
    (hord : m.less A B = !m.less B A)
    (hA : cell_action num m w flags sample_copy_data A sA cA = .ok rA)
    (hB : cell_action num m w flags sample_copy_data B sB cB = .ok rB) :
    (rA.trace ++ rB.trace).filter (Call.between A fA B fB) =
      [if m.less A B = true then
         Call.face A fA num.invalid_unsigned_int B fB num.invalid_unsigned_int
       else Call.face B fB num.invalid_unsigned_int A fA num.invalid_unsigned_int] := by
  obtain ⟨-, hownA, hnownA, hartA⟩ := unpartitioned_own num m A hunpart
  obtain ⟨-, hownB, hnownB, hartB⟩ := unpartitioned_own num m B hunpart
  have hw := work_of_own_once flags honce
  obtain ⟨htA, hnA⟩ := cell_action_ok num m w flags sample_copy_data A sA cA rA hA
  obtain ⟨htB, hnB⟩ := cell_action_ok num m w flags sample_copy_data B sB cB rB hB
  rw [List.filter_append, htA, htB,
    plan_filter num m flags A fA _ (between_involves_left A B fA fB hAB) rfl hartA hnA hfA,
    plan_filter num m flags B fB _ (between_involves_right A B fA fB hAB) rfl hartB hnB hfB,
    if_pos hw, if_pos hw]
  obtain ⟨lA, hlA⟩ := (cell_plan_none num m flags A hartA hnA).2 hw fA hfA
  obtain ⟨lB, hlB⟩ := (cell_plan_none num m flags B hartB hnB).2 hw fB hfB
  have eA := face_calls_own_once num m flags A B fA fB hownA hnownB honce hintA hnbA hnfA
    hcoA hchB lA hlA
  have eB := face_calls_own_once num m flags B A fB fA hownB hnownA honce hintB hnbB hnfB
    hcoB hchA lB hlB
  simp only [face_calls, hlA, hlB, eA, eB, hord]
  cases m.less B A <;> simp [Call.between]

/-- C2 (boundary completeness). For an owned cell (the locally owned subdomain not being
the artificial sentinel) and a local face that is at the boundary and has no periodic
neighbor, a completed visit contains the boundary call `(cell, face_no)` exactly once
when `assemble_boundary_faces` is set and not at all when it is not set. -/
theorem boundary_completeness (num : Numbers) (m : Mesh Cell) (w : Workers Cell S C)
    (flags : AssembleFlags) (sample_copy_data : C) (cell : Cell) (face_no : Nat)
    (scratch : S) (copy : C) (r : State Cell S C)
    (hlocal : m.locally_owned_subdomain ≠ num.artificial_subdomain_id)
    (hown : own_cell num m cell = true)
    (hf : face_no < m.faces_per_cell)
    (hb : m.boundary_face cell face_no = true)
    (h : cell_action num m w flags sample_copy_data cell scratch copy = .ok r) :
    r.trace.count (Call.boundary cell face_no) =
      if test flags assemble_boundary_faces = true then 1 else 0 := by
  have hart := own_not_artificial num m cell hlocal hown
  obtain ⟨ht, hn⟩ := cell_action_ok num m w flags sample_copy_data cell scratch copy r h
  rw [List.count_eq_countP, List.countP_eq_length_filter, ht,
    plan_filter num m flags cell face_no _ ?_ rfl hart hn hf]
  · have hfc : face_calls num m flags cell face_no =
        if test flags assemble_boundary_faces = true then [Call.boundary cell face_no]
        else [] := by
      unfold Mesh.boundary_face at hb
      unfold face_calls face_plan
      simp only [hb, hown, if_true, Bool.and_true]
      split_ifs <;> rfl
    rw [hfc]
    by_cases hbf : test flags assemble_boundary_faces = true
    · have hw : test flags (work_on_faces ||| work_on_boundary) = true := by
        simp [work_on_boundary, test_or, hbf]
      simp [hbf, hw]
    · simp [hbf]
  · intro c f' hc hi
    have hc' : c = Call.boundary cell face_no := by simpa using hc
    subst hc'
    simpa [Call.involves, eq_comm] using hi

/-- C3 (distributed dedup). Two participants `P` and `Q` with distinct identifiers
(neither the invalid nor the artificial value) see the same mesh; the active cell `A` is
owned by `P`, the active cell `B` by `Q`, and face `fA` of `A` and face `fB` of `B` are
the two sides of one matching-level face. With `assemble_ghost_faces_once` set and both
participants visiting both cells, the face call for that pairing is made exactly once in
total: by `P`, with `A` as current cell, when `P < Q`, and by `Q`, with `B` as current
cell, when `Q < P`. -/
theorem distributed_dedup (num : Numbers) (m : Mesh Cell) (w : Workers Cell S C)
    (flags : AssembleFlags) (sample_copy_data : C) (A B : Cell) (fA fB P Q : Nat)
    (s1 s2 s3 s4 : S) (c1 c2 c3 c4 : C) (rPA rPB rQA rQB : State Cell S C)
    (hPQ : P ≠ Q)
    (hP : P ≠ num.invalid_subdomain_id) (hQ : Q ≠ num.invalid_subdomain_id)
    (hPa : P ≠ num.artificial_subdomain_id) (hQa : Q ≠ num.artificial_subdomain_id)
    (honce : test flags assemble_ghost_faces_once = true)
    (hactA : m.active A = true) (hactB : m.active B = true)
    (hidA : current_subdomain_id m A = P) (hidB : current_subdomain_id m B = Q)
    (hfA : fA < m.faces_per_cell) (hfB : fB < m.faces_per_cell)
    (hintA : m.boundary_face A fA = false) (hintB : m.boundary_face B fB = false)
    (hnbA : m.neighbor_or_periodic_neighbor A fA = B)
    (hnbB : m.neighbor_or_periodic_neighbor B fB = A)
    (hnfA : m.matching_face_no A fA = fB) (hnfB : m.matching_face_no B fB = fA)
    (hcoA : m.coarser A fA = false) (hcoB : m.coarser B fB = false)
    (hchA : m.has_children A = false) (hchB : m.has_children B = false)
    (hPA : cell_action num (m.as_participant P) w flags sample_copy_data A s1 c1 = .ok rPA)
    (hPB : cell_action num (m.as_participant P) w flags sample_copy_data B s2 c2 = .ok rPB)
    (hQA : cell_action num (m.as_participant Q) w flags sample_copy_data A s3 c3 = .ok rQA)
    (hQB : cell_action num (m.as_participant Q) w flags sample_copy_data B s4 c4 = .ok rQB) :
    (rPA.trace ++ rPB.trace).filter (Call.between A fA B fB) =
        (if P < Q then
           [Call.face A fA num.invalid_unsigned_int B fB num.invalid_unsigned_int]
         else []) ∧
      (rQA.trace ++ rQB.trace).filter (Call.between A fA B fB) =
        (if Q < P then
           [Call.face B fB num.invalid_unsigned_int A fA num.invalid_unsigned_int]
         else []) := by
  have hAB : A ≠ B := by
    intro e
    subst e
    exact hPQ (hidA.symm.trans hidB)
  have hw := work_of_ghost_once flags honce
  obtain ⟨oPA, nPA, aPA, cPA, sPA⟩ := participant_view num m A P P hP hPa hactA hidA
  obtain ⟨oPB, nPB, aPB, cPB, sPB⟩ := participant_view num m B P Q hP hQa hactB hidB
  obtain ⟨oQA, nQA, aQA, cQA, sQA⟩ := participant_view num m A Q P hQ hPa hactA hidA
  obtain ⟨oQB, nQB, aQB, cQB, sQB⟩ := participant_view num m B Q Q hQ hQa hactB hidB
  have hQP : (Q == P) = false := beq_eq_false_iff_ne.mpr (Ne.symm hPQ)
  have hPQ' : (P == Q) = false := beq_eq_false_iff_ne.mpr hPQ
  simp only [beq_self_eq_true, hQP, hPQ'] at oPA nPA oPB nPB oQA nQA oQB nQB
  obtain ⟨tPA, pPA⟩ := cell_action_ok num _ w flags sample_copy_data A s1 c1 rPA hPA
  obtain ⟨tPB, pPB⟩ := cell_action_ok num _ w flags sample_copy_data B s2 c2 rPB hPB
  obtain ⟨tQA, pQA⟩ := cell_action_ok num _ w flags sample_copy_data A s3 c3 rQA hQA
  obtain ⟨tQB, pQB⟩ := cell_action_ok num _ w flags sample_copy_data B s4 c4 rQB hQB
  obtain ⟨lPA, hlPA⟩ := (cell_plan_none num _ flags A aPA pPA).2 hw fA hfA
  obtain ⟨lPB, hlPB⟩ := (cell_plan_none num _ flags B aPB pPB).2 hw fB hfB
  obtain ⟨lQA, hlQA⟩ := (cell_plan_none num _ flags A aQA pQA).2 hw fA hfA
  obtain ⟨lQB, hlQB⟩ := (cell_plan_none num _ flags B aQB pQB).2 hw fB hfB
  have ePA := face_calls_ghost_once num (m.as_participant P) flags A B fA fB oPA nPB honce
    hintA hnbA hnfA hcoA hchB lPA hlPA
  have ePB := face_calls_not_own num (m.as_participant P) flags B fB oPB hcoB lPB hlPB
  have eQA := face_calls_not_own num (m.as_participant Q) flags A fA oQA hcoA lQA hlQA
  have eQB := face_calls_ghost_once num (m.as_participant Q) flags B A fB fA oQB nQA honce
    hintB hnbB hnfB hcoB hchA lQB hlQB
  rw [sPB, cPA] at ePA
  rw [sQA, cQB] at eQB
  rw [List.filter_append, List.filter_append, tPA, tPB, tQA, tQB,
    plan_filter num _ flags A fA _ (between_involves_left A B fA fB hAB) rfl aPA pPA hfA,
    plan_filter num _ flags B fB _ (between_involves_right A B fA fB hAB) rfl aPB pPB hfB,
    plan_filter num _ flags A fA _ (between_involves_left A B fA fB hAB) rfl aQA pQA hfA,
    plan_filter num _ flags B fB _ (between_involves_right A B fA fB hAB) rfl aQB pQB hfB]
  simp only [if_pos hw, face_calls, hlPA, hlPB, hlQA, hlQB, ePA, ePB, eQA, eQB]
  rcases Nat.lt_or_gt_of_ne hPQ with hlt | hgt
  · have hn : ¬ Q < P := Nat.lt_asymm hlt
    simp [hlt, hn, Call.between]
  · have hn : ¬ P < Q := Nat.lt_asymm hgt
    simp [hgt, hn, Call.between]

/-- C4 (hanging-node symmetry). Let `c` be an owned cell whose neighbor `n` across face
`f` is owned and coarser, neither having children, and let `(nf, nsf)` be the result of
the coarser-neighbor lookup for `f`. With `assemble_own_interior_faces_both` set, the
completed visit of `c` contains exactly two face calls for the pairing, first
`(c, f, none, n, nf, nsf)` and then `(n, nf, nsf, c, f, none)`. Seen from `n` through an
active iterator, the neighbor across `nf` is not coarser and has children, and the
completed visit of `n` contains no face call for the pairing. -/
theorem hanging_node_symmetry (num : Numbers) (m : Mesh Cell) (w : Workers Cell S C)
    (flags : AssembleFlags) (sample_copy_data : C) (c n : Cell) (f : Nat)
    (s1 s2 : S) (c1 c2 : C) (rc rn : State Cell S C)
    (hboth : test flags assemble_own_interior_faces_both = true)
    (hlocal : m.locally_owned_subdomain ≠ num.artificial_subdomain_id)
    (hownc : own_cell num m c = true) (hownn : own_neighbor num m n = true)
    (hcn : c ≠ n)
    (hf : f < m.faces_per_cell) (hnf : (m.coarser_face_no c f).1 < m.faces_per_cell)
    (hint : m.boundary_face c f = false)
    (hnb : m.neighbor_or_periodic_neighbor c f = n)
    (hco : m.coarser c f = true)
    (hact : m.is_active_iterator = true)
    (hcon : m.coarser n (m.coarser_face_no c f).1 = false)
    (hchp : m.has_children
      (m.neighbor_or_periodic_neighbor n (m.coarser_face_no c f).1) = true)
    (hc : cell_action num m w flags sample_copy_data c s1 c1 = .ok rc)
    (hn : cell_action num m w flags sample_copy_data n s2 c2 = .ok rn) :
    rc.trace.filter (Call.between c f n (m.coarser_face_no c f).1) =
        [Call.face c f num.invalid_unsigned_int n (m.coarser_face_no c f).1
           (m.coarser_face_no c f).2,
         Call.face n (m.coarser_face_no c f).1 (m.coarser_face_no c f).2 c f
           num.invalid_unsigned_int] ∧
      rn.trace.filter (Call.between c f n (m.coarser_face_no c f).1) = [] := by
  have hw := work_of_own_both flags hboth
  have hartc := own_not_artificial num m c hlocal hownc
  obtain ⟨tc, pc⟩ := cell_action_ok num m w flags sample_copy_data c s1 c1 rc hc
  obtain ⟨tn, pn⟩ := cell_action_ok num m w flags sample_copy_data n s2 c2 rn hn
  constructor
  · obtain ⟨l, hl⟩ := (cell_plan_none num m flags c hartc pc).2 hw f hf
    have e := face_calls_own_both_edge num m flags c n f hownc hownn hboth hint hnb hco l hl
    rw [tc, plan_filter num m flags c f _ (between_involves_left c n f _ hcn) rfl hartc pc hf,
      if_pos hw]
    simp only [face_calls, hl, e]
    simp [Call.between]
  · cases hartn : is_artificial num m n with
    | true => rw [tn, cell_plan_artificial num m flags n hartn]; rfl
    | false =>
      obtain ⟨l, hl⟩ := (cell_plan_none num m flags n hartn pn).2 hw _ hnf
      rw [tn, plan_filter num m flags n _ _ (between_involves_right c n f _ hcn) rfl hartn pn
        hnf, if_pos hw]
      simp only [face_calls, hl]
      rcases face_calls_refined_neighbor num m flags n _ hact hcon hchp l hl with e | e <;>
        simp [e, Call.between]

end Claims

/-- Witness for C1: the two-cell mesh, unpartitioned, with only
`assemble_own_interior_faces_once` set. -/
theorem exactly_once_interior_face_witness :
    cell_action numbers32 (two_cells 4294967295) counting assemble_own_interior_faces_once
        0 0 0 55 = .ok ⟨1, 100, [Call.face 0 1 4294967295 1 0 4294967295]⟩ ∧
      cell_action numbers32 (two_cells 4294967295) counting assemble_own_interior_faces_once
        0 1 0 55 = .ok ⟨0, 0, []⟩ ∧
      ([Call.face 0 1 4294967295 1 0 4294967295] ++ []).filter (Call.between 0 1 1 0) =
        [Call.face 0 1 4294967295 1 0 4294967295] :=
  ⟨rfl, rfl,
    exactly_once_interior_face numbers32 (two_cells 4294967295) counting
      assemble_own_interior_faces_once 0 0 1 1 0 0 0 55 55
      ⟨1, 100, [Call.face 0 1 4294967295 1 0 4294967295]⟩ ⟨0, 0, []⟩
      rfl (by decide) (by decide) (by decide) (by decide) rfl rfl rfl rfl rfl rfl rfl rfl
      rfl rfl rfl rfl rfl⟩

/-- Witness for C2: participant 1 of the two-cell mesh visits its own cell `1`, whose
face 1 is at the boundary, with only `assemble_boundary_faces` set. -/
theorem boundary_completeness_witness :
    cell_action numbers32 (two_cells 1) counting assemble_boundary_faces 0 1 0 55 =
        .ok ⟨1, 10, [Call.boundary 1 1]⟩ ∧
      [Call.boundary 1 1].count (Call.boundary 1 1) = 1 :=
  ⟨rfl,
    boundary_completeness numbers32 (two_cells 1) counting assemble_boundary_faces 0 1 1 0 55
      ⟨1, 10, [Call.boundary 1 1]⟩ (by decide) rfl (by decide) rfl rfl⟩

/-- Witness for C3: the two-cell mesh shared by participants 0 and 1, with only
`assemble_ghost_faces_once` set; participant 0 makes the one call. -/
theorem distributed_dedup_witness :
    (([Call.face 0 1 4294967295 1 0 4294967295] ++ []).filter (Call.between 0 1 1 0) =
        [Call.face 0 1 4294967295 1 0 4294967295]) ∧
      (([] ++ []).filter (Call.between 0 1 1 0) = ([] : List (Call Nat))) :=
  distributed_dedup numbers32 (two_cells 0) counting assemble_ghost_faces_once 0 0 1 1 0 0 1
    0 0 0 0 55 55 55 55 ⟨1, 100, [Call.face 0 1 4294967295 1 0 4294967295]⟩ ⟨0, 0, []⟩
    ⟨0, 0, []⟩ ⟨0, 0, []⟩
    (by decide) (by decide) (by decide) (by decide) (by decide) rfl rfl rfl rfl rfl
    (by decide) (by decide) rfl rfl rfl rfl rfl rfl rfl rfl rfl rfl rfl rfl rfl rfl

/-- Witness for C4: the refinement edge of `hanging`, all cells owned by participant 7,
with only `assemble_own_interior_faces_both` set. -/
theorem hanging_node_symmetry_witness :
    ([Call.face 2 0 4294967295 0 1 0, Call.face 0 1 0 2 0 4294967295].filter
        (Call.between 2 0 0 1) =
        [Call.face 2 0 4294967295 0 1 0, Call.face 0 1 0 2 0 4294967295]) ∧
      (([] : List (Call Nat)).filter (Call.between 2 0 0 1) = []) :=
  hanging_node_symmetry numbers32 (hanging 7 7) counting assemble_own_interior_faces_both 0
    2 0 0 0 0 55 55
    ⟨2, 200, [Call.face 2 0 4294967295 0 1 0, Call.face 0 1 0 2 0 4294967295]⟩ ⟨0, 0, []⟩
    rfl (by decide) rfl rfl (by decide) (by decide) (by decide) rfl rfl rfl rfl rfl rfl
    rfl rfl

/-- Witness for C7: all three workers supplied, only `assemble_own_cells` set. -/
theorem boundary_worker_validation_witness :
    ∃ rule, mesh_loop numbers32 (two_cells 0) [0, 1] counting (fun c g => g + c) 0 0
      assemble_own_cells 2 8 (0 : Nat) =
        { global := 0, trace := [], failure := some (Failure.ExcMessage rule) } :=
  boundary_worker_validation numbers32 (two_cells 0) [0, 1] counting (fun c g => g + c) 0 0
    assemble_own_cells 2 8 0 (by decide)

/-- Witness for C8: both own-interior-face policies set. -/
theorem once_both_exclusive_witness :
    ∃ rule, mesh_loop numbers32 (two_cells 0) [0, 1] counting (fun c g => g + c) 0 0
      (assemble_own_interior_faces_once ||| assemble_own_interior_faces_both) 2 8 (0 : Nat) =
        { global := 0, trace := [], failure := some (Failure.ExcMessage rule) } :=
  once_both_exclusive numbers32 (two_cells 0) [0, 1] counting (fun c g => g + c) 0 0
    (assemble_own_interior_faces_once ||| assemble_own_interior_faces_both) 2 8 0
    (Or.inl ⟨by decide, by decide⟩)

/-- Witness for C9: a cell worker supplied, no cell flag set. -/
theorem cell_worker_validation_witness :
    mesh_loop numbers32 (two_cells 0) [0, 1] counting (fun c g => g + c) 0 0
      assemble_boundary_faces 2 8 (0 : Nat) =
        { global := 0, trace := [],
          failure := some (Failure.ExcMessage Rule.cell_worker_flags) } :=
  cell_worker_validation numbers32 (two_cells 0) [0, 1] counting (fun c g => g + c) 0 0
    assemble_boundary_faces 2 8 0 (by decide)

/-- Witness for C10: a face worker supplied, no face flag set. -/
theorem face_worker_validation_witness :
    ∃ rule, mesh_loop numbers32 (two_cells 0) [0, 1] counting (fun c g => g + c) 0 0
      (assemble_own_cells ||| assemble_boundary_faces) 2 8 (0 : Nat) =
        { global := 0, trace := [], failure := some (Failure.ExcMessage rule) } :=
  face_worker_validation numbers32 (two_cells 0) [0, 1] counting (fun c g => g + c) 0 0
    (assemble_own_cells ||| assemble_boundary_faces) 2 8 0 (by decide)

/-! ### Validation, artificial cells and the cell callback -/

/-- C11 (cells after faces needs cells). Whenever `cells_after_faces` is set and neither
`assemble_own_cells` nor `assemble_ghost_cells` is set, `mesh_loop` fails on an assertion
before the traversal: no call is made and the copier's data are untouched. -/
theorem cells_after_faces_validation {G : Type} (num : Numbers) (m : Mesh Cell)
    (cells : List Cell) (w : Workers Cell S C) (copier : C → G → G)
    (sample_scratch_data : S) (sample_copy_data : C) (flags : AssembleFlags)
    (queue_length chunk_size : Nat) (g : G)
    (hafter : test flags cells_after_faces = true)
    (hown : test flags assemble_own_cells = false)
    (hghost : test flags assemble_ghost_cells = false) :
    ∃ rule, mesh_loop num m cells w copier sample_scratch_data sample_copy_data flags
      queue_length chunk_size g =
        { global := g, trace := [], failure := some (Failure.ExcMessage rule) } := by
  apply mesh_loop_rejects
  rintro ⟨-, -, -, h4, -, -⟩
  rw [test_or] at h4
  simp [hafter, hown, hghost] at h4

/-- Witness for C11: only `cells_after_faces` set, with no worker at all. -/
theorem cells_after_faces_validation_witness :
    ∃ rule, mesh_loop numbers32 (two_cells 0) [0, 1]
      ({ cell_worker := none, boundary_worker := none, face_worker := none } :
        Workers Nat Nat Nat)
      (fun c g => g + c) 0 0 cells_after_faces 2 8 (0 : Nat) =
        { global := 0, trace := [], failure := some (Failure.ExcMessage rule) } :=
  cells_after_faces_validation numbers32 (two_cells 0) [0, 1] _ (fun c g => g + c) 0 0
    cells_after_faces 2 8 0 (by decide) (by decide) (by decide)

/-- C12 (artificial cells are skipped). In a partitioned mesh, for every cell whose owner
identifier is the artificial sentinel and for every flag set, workers, scratch value and
incoming accumulator, the cell action completes with no call made, the scratch data
untouched and the result accumulator equal to the prototype. -/
theorem artificial_cell_skipped (num : Numbers) (m : Mesh Cell) (w : Workers Cell S C)
    (flags : AssembleFlags) (sample_copy_data : C) (cell : Cell) (scratch : S) (copy : C)
    (hpart : m.locally_owned_subdomain ≠ num.invalid_subdomain_id)
    (hid : current_subdomain_id m cell = num.artificial_subdomain_id) :
    cell_action num m w flags sample_copy_data cell scratch copy =
      .ok { scratch := scratch, copy := sample_copy_data, trace := [] } := by
  have hart : is_artificial num m cell = true := by
    simp [is_artificial, ignore_subdomain, hpart, hid]
  rw [cell_action_eq_run, cell_plan_artificial num m flags cell hart]
  rfl

/-- Witness for C12: participant 0 of the two-cell mesh visits the cell whose subdomain
id is the artificial value, with every flag but `cells_after_faces` set. -/
theorem artificial_cell_skipped_witness :
    cell_action numbers32 (two_cells 0) counting 127 9 4294967294 3 55 =
      .ok { scratch := 3, copy := 9, trace := [] } :=
  artificial_cell_skipped numbers32 (two_cells 0) counting 127 9 4294967294 3 55
    (by decide) rfl

/-- C13 (the cell callback fires once under its guard). For every cell that is not
artificial and every flag set, with or without `cells_after_faces`, a completed visit
contains exactly one cell call, on the visited cell, if the cell is owned and
`assemble_own_cells` is set or the cell is not owned and `assemble_ghost_cells` is set,
and no cell call otherwise. -/
theorem cell_callback_once (num : Numbers) (m : Mesh Cell) (w : Workers Cell S C)
    (flags : AssembleFlags) (sample_copy_data : C) (cell : Cell) (scratch : S) (copy : C)
    (r : State Cell S C)
    (hart : is_artificial num m cell = false)
    (h : cell_action num m w flags sample_copy_data cell scratch copy = .ok r) :
    r.trace.filter Call.isCell =
      if (test flags assemble_own_cells && own_cell num m cell ||
          test flags assemble_ghost_cells && !own_cell num m cell) = true
      then [Call.cell cell] else [] := by
  obtain ⟨ht, hn⟩ := cell_action_ok num m w flags sample_copy_data cell scratch copy r h
  rw [ht, (cell_plan_none num m flags cell hart hn).1]
  have hmid : (if test flags (work_on_faces ||| work_on_boundary) = true then
      (List.range m.faces_per_cell).flatMap (face_calls num m flags cell)
      else []).filter Call.isCell = [] := by
    rw [List.filter_eq_nil_iff]
    intro c hc
    split_ifs at hc
    · obtain ⟨f, -, hf⟩ := List.mem_flatMap.mp hc
      simp [face_calls_not_cell num m flags cell f c hf]
    · simp at hc
  simp only [List.filter_append, hmid, List.append_nil]
  unfold cell_guard
  cases test flags cells_after_faces <;>
    cases (test flags assemble_own_cells && own_cell num m cell ||
      test flags assemble_ghost_cells && !own_cell num m cell) <;>
    simp [Call.isCell]

/-- Witness for C13: participant 1 of the two-cell mesh visits its own cell with
`assemble_own_cells` and `assemble_boundary_faces` set. -/
theorem cell_callback_once_witness :
    cell_action numbers32 (two_cells 1) counting
        (assemble_own_cells ||| assemble_boundary_faces) 0 1 0 55 =
        .ok ⟨2, 11, [Call.cell 1, Call.boundary 1 1]⟩ ∧
      [Call.cell 1, Call.boundary 1 1].filter Call.isCell = [Call.cell 1] :=
  ⟨rfl,
    cell_callback_once numbers32 (two_cells 1) counting
      (assemble_own_cells ||| assemble_boundary_faces) 0 1 0 55
      ⟨2, 11, [Call.cell 1, Call.boundary 1 1]⟩ rfl rfl⟩

/-! ### Documentation of `mesh_loop` against the code -/

/-- C14 (each interior face only once), at a cell that is its own periodic neighbor. On
the unpartitioned one-cell mesh whose two faces are periodic images of each other, with
only `assemble_own_interior_faces_once` set, the single visit of the cell calls the face
worker twice for the one periodic face, once from each of its two sides: the test
`neighbor < cell` of lines 399-402 never holds when the neighbor is the cell itself. -/
theorem self_periodic_face_visited_twice :
    cell_action numbers32 self_periodic counting assemble_own_interior_faces_once 0 0 0 0 =
        .ok ⟨2, 200, [Call.face 0 0 4294967295 0 1 4294967295,
                      Call.face 0 1 4294967295 0 0 4294967295]⟩ ∧
      self_periodic.neighbor_or_periodic_neighbor 0 0 = 0 ∧
      self_periodic.matching_face_no 0 0 = 1 ∧
      self_periodic.matching_face_no 0 1 = 0 ∧
      ([Call.face 0 0 4294967295 0 1 4294967295,
          Call.face 0 1 4294967295 0 0 4294967295].filter (Call.between 0 0 0 1)).length = 2 :=
  ⟨rfl, rfl, rfl, rfl, rfl⟩

/-- C15, refuted as stated: with `assemble_own_cells` and `assemble_boundary_faces` set
and `cells_after_faces` not set, the visit of an owned cell with a boundary face calls the
cell worker first and the boundary worker after it, not the other way round. -/
theorem default_order_counterexample :
    test (assemble_own_cells ||| assemble_boundary_faces) assemble_own_cells = true ∧
      test (assemble_own_cells ||| assemble_boundary_faces) cells_after_faces = false ∧
      cell_action numbers32 (two_cells 1) counting
        (assemble_own_cells ||| assemble_boundary_faces) 0 1 0 0 =
        .ok ⟨2, 11, [Call.cell 1, Call.boundary 1 1]⟩ ∧
      ¬ ∃ t, (Res.state (cell_action numbers32 (two_cells 1) counting
        (assemble_own_cells ||| assemble_boundary_faces) 0 1 0 0)).trace =
          t ++ [Call.cell 1] := by
  refine ⟨by decide, by decide, rfl, ?_⟩
  rintro ⟨t, ht⟩
  have h : ([Call.cell 1, Call.boundary 1 1] : List (Call Nat)) = t ++ [Call.cell 1] := ht
  have hl := congrArg List.getLast? h
  simp at hl

/-- C15 as amended (the cell comes first by default). When `assemble_own_cells` is set
and `cells_after_faces` is not, a completed visit of an owned cell that is not artificial
starts with the cell call, and all its face and boundary calls follow. -/
theorem cells_first_by_default (num : Numbers) (m : Mesh Cell) (w : Workers Cell S C)
    (flags : AssembleFlags) (sample_copy_data : C) (cell : Cell) (scratch : S) (copy : C)
    (r : State Cell S C)
    (hcells : test flags assemble_own_cells = true)
    (hafter : test flags cells_after_faces = false)
    (hown : own_cell num m cell = true)
    (hart : is_artificial num m cell = false)
    (h : cell_action num m w flags sample_copy_data cell scratch copy = .ok r) :
    ∃ t, r.trace = Call.cell cell :: t ∧ ∀ c ∈ t, Call.isCell c = false := by
  obtain ⟨ht, hn⟩ := cell_action_ok num m w flags sample_copy_data cell scratch copy r h
  rw [ht, (cell_plan_none num m flags cell hart hn).1]
  have hg : cell_guard num m flags cell = true := by simp [cell_guard, hcells, hown]
  simp only [hafter, hg, Bool.not_false, Bool.and_self, if_true, Bool.false_and,
    Bool.false_eq_true, if_false, List.append_nil, List.singleton_append]
  refine ⟨_, rfl, ?_⟩
  intro c hc
  split_ifs at hc
  · obtain ⟨f, -, hf⟩ := List.mem_flatMap.mp hc
    exact face_calls_not_cell num m flags cell f c hf
  · simp at hc

/-- Witness for the amended C15: participant 1 of the two-cell mesh visits its own cell
with `assemble_own_cells` and `assemble_boundary_faces` set. -/
theorem cells_first_by_default_witness :
    ∃ t, ([Call.cell 1, Call.boundary 1 1] : List (Call Nat)) = Call.cell 1 :: t ∧
      ∀ c ∈ t, Call.isCell c = false :=
  cells_first_by_default numbers32 (two_cells 1) counting
    (assemble_own_cells ||| assemble_boundary_faces) 0 1 0 0
    ⟨2, 11, [Call.cell 1, Call.boundary 1 1]⟩ (by decide) (by decide) rfl rfl rfl

theorem run_items_congr {G : Type} (worker1 worker2 : Cell → S → C → Res Cell S C)
    (copier : C → G → G) (sample_copy_data : C)
    (h : ∀ cell scratch, worker1 cell scratch sample_copy_data =
      worker2 cell scratch sample_copy_data)
    (cells : List Cell) (scratch : S) (g : G) (tr : List (Call Cell)) :
    WorkStream.run_items worker1 copier sample_copy_data cells scratch g tr =
      WorkStream.run_items worker2 copier sample_copy_data cells scratch g tr := by
  induction cells generalizing scratch g tr with
  | nil => rfl
  | cons c cs ih =>
    simp only [WorkStream.run_items, h c scratch]
    cases worker2 c scratch sample_copy_data with
    | error e => rfl
    | ok st => exact ih _ _ _

theorem own_cells_only_flags :
    test assemble_own_cells cells_after_faces = false ∧
      test assemble_own_cells (work_on_faces ||| work_on_boundary) = false ∧
      test assemble_own_cells assemble_own_cells = true ∧
      test assemble_own_cells assemble_ghost_cells = false ∧
      test assemble_own_cells work_on_cells = true ∧
      test assemble_own_cells work_on_faces = false ∧
      test assemble_own_cells assemble_boundary_faces = false := by
  decide

/-- C16, refuted as stated: with only `assemble_own_cells` set, the cell action is not one
call `cell_worker(cell, scratch, copy)` on the incoming accumulator. On the unpartitioned
two-cell mesh, from the incoming accumulator 55 and the prototype 0 it leaves 1, where the
call on the incoming accumulator leaves 56; and participant 0 makes no call at all on the
ghost cell `1`. -/
theorem drop_in_replacement_counterexample :
    cell_action numbers32 (two_cells 4294967295) cell_only assemble_own_cells 0 0 0 55 ≠
        call_cell_worker cell_only 0 ⟨0, 55, []⟩ ∧
      cell_action numbers32 (two_cells 0) cell_only assemble_own_cells 0 1 0 0 ≠
        call_cell_worker cell_only 1 ⟨0, 0, []⟩ := by
  constructor
  · intro h
    have h2 := congrArg (fun r => (Res.state r).copy) h
    revert h2
    decide
  · intro h
    have h2 := congrArg (fun r => (Res.state r).copy) h
    revert h2
    decide

/-- C16 as amended (drop-in replacement for `WorkStream::run`). With only
`assemble_own_cells` set, the cell action has, for every cell that is owned and not
artificial, every scratch and every incoming accumulator, exactly the effect of one call
`cell_worker(cell, scratch, copy)` made on the accumulator reset to the prototype; on any
other cell it makes no call and leaves the prototype. On an unpartitioned mesh, with a
cell worker and no other worker, `mesh_loop` is therefore `WorkStream::run` with
`cell_worker` as the worker, each item starting from a copy of the prototype. -/
theorem drop_in_replacement {G : Type} (num : Numbers) (m : Mesh Cell)
    (w : Workers Cell S C) (sample_copy_data : C) (cells : List Cell) (copier : C → G → G)
    (sample_scratch_data : S) (queue_length chunk_size : Nat) (g : G) :
    (∀ (cell : Cell) (scratch : S) (copy : C),
      cell_action num m w assemble_own_cells sample_copy_data cell scratch copy =
        if (own_cell num m cell && !is_artificial num m cell) = true then
          call_cell_worker w cell ⟨scratch, sample_copy_data, []⟩
        else .ok ⟨scratch, sample_copy_data, []⟩) ∧
    (m.locally_owned_subdomain = num.invalid_subdomain_id →
      w.cell_worker.isSome = true → w.boundary_worker = none → w.face_worker = none →
      mesh_loop num m cells w copier sample_scratch_data sample_copy_data
          assemble_own_cells queue_length chunk_size g =
        WorkStream.run cells (fun cell s c => call_cell_worker w cell ⟨s, c, []⟩) copier
          sample_scratch_data sample_copy_data queue_length chunk_size g) := by
  obtain ⟨f1, f2, f3, f4, f5, f6, f7⟩ := own_cells_only_flags
  have hA : ∀ (cell : Cell) (scratch : S) (copy : C),
      cell_action num m w assemble_own_cells sample_copy_data cell scratch copy =
        if (own_cell num m cell && !is_artificial num m cell) = true then
          call_cell_worker w cell ⟨scratch, sample_copy_data, []⟩
        else .ok ⟨scratch, sample_copy_data, []⟩ := by
    intro cell scratch copy
    rw [cell_action_eq_run]
    cases hart : is_artificial num m cell with
    | true =>
      rw [cell_plan_artificial num m assemble_own_cells cell hart]
      simp [run, exec]
    | false =>
      have hp : cell_plan num m assemble_own_cells cell =
          (if own_cell num m cell = true then [Call.cell cell] else [], none) := by
        unfold is_artificial at hart
        unfold cell_plan cell_guard
        simp only [hart, f1, f2, f3, f4, Bool.false_eq_true, if_false, Bool.not_false,
          Bool.true_and, Bool.false_and, Bool.or_false, List.append_nil]
      rw [hp]
      cases hown : own_cell num m cell
      · simp [run, exec]
      · simp only [if_true, Bool.not_false, Bool.and_self, run, exec, invoke]
        cases call_cell_worker w cell ⟨scratch, sample_copy_data, []⟩ <;> rfl
  refine ⟨hA, ?_⟩
  intro hunpart hcell hb hf
  unfold mesh_loop
  have c1 : (!(w.cell_worker.isNone == !test assemble_own_cells work_on_cells)) = false := by
    cases hw : w.cell_worker <;> simp_all
  have c2 : (!((assemble_own_cells &&&
      (assemble_own_interior_faces_once ||| assemble_own_interior_faces_both)) !=
      (assemble_own_interior_faces_once ||| assemble_own_interior_faces_both))) = false := by
    decide
  have c3 : (!((assemble_own_cells &&&
      (assemble_ghost_faces_once ||| assemble_ghost_faces_both)) !=
      (assemble_ghost_faces_once ||| assemble_ghost_faces_both))) = false := by
    decide
  have c4 : (!(!test assemble_own_cells cells_after_faces ||
      test assemble_own_cells (assemble_own_cells ||| assemble_ghost_cells))) = false := by
    decide
  have c5 : (!(w.face_worker.isNone == !test assemble_own_cells work_on_faces)) = false := by
    simp [hf, f6]
  have c6 : (!(w.boundary_worker.isNone ==
      !test assemble_own_cells assemble_boundary_faces)) = false := by
    simp [hb, f7]
  simp only [c1, c2, c3, c4, c5, c6, Bool.false_eq_true, if_false]
  unfold WorkStream.run
  apply run_items_congr
  intro cell scratch
  rw [hA]
  obtain ⟨-, hown, -, hart⟩ := unpartitioned_own num m cell hunpart
  simp [hown, hart]

/-- Witness for the amended C16: the unpartitioned two-cell mesh with a cell worker
alone. -/
theorem drop_in_replacement_witness :
    mesh_loop numbers32 (two_cells 4294967295) [0, 1] cell_only (fun c g => g + c) 0 0
        assemble_own_cells 2 8 (0 : Nat) =
      WorkStream.run [0, 1] (fun cell s c => call_cell_worker cell_only cell ⟨s, c, []⟩)
        (fun c g => g + c) 0 0 2 8 0 :=
  (drop_in_replacement numbers32 (two_cells 4294967295) cell_only 0 [0, 1]
    (fun c g => g + c) 0 2 8 0).2 rfl rfl rfl rfl

/-! ### Boundary calls and the classification of cells -/

theorem refinement_edge_plan_no_boundary (num : Numbers) (m : Mesh Cell)
    (flags : AssembleFlags) (cell : Cell) (f : Nat) (neighbor : Cell) (pn : Bool)
    (l : List (Call Cell))
    (h : refinement_edge_plan num m flags cell f neighbor pn = .ok l) :
    ∀ c g, Call.boundary c g ∉ l := by
  unfold refinement_edge_plan at h
  dsimp only at h
  split_ifs at h
  all_goals cases h
  all_goals simp

theorem same_level_plan_no_boundary (num : Numbers) (m : Mesh Cell)
    (flags : AssembleFlags) (cell : Cell) (f : Nat) (neighbor : Cell) (pn : Bool)
    (l : List (Call Cell))
    (h : same_level_plan num m flags cell f neighbor pn = .ok l) :
    ∀ c g, Call.boundary c g ∉ l := by
  unfold same_level_plan at h
  dsimp only at h
  split_ifs at h
  all_goals cases h
  all_goals simp

/-- The boundary calls decided on at one face. -/
theorem boundary_mem_face_calls (num : Numbers) (m : Mesh Cell) (flags : AssembleFlags)
    (cell : Cell) (f : Nat) (c : Cell) (g : Nat) :
    Call.boundary c g ∈ face_calls num m flags cell f ↔
      c = cell ∧ g = f ∧ m.boundary_face cell f = true ∧
        test flags assemble_boundary_faces = true ∧ own_cell num m cell = true := by
  unfold face_calls
  cases hp : face_plan num m flags cell f with
  | error e =>
    simp only [List.not_mem_nil, false_iff]
    rintro ⟨-, -, hb, hf, ho⟩
    unfold Mesh.boundary_face at hb
    unfold face_plan at hp
    simp [hb, hf, ho] at hp
  | ok l =>
    simp only []
    unfold face_plan at hp
    dsimp only at hp
    by_cases hb : (m.at_boundary cell f && !m.has_periodic_neighbor cell f) = true
    · rw [if_pos hb] at hp
      by_cases hg : (test flags assemble_boundary_faces && own_cell num m cell) = true
      · rw [if_pos hg] at hp
        cases hp
        simp only [Bool.and_eq_true] at hg
        simp [Mesh.boundary_face, hb, hg.1, hg.2]
      · rw [if_neg hg] at hp
        cases hp
        simp only [Bool.and_eq_true, not_and] at hg
        simp only [List.not_mem_nil, false_iff]
        rintro ⟨-, -, -, hf, ho⟩
        exact hg hf ho
    · rw [if_neg hb] at hp
      have hno : ∀ c g, Call.boundary c g ∉ l := by
        split_ifs at hp
        all_goals first
          | exact refinement_edge_plan_no_boundary num m flags cell f _ _ l hp
          | exact same_level_plan_no_boundary num m flags cell f _ _ l hp
          | (cases hp; simp)
      simp only [hno c g, false_iff]
      rintro ⟨-, -, hb', -, -⟩
      exact hb hb'

/-- Every decided call of a visit is the cell call or a call decided on at one of the
local faces. -/
theorem cell_plan_mem (num : Numbers) (m : Mesh Cell) (flags : AssembleFlags) (cell : Cell)
    (x : Call Cell) (hx : x ∈ (cell_plan num m flags cell).1) :
    x = Call.cell cell ∨
      ∃ f, f < m.faces_per_cell ∧ x ∈ face_calls num m flags cell f := by
  unfold cell_plan at hx
  by_cases hart : (!ignore_subdomain num m &&
      (current_subdomain_id m cell == num.artificial_subdomain_id)) = true
  · rw [if_pos hart] at hx
    simp at hx
  · rw [if_neg hart] at hx
    dsimp only at hx
    have hcell : ∀ b : Bool, x ∈ (if b = true then [Call.cell cell] else []) →
        x = Call.cell cell := by
      intro b hb
      cases b <;> simp_all
    have hmid : x ∈ (if test flags (work_on_faces ||| work_on_boundary) = true then
        loop_plan num m flags cell (List.range m.faces_per_cell) else ([], none)).1 →
        ∃ f, f < m.faces_per_cell ∧ x ∈ face_calls num m flags cell f := by
      intro hm
      split_ifs at hm
      · obtain ⟨done, rest, hsplit, hcalls, -, -⟩ :=
          loop_plan_split num m flags cell (List.range m.faces_per_cell)
        rw [hcalls] at hm
        obtain ⟨f, hf, hxf⟩ := List.mem_flatMap.mp hm
        have hfr : f ∈ List.range m.faces_per_cell := by
          rw [hsplit]
          exact List.mem_append_left _ hf
        exact ⟨f, List.mem_range.mp hfr, hxf⟩
      · simp at hm
    generalize (if test flags (work_on_faces ||| work_on_boundary) = true then
        loop_plan num m flags cell (List.range m.faces_per_cell) else ([], none)) = faces
      at hx hmid
    obtain ⟨l, fl⟩ := faces
    cases fl with
    | some e =>
      simp only [List.mem_append] at hx
      rcases hx with hx | hx
      · exact Or.inl (hcell _ hx)
      · exact Or.inr (hmid hx)
    | none =>
      simp only [List.mem_append] at hx
      rcases hx with (hx | hx) | hx
      · exact Or.inl (hcell _ hx)
      · exact Or.inr (hmid hx)
      · exact Or.inl (hcell _ hx)

/-- Every call recorded by a visit, completed or aborted, is one of its decided calls. -/
theorem visit_trace_mem (num : Numbers) (m : Mesh Cell) (w : Workers Cell S C)
    (flags : AssembleFlags) (sample_copy_data : C) (cell : Cell) (scratch : S) (copy : C)
    (x : Call Cell)
    (hx : x ∈ (cell_action num m w flags sample_copy_data cell scratch copy).state.trace) :
    x ∈ (cell_plan num m flags cell).1 := by
  rw [cell_action_eq_run] at hx
  obtain ⟨l1, l2, hl, htr, -, -⟩ := run_spec w (cell_plan num m flags cell)
    { scratch := scratch, copy := sample_copy_data, trace := [] }
  simp only [List.nil_append] at htr
  rw [htr] at hx
  rw [hl]
  exact List.mem_append_left _ hx

/-- C17 (boundary work only on owned cells). If the cell is not owned, no visit of it,
completed or aborted, with any workers, makes a boundary call, whatever the flags. And in
a completed visit, where the locally owned subdomain is not the artificial sentinel, the
boundary call `(c, face_no)` is made if and only if `c` is the visited cell, `face_no` is
one of its local faces, at the boundary and without periodic neighbor, the cell is owned,
and `assemble_boundary_faces` is set. -/
theorem boundary_only_owned (num : Numbers) (m : Mesh Cell) (w : Workers Cell S C)
    (flags : AssembleFlags) (sample_copy_data : C) (cell : Cell) (scratch : S) (copy : C)
    (r : State Cell S C)
    (hlocal : m.locally_owned_subdomain ≠ num.artificial_subdomain_id)
    (h : cell_action num m w flags sample_copy_data cell scratch copy = .ok r) :
    (own_cell num m cell = false →
        ∀ (w2 : Workers Cell S C) (scratch2 : S) (copy2 : C) (c : Cell) (face_no : Nat),
          Call.boundary c face_no ∉
            (cell_action num m w2 flags sample_copy_data cell scratch2 copy2).state.trace) ∧
      (∀ c face_no, Call.boundary c face_no ∈ r.trace ↔
        c = cell ∧ face_no < m.faces_per_cell ∧ m.boundary_face cell face_no = true ∧
          own_cell num m cell = true ∧ test flags assemble_boundary_faces = true) := by
  have only_if : ∀ c g, Call.boundary c g ∈ (cell_plan num m flags cell).1 →
      c = cell ∧ g < m.faces_per_cell ∧ m.boundary_face cell g = true ∧
        own_cell num m cell = true ∧ test flags assemble_boundary_faces = true := by
    intro c g hmem
    rcases cell_plan_mem num m flags cell _ hmem with e | ⟨f, hf, hxf⟩
    · cases e
    · obtain ⟨e1, e2, hb, hfl, ho⟩ := (boundary_mem_face_calls num m flags cell f c g).mp hxf
      subst e2
      exact ⟨e1, hf, hb, ho, hfl⟩
  constructor
  · intro hno w2 scratch2 copy2 c g hmem
    have := (only_if c g (visit_trace_mem num m w2 flags sample_copy_data cell scratch2
      copy2 _ hmem)).2.2.2.1
    rw [hno] at this
    exact Bool.noConfusion this
  · intro c g
    obtain ⟨ht, hn⟩ := cell_action_ok num m w flags sample_copy_data cell scratch copy r h
    rw [ht]
    refine ⟨only_if c g, ?_⟩
    rintro ⟨e1, hlt, hb, ho, hfl⟩
    have hart := own_not_artificial num m cell hlocal ho
    have hw : test flags (work_on_faces ||| work_on_boundary) = true := by
      simp [work_on_boundary, test_or, hfl]
    rw [(cell_plan_none num m flags cell hart hn).1, if_pos hw]
    apply List.mem_append_left
    apply List.mem_append_right
    exact List.mem_flatMap.mpr ⟨g, List.mem_range.mpr hlt,
      (boundary_mem_face_calls num m flags cell g c g).mpr ⟨e1, rfl, hb, hfl, ho⟩⟩

/-- Witness for C17: participant 1 of the two-cell mesh visits its own cell `1` with only
`assemble_boundary_faces` set. -/
theorem boundary_only_owned_witness :
    ((two_cells 1).locally_owned_subdomain ≠ numbers32.artificial_subdomain_id ∧
      cell_action numbers32 (two_cells 1) counting assemble_boundary_faces 0 1 0 55 =
        .ok ⟨1, 10, [Call.boundary 1 1]⟩) ∧
      (∀ c face_no, Call.boundary c face_no ∈ [Call.boundary 1 1] ↔
        c = 1 ∧ face_no < (two_cells 1).faces_per_cell ∧
          (two_cells 1).boundary_face 1 face_no = true ∧
          own_cell numbers32 (two_cells 1) 1 = true ∧
          test assemble_boundary_faces assemble_boundary_faces = true) :=
  ⟨⟨by decide, rfl⟩,
    (boundary_only_owned numbers32 (two_cells 1) counting assemble_boundary_faces 0 1 0 55
      ⟨1, 10, [Call.boundary 1 1]⟩ (by decide) rfl).2⟩

/-- C18 (an unpartitioned mesh is fully owned). If the locally owned subdomain is the
invalid id, then every cell, whatever its subdomain id and level-subdomain id are, is
classified owned as the visited cell and as a neighbor, is not skipped as artificial, and
gets the cell worker exactly when `assemble_own_cells` is set. -/
theorem unpartitioned_all_owned (num : Numbers) (m : Mesh Cell) (flags : AssembleFlags)
    (cell : Cell) (hunpart : m.locally_owned_subdomain = num.invalid_subdomain_id) :
    own_cell num m cell = true ∧ own_neighbor num m cell = true ∧
      is_artificial num m cell = false ∧
      cell_guard num m flags cell = test flags assemble_own_cells := by
  obtain ⟨-, ho, hn, ha⟩ := unpartitioned_own num m cell hunpart
  refine ⟨ho, hn, ha, ?_⟩
  simp [cell_guard, ho]

/-- Witness for C18: the unpartitioned two-cell mesh at the cell whose subdomain id is the
artificial value; its visit with `assemble_own_cells` calls the cell worker. -/
theorem unpartitioned_all_owned_witness :
    ((two_cells 4294967295).subdomain_id 4294967294 = numbers32.artificial_subdomain_id ∧
      cell_action numbers32 (two_cells 4294967295) cell_only assemble_own_cells 0
        4294967294 0 0 = .ok ⟨1, 1, [Call.cell 4294967294]⟩) ∧
      (own_cell numbers32 (two_cells 4294967295) 4294967294 = true ∧
        own_neighbor numbers32 (two_cells 4294967295) 4294967294 = true ∧
        is_artificial numbers32 (two_cells 4294967295) 4294967294 = false ∧
        cell_guard numbers32 (two_cells 4294967295) assemble_own_cells 4294967294 =
          test assemble_own_cells assemble_own_cells) :=
  ⟨⟨rfl, rfl⟩,
    unpartitioned_all_owned numbers32 (two_cells 4294967295) assemble_own_cells 4294967294
      rfl⟩

/-- C19, refuted as stated: in the partitioned mesh `level_cells 5`, cell `0` is active
and its subdomain id is the local participant id 5, yet the owner identifier the code uses
is its level-subdomain id 3, because the cell is a level cell, and the cell is not
classified owned. -/
theorem owner_identifier_counterexample :
    (level_cells 5).locally_owned_subdomain ≠ numbers32.invalid_subdomain_id ∧
      (level_cells 5).active 0 = true ∧
      (level_cells 5).subdomain_id 0 = (level_cells 5).locally_owned_subdomain ∧
      current_subdomain_id (level_cells 5) 0 ≠ (level_cells 5).subdomain_id 0 ∧
      own_cell numbers32 (level_cells 5) 0 = false := by
  decide

/-- C19 as amended (classification of the visited cell). In a partitioned mesh, the owner
identifier used for the current cell is its level-subdomain id when the cell is a level
cell and its subdomain id otherwise, whether or not the cell is active; the cell is
classified owned iff that identifier equals the local participant id, is skipped as
artificial iff it equals the artificial sentinel, and is a ghost (visited, not owned)
exactly in every other case. -/
theorem owner_classification (num : Numbers) (m : Mesh Cell) (cell : Cell)
    (hpart : m.locally_owned_subdomain ≠ num.invalid_subdomain_id) :
    current_subdomain_id m cell =
        (if m.is_level_cell cell = true then m.level_subdomain_id cell
         else m.subdomain_id cell) ∧
      (own_cell num m cell = true ↔
        current_subdomain_id m cell = m.locally_owned_subdomain) ∧
      (is_artificial num m cell = true ↔
        current_subdomain_id m cell = num.artificial_subdomain_id) ∧
      ((own_cell num m cell = false ∧ is_artificial num m cell = false) ↔
        (current_subdomain_id m cell ≠ m.locally_owned_subdomain ∧
          current_subdomain_id m cell ≠ num.artificial_subdomain_id)) := by
  have hi : ignore_subdomain num m = false := by simp [ignore_subdomain, hpart]
  refine ⟨rfl, ?_, ?_, ?_⟩
  · simp [own_cell, hi]
  · simp [is_artificial, hi]
  · simp [own_cell, is_artificial, hi]

/-- Witness for the amended C19: participant 3 of `level_cells`, where every cell is a
level cell with level-subdomain id 3. -/
theorem owner_classification_witness :
    current_subdomain_id (level_cells 3) 0 =
        (if (level_cells 3).is_level_cell 0 = true then (level_cells 3).level_subdomain_id 0
         else (level_cells 3).subdomain_id 0) ∧
      (own_cell numbers32 (level_cells 3) 0 = true ↔
        current_subdomain_id (level_cells 3) 0 = (level_cells 3).locally_owned_subdomain) ∧
      (is_artificial numbers32 (level_cells 3) 0 = true ↔
        current_subdomain_id (level_cells 3) 0 = numbers32.artificial_subdomain_id) ∧
      ((own_cell numbers32 (level_cells 3) 0 = false ∧
          is_artificial numbers32 (level_cells 3) 0 = false) ↔
        (current_subdomain_id (level_cells 3) 0 ≠ (level_cells 3).locally_owned_subdomain ∧
          current_subdomain_id (level_cells 3) 0 ≠ numbers32.artificial_subdomain_id)) :=
  owner_classification numbers32 (level_cells 3) 0 (by decide)

theorem refinement_edge_plan_cases (num : Numbers) (m : Mesh Cell) (flags : AssembleFlags)
    (cell : Cell) (f : Nat) (l : List (Call Cell))
    (h : refinement_edge_plan num m flags cell f (m.neighbor_or_periodic_neighbor cell f)
      (m.has_periodic_neighbor cell f) = .ok l) :
    m.has_children cell = false ∧
      m.has_children (m.neighbor_or_periodic_neighbor cell f) = false ∧
      (l = [] ∧ own_cell num m cell = false ∧ test flags assemble_ghost_faces_once = true ∨
       (own_cell num m cell = true ∨ test flags assemble_ghost_faces_once = false) ∧
        (l = [edge_call num m cell f] ∧
            test flags assemble_own_interior_faces_both = false ∨
          l = [edge_call num m cell f, edge_call_swapped num m cell f] ∧
            test flags assemble_own_interior_faces_both = true)) := by
  unfold refinement_edge_plan at h
  dsimp only at h
  unfold edge_call edge_call_swapped Mesh.coarser_face_no
  split_ifs at h
  all_goals cases h
  all_goals simp_all
  all_goals
    rcases Bool.eq_false_or_eq_true (own_cell num m cell) with ho | ho
    · exact Or.inl ho
    · rename_i hg _ _
      exact Or.inr (hg ho)

theorem same_level_plan_cases (num : Numbers) (m : Mesh Cell) (flags : AssembleFlags)
    (cell : Cell) (f : Nat) (l : List (Call Cell))
    (h : same_level_plan num m flags cell f (m.neighbor_or_periodic_neighbor cell f)
      (m.has_periodic_neighbor cell f) = .ok l) :
    l = [] ∨
      (l = [level_call num m cell f] ∧ own_cell num m cell = true ∧
        (m.is_active_iterator && m.has_children (m.neighbor_or_periodic_neighbor cell f))
          = false ∧
        m.level cell = m.level (m.neighbor_or_periodic_neighbor cell f)) := by
  unfold same_level_plan at h
  dsimp only at h
  unfold level_call Mesh.matching_face_no
  split_ifs at h
  all_goals cases h
  all_goals simp_all

/-- The calls decided on at one face when no assertion is tripped there: nothing; or the
boundary call; or, at a face that is interior and passes the filters, the calls of the
refinement-edge branch or the call of the other branch. -/
theorem face_plan_cases (num : Numbers) (m : Mesh Cell) (flags : AssembleFlags)
    (cell : Cell) (f : Nat) (l : List (Call Cell))
    (h : face_plan num m flags cell f = .ok l) :
    l = [] ∨
      (l = [Call.boundary cell f] ∧ m.boundary_face cell f = true ∧
        own_cell num m cell = true ∧ test flags assemble_boundary_faces = true) ∨
      (m.boundary_face cell f = false ∧ passes_filters num m flags cell f = true ∧
        m.coarser cell f = true ∧ m.has_children cell = false ∧
        m.has_children (m.neighbor_or_periodic_neighbor cell f) = false ∧
        (own_cell num m cell = true ∨ test flags assemble_ghost_faces_once = false) ∧
        (l = [edge_call num m cell f] ∧
            test flags assemble_own_interior_faces_both = false ∨
          l = [edge_call num m cell f, edge_call_swapped num m cell f] ∧
            test flags assemble_own_interior_faces_both = true)) ∨
      (m.boundary_face cell f = false ∧ passes_filters num m flags cell f = true ∧
        m.coarser cell f = false ∧ l = [level_call num m cell f] ∧
        own_cell num m cell = true ∧
        (m.is_active_iterator && m.has_children (m.neighbor_or_periodic_neighbor cell f))
          = false ∧
        m.level cell = m.level (m.neighbor_or_periodic_neighbor cell f)) := by
  unfold face_plan at h
  dsimp only at h
  by_cases hb : (m.at_boundary cell f && !m.has_periodic_neighbor cell f) = true
  · rw [if_pos hb] at h
    split_ifs at h with hg
    · cases h
      simp only [Bool.and_eq_true] at hg
      exact Or.inr (Or.inl ⟨rfl, hb, hg.2, hg.1⟩)
    · cases h
      exact Or.inl rfl
  · rw [if_neg hb] at h
    have hb2 : m.boundary_face cell f = false := by simpa [Mesh.boundary_face] using hb
    by_cases h1 : (!own_cell num m cell &&
        !own_neighbor num m (m.neighbor_or_periodic_neighbor cell f)) = true
    · rw [if_pos h1] at h
      cases h
      exact Or.inl rfl
    · rw [if_neg h1] at h
      by_cases h2 : (own_cell num m cell &&
          own_neighbor num m (m.neighbor_or_periodic_neighbor cell f) &&
          !test flags (assemble_own_interior_faces_both ||| assemble_own_interior_faces_once))
          = true
      · rw [if_pos h2] at h
        cases h
        exact Or.inl rfl
      · rw [if_neg h2] at h
        by_cases h3 : ((own_cell num m cell !=
            own_neighbor num m (m.neighbor_or_periodic_neighbor cell f)) &&
            !test flags (assemble_ghost_faces_both ||| assemble_ghost_faces_once)) = true
        · rw [if_pos h3] at h
          cases h
          exact Or.inl rfl
        · rw [if_neg h3] at h
          have hpf : passes_filters num m flags cell f = true := by
            unfold passes_filters
            simp only [Bool.not_eq_true] at h1 h2 h3
            rw [h1, h2, h3]
            rfl
          by_cases hc : ((!m.has_periodic_neighbor cell f && m.neighbor_is_coarser cell f) ||
              (m.has_periodic_neighbor cell f && m.periodic_neighbor_is_coarser cell f)) = true
          · rw [if_pos hc] at h
            obtain ⟨c1, c2, c3⟩ := refinement_edge_plan_cases num m flags cell f l h
            rcases c3 with ⟨e, -, -⟩ | ⟨c4, c5⟩
            · exact Or.inl e
            · exact Or.inr (Or.inr (Or.inl ⟨hb2, hpf, hc, c1, c2, c4, c5⟩))
          · rw [if_neg hc] at h
            have hc2 : m.coarser cell f = false := by simpa [Mesh.coarser] using hc
            rcases same_level_plan_cases num m flags cell f l h with e | ⟨e, c1, c2, c3⟩
            · exact Or.inl e
            · exact Or.inr (Or.inr (Or.inr ⟨hb2, hpf, hc2, e, c1, c2, c3⟩))

/-- The same for `face_calls`, which is empty where an assertion is tripped. -/
theorem face_calls_cases (num : Numbers) (m : Mesh Cell) (flags : AssembleFlags)
    (cell : Cell) (f : Nat) :
    face_calls num m flags cell f = [] ∨
      (face_calls num m flags cell f = [Call.boundary cell f] ∧
        m.boundary_face cell f = true ∧
        own_cell num m cell = true ∧ test flags assemble_boundary_faces = true) ∨
      (m.boundary_face cell f = false ∧ passes_filters num m flags cell f = true ∧
        m.coarser cell f = true ∧ m.has_children cell = false ∧
        m.has_children (m.neighbor_or_periodic_neighbor cell f) = false ∧
        (own_cell num m cell = true ∨ test flags assemble_ghost_faces_once = false) ∧
        (face_calls num m flags cell f = [edge_call num m cell f] ∧
            test flags assemble_own_interior_faces_both = false ∨
          face_calls num m flags cell f =
              [edge_call num m cell f, edge_call_swapped num m cell f] ∧
            test flags assemble_own_interior_faces_both = true)) ∨
      (m.boundary_face cell f = false ∧ passes_filters num m flags cell f = true ∧
        m.coarser cell f = false ∧
        face_calls num m flags cell f = [level_call num m cell f] ∧
        own_cell num m cell = true ∧
        (m.is_active_iterator && m.has_children (m.neighbor_or_periodic_neighbor cell f))
          = false ∧
        m.level cell = m.level (m.neighbor_or_periodic_neighbor cell f)) := by
  unfold face_calls
  cases hp : face_plan num m flags cell f with
  | error e => exact Or.inl rfl
  | ok l => exact face_plan_cases num m flags cell f l hp

/-- What the body of the face loop records: an initial part of the calls decided on at
the face. -/
theorem face_body_trace (num : Numbers) (m : Mesh Cell) (w : Workers Cell S C)
    (flags : AssembleFlags) (cell : Cell) (f : Nat) (st : State Cell S C) :
    ∃ l1 l2, face_calls num m flags cell f = l1 ++ l2 ∧
      (face_body num m w flags cell f st).state.trace = st.trace ++ l1 := by
  rw [face_body_eq]
  unfold face_calls
  cases hp : face_plan num m flags cell f with
  | error e => exact ⟨[], [], rfl, by simp [Res.state]⟩
  | ok l =>
    obtain ⟨l1, l2, hl, htr, -, -⟩ := exec_spec w l st
    exact ⟨l1, l2, hl, htr⟩

theorem passes_filters_spec (num : Numbers) (m : Mesh Cell) (flags : AssembleFlags)
    (cell : Cell) (f : Nat) (h : passes_filters num m flags cell f = true) :
    (own_cell num m cell = true ∨
        own_neighbor num m (m.neighbor_or_periodic_neighbor cell f) = true) ∧
      (own_cell num m cell = true →
        own_neighbor num m (m.neighbor_or_periodic_neighbor cell f) = true →
        test flags assemble_own_interior_faces_once = true ∨
          test flags assemble_own_interior_faces_both = true) ∧
      (own_cell num m cell ≠ own_neighbor num m (m.neighbor_or_periodic_neighbor cell f) →
        test flags assemble_ghost_faces_once = true ∨
          test flags assemble_ghost_faces_both = true) := by
  unfold passes_filters at h
  rw [test_or, test_or] at h
  generalize own_cell num m cell = a at h ⊢
  generalize own_neighbor num m (m.neighbor_or_periodic_neighbor cell f) = b at h ⊢
  generalize test flags assemble_own_interior_faces_once = c at h ⊢
  generalize test flags assemble_own_interior_faces_both = d at h ⊢
  generalize test flags assemble_ghost_faces_once = e at h ⊢
  generalize test flags assemble_ghost_faces_both = g at h ⊢
  revert a b c d e g
  decide

/-- A face call decided on at face `f` is one of the three face calls of the source, at
an interior face that passes the filters. -/
theorem face_mem_face_calls (num : Numbers) (m : Mesh Cell) (flags : AssembleFlags)
    (cell : Cell) (f : Nat) (x : Call Cell) (hx : x ∈ face_calls num m flags cell f)
    (hface : Call.isFace x = true) :
    m.boundary_face cell f = false ∧ passes_filters num m flags cell f = true ∧
      ((m.coarser cell f = true ∧ m.has_children cell = false ∧
          m.has_children (m.neighbor_or_periodic_neighbor cell f) = false ∧
          (own_cell num m cell = true ∨ test flags assemble_ghost_faces_once = false) ∧
          (x = edge_call num m cell f ∨
            (x = edge_call_swapped num m cell f ∧
              test flags assemble_own_interior_faces_both = true))) ∨
        (m.coarser cell f = false ∧ x = level_call num m cell f ∧
          own_cell num m cell = true ∧
          (m.is_active_iterator &&
            m.has_children (m.neighbor_or_periodic_neighbor cell f)) = false ∧
          m.level cell = m.level (m.neighbor_or_periodic_neighbor cell f))) := by
  rcases face_calls_cases num m flags cell f with e | ⟨e, -, -, -⟩ |
      ⟨hb, hp, hc, c1, c2, c3, c4⟩ | ⟨hb, hp, hc, e, c1, c2, c3⟩
  · rw [e] at hx
    simp at hx
  · rw [e] at hx
    simp only [List.mem_singleton] at hx
    subst hx
    simp [Call.isFace] at hface
  · refine ⟨hb, hp, Or.inl ⟨hc, c1, c2, c3, ?_⟩⟩
    rcases c4 with ⟨e, -⟩ | ⟨e, hboth⟩
    · rw [e] at hx
      simp only [List.mem_singleton] at hx
      exact Or.inl hx
    · rw [e] at hx
      simp only [List.mem_cons, List.mem_singleton, List.not_mem_nil, or_false] at hx
      rcases hx with hx | hx
      · exact Or.inl hx
      · exact Or.inr ⟨hx, hboth⟩
  · rw [e] at hx
    simp only [List.mem_singleton] at hx
    exact ⟨hb, hp, Or.inr ⟨hc, hx, c1, c2, c3⟩⟩

/-- Every call a visit records, completed or aborted, is the cell call or was decided on
at one of the local faces. -/
theorem visit_call_origin (num : Numbers) (m : Mesh Cell) (w : Workers Cell S C)
    (flags : AssembleFlags) (sample_copy_data : C) (cell : Cell) (scratch : S) (copy : C)
    (x : Call Cell)
    (hx : x ∈ (cell_action num m w flags sample_copy_data cell scratch copy).state.trace) :
    x = Call.cell cell ∨
      ∃ f, f < m.faces_per_cell ∧ x ∈ face_calls num m flags cell f :=
  cell_plan_mem num m flags cell x
    (visit_trace_mem num m w flags sample_copy_data cell scratch copy x hx)

/-! ### Ownership and flags at the face calls -/

/-- C21, refuted as stated: in the partitioned mesh `hanging 7 7`, cell `1` is neither
active nor a level cell and its subdomain id is the local participant id 7; as the visited
cell it is classified owned, as a neighbor it is classified not owned. -/
theorem neighbor_classification_counterexample :
    (hanging 7 7).locally_owned_subdomain ≠ numbers32.invalid_subdomain_id ∧
      (hanging 7 7).active 1 = false ∧ (hanging 7 7).is_level_cell 1 = false ∧
      own_cell numbers32 (hanging 7 7) 1 = true ∧
      own_neighbor numbers32 (hanging 7 7) 1 = false := by
  decide

/-- C21 as amended (classification of a neighbor). For every cell that is a level cell or
active, and for every cell of an unpartitioned mesh, the owned / not-owned result obtained
when the cell is met as a neighbor equals the one obtained when it is the visited cell. A
cell that is neither gets the artificial sentinel as its identifier when met as a
neighbor: in a partitioned mesh whose local participant id is not that sentinel it is not
owned as a neighbor, whatever its subdomain id. -/
theorem neighbor_classification (num : Numbers) (m : Mesh Cell) (x : Cell) :
    ((m.is_level_cell x = true ∨ m.active x = true ∨
        m.locally_owned_subdomain = num.invalid_subdomain_id) →
      own_neighbor num m x = own_cell num m x) ∧
    (m.is_level_cell x = false → m.active x = false →
      m.locally_owned_subdomain ≠ num.invalid_subdomain_id →
      m.locally_owned_subdomain ≠ num.artificial_subdomain_id →
      neighbor_subdomain_id num m x = num.artificial_subdomain_id ∧
        own_neighbor num m x = false) := by
  constructor
  · rintro (h | h | h)
    · simp [own_neighbor, own_cell, neighbor_subdomain_id, current_subdomain_id, h]
    · cases hl : m.is_level_cell x <;>
        simp [own_neighbor, own_cell, neighbor_subdomain_id, current_subdomain_id, h, hl]
    · simp [own_neighbor, own_cell, ignore_subdomain, h]
  · intro hl ha hp hart
    have hi : ignore_subdomain num m = false := by simp [ignore_subdomain, hp]
    have hid : neighbor_subdomain_id num m x = num.artificial_subdomain_id := by
      simp [neighbor_subdomain_id, hl, ha]
    refine ⟨hid, ?_⟩
    simp only [own_neighbor, hi, hid, Bool.false_or, beq_eq_false_iff_ne, ne_eq]
    exact fun e => hart e.symm

/-- Witness for the amended C21: in `hanging 7 7` the active cell `0` is classified alike
both ways, and the refined cell `1` is not owned as a neighbor. -/
theorem neighbor_classification_witness :
    own_neighbor numbers32 (hanging 7 7) 0 = own_cell numbers32 (hanging 7 7) 0 ∧
      (neighbor_subdomain_id numbers32 (hanging 7 7) 1 =
          numbers32.artificial_subdomain_id ∧
        own_neighbor numbers32 (hanging 7 7) 1 = false) :=
  ⟨(neighbor_classification numbers32 (hanging 7 7) 0).1 (Or.inr (Or.inl rfl)),
    (neighbor_classification numbers32 (hanging 7 7) 1).2 rfl rfl (by decide) (by decide)⟩

/-- C22 (no face call between two cells that are not owned). In every face call recorded
by a visit, completed or aborted, whatever the flags and the mesh, one of the two cell
arguments is the visited cell and the other its neighbor across the face, and the visited
cell is owned or the neighbor is owned; this covers the swapped call at a refinement edge,
where the visited cell is the second cell argument. -/
theorem face_call_has_owned_side (num : Numbers) (m : Mesh Cell) (w : Workers Cell S C)
    (flags : AssembleFlags) (sample_copy_data : C) (cell : Cell) (scratch : S) (copy : C)
    (a : Cell) (fa sa : Nat) (b : Cell) (fb sb : Nat)
    (hx : Call.face a fa sa b fb sb ∈
      (cell_action num m w flags sample_copy_data cell scratch copy).state.trace) :
    (a = cell ∧ b = m.neighbor_or_periodic_neighbor cell fa ∧
        (own_cell num m cell = true ∨ own_neighbor num m b = true)) ∨
      (b = cell ∧ a = m.neighbor_or_periodic_neighbor cell fb ∧
        (own_cell num m cell = true ∨ own_neighbor num m a = true)) := by
  rcases visit_call_origin num m w flags sample_copy_data cell scratch copy _ hx with
    e | ⟨f, -, hf⟩
  · cases e
  · obtain ⟨-, hp, hcase⟩ := face_mem_face_calls num m flags cell f _ hf rfl
    have hown := (passes_filters_spec num m flags cell f hp).1
    rcases hcase with ⟨-, -, -, -, e | ⟨e, -⟩⟩ | ⟨-, e, -, -, -⟩
    · simp only [edge_call, Call.face.injEq] at e
      obtain ⟨e1, e2, -, e4, -, -⟩ := e
      subst e1 e2 e4
      exact Or.inl ⟨rfl, rfl, hown⟩
    · simp only [edge_call_swapped, Call.face.injEq] at e
      obtain ⟨e1, -, -, e4, e5, -⟩ := e
      subst e1 e4 e5
      exact Or.inr ⟨rfl, rfl, hown⟩
    · simp only [level_call, Call.face.injEq] at e
      obtain ⟨e1, e2, -, e4, -, -⟩ := e
      subst e1 e2 e4
      exact Or.inl ⟨rfl, rfl, hown⟩

/-- Witness for C22: participant 7 visits the fine cell of `hanging 7 3`, whose coarser
neighbor is a ghost, with the ghost "once" and the own "both" flags set; the swapped call
has the owned cell `2` as its second cell argument. -/
theorem face_call_has_owned_side_witness :
    (0 = 2 ∧ 2 = (hanging 7 3).neighbor_or_periodic_neighbor 2 1 ∧
        (own_cell numbers32 (hanging 7 3) 2 = true ∨
          own_neighbor numbers32 (hanging 7 3) 2 = true)) ∨
      (2 = 2 ∧ 0 = (hanging 7 3).neighbor_or_periodic_neighbor 2 0 ∧
        (own_cell numbers32 (hanging 7 3) 2 = true ∨
          own_neighbor numbers32 (hanging 7 3) 0 = true)) :=
  face_call_has_owned_side numbers32 (hanging 7 3) counting
    (assemble_ghost_faces_once ||| assemble_own_interior_faces_both) 0 2 0 0
    0 1 0 2 0 4294967295 (by decide)

/-- C23 (face calls are gated by the matching flag family). In every face call recorded
by a visit, completed or aborted, with `n` the neighbor of the visited cell among the two
cell arguments: if the visited cell and `n` are both owned, then
`assemble_own_interior_faces_once` or `assemble_own_interior_faces_both` is set; if exactly
one of them is owned, then `assemble_ghost_faces_once` or `assemble_ghost_faces_both` is
set. -/
theorem face_call_gated_by_family (num : Numbers) (m : Mesh Cell) (w : Workers Cell S C)
    (flags : AssembleFlags) (sample_copy_data : C) (cell : Cell) (scratch : S) (copy : C)
    (a : Cell) (fa sa : Nat) (b : Cell) (fb sb : Nat)
    (hx : Call.face a fa sa b fb sb ∈
      (cell_action num m w flags sample_copy_data cell scratch copy).state.trace) :
    ∃ n, ((a = cell ∧ b = n) ∨ (a = n ∧ b = cell)) ∧
      (own_cell num m cell = true → own_neighbor num m n = true →
        test flags assemble_own_interior_faces_once = true ∨
          test flags assemble_own_interior_faces_both = true) ∧
      (own_cell num m cell ≠ own_neighbor num m n →
        test flags assemble_ghost_faces_once = true ∨
          test flags assemble_ghost_faces_both = true) := by
  rcases visit_call_origin num m w flags sample_copy_data cell scratch copy _ hx with
    e | ⟨f, -, hf⟩
  · cases e
  · obtain ⟨-, hp, hcase⟩ := face_mem_face_calls num m flags cell f _ hf rfl
    obtain ⟨-, hown, hghost⟩ := passes_filters_spec num m flags cell f hp
    refine ⟨m.neighbor_or_periodic_neighbor cell f, ?_, hown, hghost⟩
    rcases hcase with ⟨-, -, -, -, e | ⟨e, -⟩⟩ | ⟨-, e, -, -, -⟩
    · simp only [edge_call, Call.face.injEq] at e
      exact Or.inl ⟨e.1, e.2.2.2.1⟩
    · simp only [edge_call_swapped, Call.face.injEq] at e
      exact Or.inr ⟨e.1, e.2.2.2.1⟩
    · simp only [level_call, Call.face.injEq] at e
      exact Or.inl ⟨e.1, e.2.2.2.1⟩

/-- Witness for C23: participant 0 of the two-cell mesh visits its own cell, whose
neighbor is a ghost, with only `assemble_ghost_faces_once` set. -/
theorem face_call_gated_by_family_witness :
    ∃ n, ((0 = 0 ∧ 1 = n) ∨ (0 = n ∧ 1 = 0)) ∧
      (own_cell numbers32 (two_cells 0) 0 = true → own_neighbor numbers32 (two_cells 0) n = true →
        test assemble_ghost_faces_once assemble_own_interior_faces_once = true ∨
          test assemble_ghost_faces_once assemble_own_interior_faces_both = true) ∧
      (own_cell numbers32 (two_cells 0) 0 ≠ own_neighbor numbers32 (two_cells 0) n →
        test assemble_ghost_faces_once assemble_ghost_faces_once = true ∨
          test assemble_ghost_faces_once assemble_ghost_faces_both = true) :=
  face_call_gated_by_family numbers32 (two_cells 0) counting assemble_ghost_faces_once 0 0 0 0
    0 1 4294967295 1 0 4294967295 (by decide)

/-! ### A refinement edge between two participants -/

/-- The calls decided on at a refinement edge by the owner of the fine cell, whose
coarser neighbor is a ghost, with a ghost-face flag set. -/
theorem face_calls_ghost_edge (num : Numbers) (m : Mesh Cell) (flags : AssembleFlags)
    (c n : Cell) (f : Nat)
    (hown : own_cell num m c = true) (hownn : own_neighbor num m n = false)
    (hghost : test flags assemble_ghost_faces_once = true)
    (hint : m.boundary_face c f = false)
    (hnb : m.neighbor_or_periodic_neighbor c f = n)
    (hco : m.coarser c f = true)
    (l : List (Call Cell)) (hl : face_plan num m flags c f = .ok l) :
    l = if test flags assemble_own_interior_faces_both = true then
          [edge_call num m c f, edge_call_swapped num m c f]
        else [edge_call num m c f] := by
  have hpf : passes_filters num m flags c f = true := by
    unfold passes_filters
    rw [hnb, test_or, test_or]
    simp [hown, hownn, hghost]
  rcases face_plan_cases num m flags c f l hl with e | ⟨-, hb, -, -⟩ |
      ⟨-, -, -, -, -, -, c4⟩ | ⟨-, -, hc, -⟩
  · exfalso
    unfold face_plan at hl
    unfold Mesh.boundary_face at hint
    unfold Mesh.coarser at hco
    unfold passes_filters at hpf
    simp only [Bool.and_eq_true, Bool.not_eq_true'] at hpf
    obtain ⟨⟨h1, h2⟩, h3⟩ := hpf
    simp only [hint, Bool.false_eq_true, if_false, h1, h2, h3, hco, if_true] at hl
    unfold refinement_edge_plan at hl
    simp only [hown, Bool.not_true, Bool.false_and, Bool.false_eq_true, if_false] at hl
    subst e
    split_ifs at hl <;> cases hl
  · rw [hint] at hb
    exact Bool.noConfusion hb
  · rcases c4 with ⟨e, hb⟩ | ⟨e, hb⟩ <;> simp [e, hb]
  · rw [hco] at hc
    exact Bool.noConfusion hc

/-- At a refinement edge, a fine cell that is not owned makes no call under the ghost
"once" policy. -/
theorem face_calls_edge_not_own (num : Numbers) (m : Mesh Cell) (flags : AssembleFlags)
    (c : Cell) (f : Nat)
    (hown : own_cell num m c = false)
    (hghost : test flags assemble_ghost_faces_once = true)
    (l : List (Call Cell)) (hl : face_plan num m flags c f = .ok l) :
    l = [] ∨ m.coarser c f = false := by
  rcases face_plan_cases num m flags c f l hl with e | ⟨-, -, ho, -⟩ |
      ⟨-, -, -, -, -, c3, -⟩ | ⟨-, -, hc, -⟩
  · exact Or.inl e
  · rw [hown] at ho
    exact Bool.noConfusion ho
  · rcases c3 with c3 | c3
    · rw [hown] at c3
      exact Bool.noConfusion c3
    · rw [hghost] at c3
      exact Bool.noConfusion c3
  · exact Or.inr hc

/-- C24, refuted as stated: participant 7 owns the fine cell `2` of `hanging 7 3`, whose
coarser neighbor `0` is owned by participant 3. With `assemble_ghost_faces_once` set
together with `assemble_own_interior_faces_both`, the visit of the fine cell calls the
face worker twice for the pairing, the second time with the coarse cell as current. -/
theorem hanging_ghost_once_counterexample :
    test (assemble_ghost_faces_once ||| assemble_own_interior_faces_both)
        assemble_ghost_faces_once = true ∧
      own_cell numbers32 (hanging 7 3) 2 = true ∧
      own_neighbor numbers32 (hanging 7 3) 0 = false ∧
      cell_action numbers32 (hanging 7 3) counting
        (assemble_ghost_faces_once ||| assemble_own_interior_faces_both) 0 2 0 0 =
        .ok ⟨2, 200, [Call.face 2 0 4294967295 0 1 0, Call.face 0 1 0 2 0 4294967295]⟩ ∧
      ([Call.face 2 0 4294967295 0 1 0, Call.face 0 1 0 2 0 4294967295].filter
        (Call.between 2 0 0 1)).length = 2 := by
  refine ⟨by decide, rfl, rfl, rfl, rfl⟩

/-- C24 as amended (a refinement edge between two participants). Two participants `P`
and `Q` with distinct identifiers (neither the invalid nor the artificial value) see the
same mesh through active iterators; the fine active cell `c` is owned by `P`, its coarser
active neighbor `n` across face `f` by `Q`, and seen from `n` the neighbor across the
paired face is not coarser and has children. With `assemble_ghost_faces_once` set and
`assemble_own_interior_faces_both` not set, and both participants visiting both cells,
the face call for the pairing is made exactly once in total, by `P`, with the fine cell
as current argument; `Q` makes none, whatever the order of `P` and `Q`. -/
theorem hanging_ghost_once [DecidableEq Cell] (num : Numbers) (m : Mesh Cell)
    (w : Workers Cell S C) (flags : AssembleFlags) (sample_copy_data : C) (c n : Cell)
    (f P Q : Nat) (s1 s2 s3 s4 : S) (c1 c2 c3 c4 : C) (rPc rPn rQc rQn : State Cell S C)
    (hPQ : P ≠ Q)
    (hP : P ≠ num.invalid_subdomain_id) (hQ : Q ≠ num.invalid_subdomain_id)
    (hPa : P ≠ num.artificial_subdomain_id) (hQa : Q ≠ num.artificial_subdomain_id)
    (hghost : test flags assemble_ghost_faces_once = true)
    (hboth : test flags assemble_own_interior_faces_both = false)
    (hactc : m.active c = true) (hactn : m.active n = true)
    (hidc : current_subdomain_id m c = P) (hidn : current_subdomain_id m n = Q)
    (hf : f < m.faces_per_cell) (hnf : (m.coarser_face_no c f).1 < m.faces_per_cell)
    (hint : m.boundary_face c f = false)
    (hnb : m.neighbor_or_periodic_neighbor c f = n)
    (hco : m.coarser c f = true)
    (hact : m.is_active_iterator = true)
    (hcon : m.coarser n (m.coarser_face_no c f).1 = false)
    (hchp : m.has_children
      (m.neighbor_or_periodic_neighbor n (m.coarser_face_no c f).1) = true)
    (hPc : cell_action num (m.as_participant P) w flags sample_copy_data c s1 c1 = .ok rPc)
    (hPn : cell_action num (m.as_participant P) w flags sample_copy_data n s2 c2 = .ok rPn)
    (hQc : cell_action num (m.as_participant Q) w flags sample_copy_data c s3 c3 = .ok rQc)
    (hQn : cell_action num (m.as_participant Q) w flags sample_copy_data n s4 c4 = .ok rQn) :
    (rPc.trace ++ rPn.trace).filter (Call.between c f n (m.coarser_face_no c f).1) =
        [Call.face c f num.invalid_unsigned_int n (m.coarser_face_no c f).1
           (m.coarser_face_no c f).2] ∧
      (rQc.trace ++ rQn.trace).filter (Call.between c f n (m.coarser_face_no c f).1) = [] := by
  have hcn : c ≠ n := by
    intro e
    subst e
    exact hPQ (hidc.symm.trans hidn)
  have hw := work_of_ghost_once flags hghost
  obtain ⟨oPc, -, aPc, -, -⟩ := participant_view num m c P P hP hPa hactc hidc
  obtain ⟨oPn, nPn, aPn, -, -⟩ := participant_view num m n P Q hP hQa hactn hidn
  obtain ⟨oQc, -, aQc, -, -⟩ := participant_view num m c Q P hQ hPa hactc hidc
  obtain ⟨-, -, aQn, -, -⟩ := participant_view num m n Q Q hQ hQa hactn hidn
  have hQP : (Q == P) = false := beq_eq_false_iff_ne.mpr (Ne.symm hPQ)
  have hPQ2 : (P == Q) = false := beq_eq_false_iff_ne.mpr hPQ
  simp only [beq_self_eq_true, hQP, hPQ2] at oPc oPn nPn oQc
  obtain ⟨tPc, pPc⟩ := cell_action_ok num _ w flags sample_copy_data c s1 c1 rPc hPc
  obtain ⟨tPn, pPn⟩ := cell_action_ok num _ w flags sample_copy_data n s2 c2 rPn hPn
  obtain ⟨tQc, pQc⟩ := cell_action_ok num _ w flags sample_copy_data c s3 c3 rQc hQc
  obtain ⟨tQn, pQn⟩ := cell_action_ok num _ w flags sample_copy_data n s4 c4 rQn hQn
  obtain ⟨lPc, hlPc⟩ := (cell_plan_none num _ flags c aPc pPc).2 hw f hf
  obtain ⟨lPn, hlPn⟩ := (cell_plan_none num _ flags n aPn pPn).2 hw _ hnf
  obtain ⟨lQc, hlQc⟩ := (cell_plan_none num _ flags c aQc pQc).2 hw f hf
  obtain ⟨lQn, hlQn⟩ := (cell_plan_none num _ flags n aQn pQn).2 hw _ hnf
  have ePc := face_calls_ghost_edge num (m.as_participant P) flags c n f oPc nPn hghost hint
    hnb hco lPc hlPc
  rw [hboth] at ePc
  have ePn := face_calls_refined_neighbor num (m.as_participant P) flags n _ hact hcon hchp
    lPn hlPn
  have eQc : lQc = [] := by
    rcases face_calls_edge_not_own num (m.as_participant Q) flags c f oQc hghost lQc hlQc
      with e | e
    · exact e
    · have hco2 : (m.as_participant Q).coarser c f = true := hco
      rw [hco2] at e
      exact Bool.noConfusion e
  have eQn := face_calls_refined_neighbor num (m.as_participant Q) flags n _ hact hcon hchp
    lQn hlQn
  have hedge : edge_call num (m.as_participant P) c f =
      Call.face c f num.invalid_unsigned_int n (m.coarser_face_no c f).1
        (m.coarser_face_no c f).2 := by
    have : (m.as_participant P).neighbor_or_periodic_neighbor c f = n := hnb
    unfold edge_call
    rw [this]
    rfl
  rw [List.filter_append, List.filter_append, tPc, tPn, tQc, tQn,
    plan_filter num _ flags c f _ (between_involves_left c n f _ hcn) rfl aPc pPc hf,
    plan_filter num _ flags n _ _ (between_involves_right c n f _ hcn) rfl aPn pPn hnf,
    plan_filter num _ flags c f _ (between_involves_left c n f _ hcn) rfl aQc pQc hf,
    plan_filter num _ flags n _ _ (between_involves_right c n f _ hcn) rfl aQn pQn hnf]
  simp only [if_pos hw, face_calls, hlPc, hlPn, hlQc, hlQn, ePc, eQc, hedge]
  constructor
  · rcases ePn with e | e <;> simp [e, Call.between]
  · rcases eQn with e | e <;> simp [e, Call.between]

/-- Witness for the amended C24: the refinement edge of `hanging`, fine cell `2` owned by
participant 7 and coarse cell `0` by participant 3, with only `assemble_ghost_faces_once`
set. -/
theorem hanging_ghost_once_witness :
    ([Call.face 2 0 4294967295 0 1 0] ++ []).filter (Call.between 2 0 0 1) =
        [Call.face 2 0 4294967295 0 1 0] ∧
      (([] : List (Call Nat)) ++ []).filter (Call.between 2 0 0 1) = [] :=
  hanging_ghost_once numbers32 (hanging 3 3) counting assemble_ghost_faces_once 0 2 0 0 7 3
    0 0 0 0 0 0 0 0 ⟨1, 100, [Call.face 2 0 4294967295 0 1 0]⟩ ⟨0, 0, []⟩ ⟨0, 0, []⟩
    ⟨0, 0, []⟩
    (by decide) (by decide) (by decide) (by decide) (by decide) (by decide) (by decide)
    rfl rfl rfl rfl (by decide) (by decide) rfl rfl rfl rfl rfl rfl rfl rfl rfl rfl

/-! ### The face loop body at a face whose neighbor is not coarser -/

/-- The calls the body of the face loop adds to the record are among those decided on
at the face. -/
theorem face_body_new_call (num : Numbers) (m : Mesh Cell) (w : Workers Cell S C)
    (flags : AssembleFlags) (cell : Cell) (f : Nat) (st : State Cell S C) (x : Call Cell)
    (hx : x ∈ (face_body num m w flags cell f st).state.trace) (hnew : x ∉ st.trace) :
    x ∈ face_calls num m flags cell f := by
  obtain ⟨l1, l2, hl, htr⟩ := face_body_trace num m w flags cell f st
  rw [htr] at hx
  rcases List.mem_append.mp hx with h | h
  · exact absurd h hnew
  · rw [hl]
    exact List.mem_append_left _ h

/-- C25 (a matching-level face is worked on from the owned side only). At a face whose
neighbor is not coarser: if the visited cell is not owned, the body of the face loop
makes no call and leaves the state as it is, whatever the flags, "once" or "both"; and
every face call the body makes there is the call `(cell, face_no, none, neighbor,
neighbor_face_no, none)` with an owned visited cell as its current argument. -/
theorem matching_level_needs_own_cell (num : Numbers) (m : Mesh Cell) (w : Workers Cell S C)
    (flags : AssembleFlags) (cell : Cell) (f : Nat) (st : State Cell S C)
    (hco : m.coarser cell f = false) :
    (own_cell num m cell = false → (face_body num m w flags cell f st).state = st) ∧
      (∀ x, x ∈ (face_body num m w flags cell f st).state.trace → x ∉ st.trace →
        Call.isFace x = true →
        own_cell num m cell = true ∧ x = level_call num m cell f) := by
  constructor
  · intro hown
    rw [face_body_eq]
    cases hp : face_plan num m flags cell f with
    | error e => rfl
    | ok l =>
      rcases face_plan_cases num m flags cell f l hp with e | ⟨-, -, ho, -⟩ |
          ⟨-, -, hc, -⟩ | ⟨-, -, -, -, ho, -⟩
      · subst e
        rfl
      · rw [hown] at ho
        exact Bool.noConfusion ho
      · rw [hco] at hc
        exact Bool.noConfusion hc
      · rw [hown] at ho
        exact Bool.noConfusion ho
  · intro x hx hnew hface
    have hmem := face_body_new_call num m w flags cell f st x hx hnew
    obtain ⟨-, -, hcase⟩ := face_mem_face_calls num m flags cell f x hmem hface
    rcases hcase with ⟨hc, -⟩ | ⟨-, e, ho, -, -⟩
    · rw [hco] at hc
      exact Bool.noConfusion hc
    · exact ⟨ho, e⟩

/-- Witness for C25: participant 0 of the two-cell mesh processes face 0 of the ghost
cell `1` with `assemble_ghost_faces_both` set. -/
theorem matching_level_needs_own_cell_witness :
    (face_body numbers32 (two_cells 0) counting assemble_ghost_faces_both 1 0
      ⟨0, 0, []⟩).state = ⟨0, 0, []⟩ :=
  (matching_level_needs_own_cell numbers32 (two_cells 0) counting assemble_ghost_faces_both
    1 0 ⟨0, 0, []⟩ rfl).1 rfl

/-- C26 (arguments of the face calls). Every face call recorded by a visit, completed or
aborted, was made at an interior local face `g` of the visited cell, with `n` the
neighbor across `g`. If the neighbor is not coarser, the call is
`(cell, g, none, n, nf, none)` with `nf` the mesh's `neighbor_face_no` for `g`, in its
periodic variant when `g` has a periodic neighbor. If the neighbor is coarser, the call is
`(cell, g, none, n, nf, nsf)` or the swapped `(n, nf, nsf, cell, g, none)`, with
`(nf, nsf)` the pair returned by the coarser-neighbor lookup for `g`. -/
theorem face_call_arguments (num : Numbers) (m : Mesh Cell) (w : Workers Cell S C)
    (flags : AssembleFlags) (sample_copy_data : C) (cell : Cell) (scratch : S) (copy : C)
    (x : Call Cell)
    (hx : x ∈ (cell_action num m w flags sample_copy_data cell scratch copy).state.trace)
    (hface : Call.isFace x = true) :
    ∃ g, g < m.faces_per_cell ∧ m.boundary_face cell g = false ∧
      ((m.coarser cell g = false ∧
          x = Call.face cell g num.invalid_unsigned_int
            (m.neighbor_or_periodic_neighbor cell g)
            (if m.has_periodic_neighbor cell g = true then m.periodic_neighbor_face_no cell g
             else m.neighbor_face_no cell g)
            num.invalid_unsigned_int) ∨
        (m.coarser cell g = true ∧
          (x = Call.face cell g num.invalid_unsigned_int
              (m.neighbor_or_periodic_neighbor cell g)
              (m.coarser_face_no cell g).1 (m.coarser_face_no cell g).2 ∨
            x = Call.face (m.neighbor_or_periodic_neighbor cell g)
              (m.coarser_face_no cell g).1 (m.coarser_face_no cell g).2 cell g
              num.invalid_unsigned_int))) := by
  rcases visit_call_origin num m w flags sample_copy_data cell scratch copy x hx with
    e | ⟨g, hg, hmem⟩
  · subst e
    simp [Call.isFace] at hface
  · obtain ⟨hb, -, hcase⟩ := face_mem_face_calls num m flags cell g x hmem hface
    refine ⟨g, hg, hb, ?_⟩
    rcases hcase with ⟨hc, -, -, -, e | ⟨e, -⟩⟩ | ⟨hc, e, -, -, -⟩
    · exact Or.inr ⟨hc, Or.inl e⟩
    · exact Or.inr ⟨hc, Or.inr e⟩
    · exact Or.inl ⟨hc, e⟩

/-- Witness for C26: the swapped call of the visit of the fine cell of `hanging 7 7` with
`assemble_own_interior_faces_both` set. -/
theorem face_call_arguments_witness :
    ∃ g, g < (hanging 7 7).faces_per_cell ∧ (hanging 7 7).boundary_face 2 g = false ∧
      (((hanging 7 7).coarser 2 g = false ∧
          Call.face 0 1 0 2 0 4294967295 = Call.face 2 g numbers32.invalid_unsigned_int
            ((hanging 7 7).neighbor_or_periodic_neighbor 2 g)
            (if (hanging 7 7).has_periodic_neighbor 2 g = true then
               (hanging 7 7).periodic_neighbor_face_no 2 g
             else (hanging 7 7).neighbor_face_no 2 g)
            numbers32.invalid_unsigned_int) ∨
        ((hanging 7 7).coarser 2 g = true ∧
          (Call.face 0 1 0 2 0 4294967295 = Call.face 2 g numbers32.invalid_unsigned_int
              ((hanging 7 7).neighbor_or_periodic_neighbor 2 g)
              ((hanging 7 7).coarser_face_no 2 g).1 ((hanging 7 7).coarser_face_no 2 g).2 ∨
            Call.face 0 1 0 2 0 4294967295 =
              Call.face ((hanging 7 7).neighbor_or_periodic_neighbor 2 g)
                ((hanging 7 7).coarser_face_no 2 g).1 ((hanging 7 7).coarser_face_no 2 g).2
                2 g numbers32.invalid_unsigned_int))) :=
  face_call_arguments numbers32 (hanging 7 7) counting assemble_own_interior_faces_both 0 2
    0 0 (Call.face 0 1 0 2 0 4294967295) (by decide) rfl

/-- C27 (a refined neighbor that is not coarser). At an interior face whose neighbor is
not coarser and has children: under an active iterator the body of the face loop
completes with the state unchanged, so no callback is made, whatever the flags and the
ownership of the two cells; under a non-active iterator the children of the neighbor play
no part, the body does exactly what it does on the mesh in which no cell has children, the
face being handled as any other face whose neighbor is not coarser. -/
theorem refined_neighbor_skip (num : Numbers) (m : Mesh Cell) (w : Workers Cell S C)
    (flags : AssembleFlags) (cell : Cell) (f : Nat) (st : State Cell S C)
    (hint : m.boundary_face cell f = false) (hco : m.coarser cell f = false)
    (hch : m.has_children (m.neighbor_or_periodic_neighbor cell f) = true) :
    (m.is_active_iterator = true → face_body num m w flags cell f st = .ok st) ∧
      (m.is_active_iterator = false →
        face_body num m w flags cell f st =
          face_body num { m with has_children := fun _ => false } w flags cell f st) := by
  have hb : (m.at_boundary cell f && !m.has_periodic_neighbor cell f) = false := hint
  have hc : ((!m.has_periodic_neighbor cell f && m.neighbor_is_coarser cell f) ||
      (m.has_periodic_neighbor cell f && m.periodic_neighbor_is_coarser cell f)) = false := hco
  constructor
  · intro hact
    unfold face_body
    dsimp only
    rw [hb, hc]
    unfold same_level
    rw [hact, hch]
    simp only [Bool.false_eq_true, if_false, Bool.and_self, if_true, ite_self]
  · intro hact
    unfold face_body
    dsimp only
    rw [hb, hc]
    unfold same_level
    dsimp only
    rw [hact]
    rfl

/-- Witness for C27: face 1 of the coarse cell `0` of the unpartitioned refinement edge,
whose neighbor is the refined cell `1`, with `assemble_own_interior_faces_both` set. Under
the active iterator nothing is called; under the non-active iterator the face worker is
called once. -/
theorem refined_neighbor_skip_witness :
    face_body numbers32 (hanging 4294967295 7) counting assemble_own_interior_faces_both 0 1
        ⟨0, 0, []⟩ = .ok ⟨0, 0, []⟩ ∧
      face_body numbers32 (hanging_level 4294967295 7) counting
          assemble_own_interior_faces_both 0 1 ⟨0, 0, []⟩ =
        face_body numbers32
          { hanging_level 4294967295 7 with has_children := fun _ => false } counting
          assemble_own_interior_faces_both 0 1 ⟨0, 0, []⟩ ∧
      (face_body numbers32 (hanging_level 4294967295 7) counting
          assemble_own_interior_faces_both 0 1 ⟨0, 0, []⟩).state.trace =
        [Call.face 0 1 4294967295 1 0 4294967295] :=
  ⟨(refined_neighbor_skip numbers32 (hanging 4294967295 7) counting
      assemble_own_interior_faces_both 0 1 ⟨0, 0, []⟩ rfl rfl rfl).1 rfl,
    (refined_neighbor_skip numbers32 (hanging_level 4294967295 7) counting
      assemble_own_interior_faces_both 0 1 ⟨0, 0, []⟩ rfl rfl rfl).2 rfl,
    by decide⟩

/-! ### Absent workers and tripped assertions -/

theorem request_valid_spec (w : Workers Cell S C) (flags : AssembleFlags)
    (h : request_valid w flags = true) :
    (test flags work_on_cells = true → w.cell_worker.isSome = true) ∧
      (test flags work_on_faces = true → w.face_worker.isSome = true) ∧
      (test flags assemble_boundary_faces = true → w.boundary_worker.isSome = true) := by
  unfold request_valid at h
  simp only [Bool.and_eq_true] at h
  obtain ⟨⟨⟨⟨⟨h1, -⟩, -⟩, -⟩, h5⟩, h6⟩ := h
  refine ⟨?_, ?_, ?_⟩
  · intro ht
    rw [ht] at h1
    cases hw : w.cell_worker <;> simp_all
  · intro ht
    rw [ht] at h5
    cases hw : w.face_worker <;> simp_all
  · intro ht
    rw [ht] at h6
    cases hw : w.boundary_worker <;> simp_all

/-- The execution of calls whose workers are all supplied completes. -/
theorem exec_supplied (w : Workers Cell S C) (l : List (Call Cell)) (st : State Cell S C)
    (h : ∀ x ∈ l, Call.supplied w x = true) : ∃ st1, exec w l st = .ok st1 := by
  induction l generalizing st with
  | nil => exact ⟨st, rfl⟩
  | cons c cs ih =>
    have hc := h c (List.mem_cons_self c cs)
    rcases invoke_spec w c st with ⟨st1, h1, -, -⟩ | h1
    · obtain ⟨st2, h2⟩ := ih st1 (fun x hx => h x (List.mem_cons_of_mem c hx))
      exact ⟨st2, by simp only [exec, h1, h2]⟩
    · exfalso
      cases c with
      | cell a =>
        simp only [invoke, call_cell_worker] at h1
        simp only [Call.supplied] at hc
        cases hw : w.cell_worker <;> simp_all
      | boundary a f =>
        simp only [invoke, call_boundary_worker] at h1
        simp only [Call.supplied] at hc
        cases hw : w.boundary_worker <;> simp_all
      | face a f sf n nf nsf =>
        simp only [invoke, call_face_worker] at h1
        simp only [Call.supplied] at hc
        cases hw : w.face_worker <;> simp_all

/-- The cell call is decided on only under the guard of the two `cell_worker` calls. -/
theorem cell_plan_cell_guard (num : Numbers) (m : Mesh Cell) (flags : AssembleFlags)
    (cell c : Cell) (hx : Call.cell c ∈ (cell_plan num m flags cell).1) :
    cell_guard num m flags cell = true := by
  unfold cell_plan at hx
  by_cases hart : (!ignore_subdomain num m &&
      (current_subdomain_id m cell == num.artificial_subdomain_id)) = true
  · rw [if_pos hart] at hx
    simp at hx
  · rw [if_neg hart] at hx
    dsimp only at hx
    have hcell : ∀ b : Bool,
        Call.cell c ∈ (if (b && cell_guard num m flags cell) = true then [Call.cell cell]
          else []) → cell_guard num m flags cell = true := by
      intro b hb
      split_ifs at hb with hg
      · simp only [Bool.and_eq_true] at hg
        exact hg.2
      · simp at hb
    have hmid : Call.cell c ∉ (if test flags (work_on_faces ||| work_on_boundary) = true then
        loop_plan num m flags cell (List.range m.faces_per_cell) else ([], none)).1 := by
      intro hm
      split_ifs at hm
      · have := loop_plan_not_cell num m flags cell _ _ hm
        simp [Call.isCell] at this
      · simp at hm
    generalize (if test flags (work_on_faces ||| work_on_boundary) = true then
        loop_plan num m flags cell (List.range m.faces_per_cell) else ([], none)) = faces
      at hx hmid
    obtain ⟨l, fl⟩ := faces
    cases fl with
    | some e =>
      simp only [List.mem_append] at hx
      rcases hx with hx | hx
      · exact hcell _ hx
      · exact absurd hx hmid
    | none =>
      simp only [List.mem_append] at hx
      rcases hx with (hx | hx) | hx
      · exact hcell _ hx
      · exact absurd hx hmid
      · exact hcell _ hx

/-- Under a valid request every call a visit decides on has its worker supplied. -/
theorem cell_plan_supplied (num : Numbers) (m : Mesh Cell) (w : Workers Cell S C)
    (flags : AssembleFlags) (cell : Cell) (hv : request_valid w flags = true) :
    ∀ x ∈ (cell_plan num m flags cell).1, Call.supplied w x = true := by
  obtain ⟨vc, vf, vb⟩ := request_valid_spec w flags hv
  intro x hx
  cases x with
  | cell c =>
    have hg := cell_plan_cell_guard num m flags cell c hx
    apply vc
    unfold work_on_cells
    rw [test_or]
    unfold cell_guard at hg
    simp only [Bool.or_eq_true, Bool.and_eq_true] at hg ⊢
    rcases hg with hg | hg
    · exact Or.inl hg.1
    · exact Or.inr hg.1
  | boundary c g =>
    rcases cell_plan_mem num m flags cell _ hx with e | ⟨f, -, hf⟩
    · cases e
    · exact vb ((boundary_mem_face_calls num m flags cell f c g).mp hf).2.2.2.1
  | face c g sf n nf nsf =>
    rcases cell_plan_mem num m flags cell _ hx with e | ⟨f, -, hf⟩
    · cases e
    · obtain ⟨-, hp, -⟩ := face_mem_face_calls num m flags cell f _ hf rfl
      obtain ⟨h1, h2, h3⟩ := passes_filters_spec num m flags cell f hp
      apply vf
      unfold work_on_faces
      simp only [test_or, Bool.or_eq_true]
      have hown : ∀ p : test flags assemble_own_interior_faces_once = true ∨
          test flags assemble_own_interior_faces_both = true,
          ((test flags assemble_own_interior_faces_once = true ∨
            test flags assemble_own_interior_faces_both = true) ∨
            test flags assemble_ghost_faces_once = true) ∨
            test flags assemble_ghost_faces_both = true :=
        fun p => Or.inl (Or.inl p)
      have hghost : ∀ p : test flags assemble_ghost_faces_once = true ∨
          test flags assemble_ghost_faces_both = true,
          ((test flags assemble_own_interior_faces_once = true ∨
            test flags assemble_own_interior_faces_both = true) ∨
            test flags assemble_ghost_faces_once = true) ∨
            test flags assemble_ghost_faces_both = true :=
        fun p => p.elim (fun q => Or.inl (Or.inr q)) Or.inr
      by_cases hoc : own_cell num m cell = true
      · by_cases hon : own_neighbor num m (m.neighbor_or_periodic_neighbor cell f) = true
        · exact hown (h2 hoc hon)
        · exact hghost (h3 (by rw [hoc]; exact fun e => hon e.symm))
      · have hon : own_neighbor num m (m.neighbor_or_periodic_neighbor cell f) = true := by
          rcases h1 with h | h
          · exact absurd h hoc
          · exact h
        exact hghost (h3 (by rw [hon]; exact hoc))

/-- The only assertion the body of the face loop can trip is an internal-consistency
one. -/
theorem face_plan_error (num : Numbers) (m : Mesh Cell) (flags : AssembleFlags)
    (cell : Cell) (f : Nat) (e : Failure) (h : face_plan num m flags cell f = .error e) :
    e = Failure.ExcInternalError := by
  have hedge : ∀ n pn, refinement_edge_plan num m flags cell f n pn = .error e →
      e = Failure.ExcInternalError := by
    intro n pn h1
    unfold refinement_edge_plan at h1
    dsimp only at h1
    split_ifs at h1
    all_goals cases h1
    all_goals rfl
  have hlevel : ∀ n pn, same_level_plan num m flags cell f n pn = .error e →
      e = Failure.ExcInternalError := by
    intro n pn h1
    unfold same_level_plan at h1
    dsimp only at h1
    split_ifs at h1
    all_goals cases h1
    all_goals rfl
  unfold face_plan at h
  dsimp only at h
  split_ifs at h
  all_goals first
    | exact hedge _ _ h
    | exact hlevel _ _ h

theorem loop_plan_failure (num : Numbers) (m : Mesh Cell) (flags : AssembleFlags)
    (cell : Cell) (faces : List Nat) (e : Failure)
    (h : (loop_plan num m flags cell faces).2 = some e) : e = Failure.ExcInternalError := by
  induction faces with
  | nil => simp [loop_plan] at h
  | cons f fs ih =>
    unfold loop_plan at h
    cases hp : face_plan num m flags cell f with
    | error e1 =>
      rw [hp] at h
      simp only [Option.some.injEq] at h
      rw [← h]
      exact face_plan_error num m flags cell f e1 hp
    | ok l =>
      rw [hp] at h
      exact ih h

theorem cell_plan_failure (num : Numbers) (m : Mesh Cell) (flags : AssembleFlags)
    (cell : Cell) (e : Failure) (h : (cell_plan num m flags cell).2 = some e) :
    e = Failure.ExcInternalError := by
  unfold cell_plan at h
  by_cases hart : (!ignore_subdomain num m &&
      (current_subdomain_id m cell == num.artificial_subdomain_id)) = true
  · rw [if_pos hart] at h
    simp at h
  · rw [if_neg hart] at h
    dsimp only at h
    by_cases hw : test flags (work_on_faces ||| work_on_boundary) = true
    · simp only [hw, if_true] at h
      cases hl : (loop_plan num m flags cell (List.range m.faces_per_cell)).2 with
      | none => simp [hl] at h
      | some e1 =>
        simp only [hl, Option.some.injEq] at h
        rw [← h]
        exact loop_plan_failure num m flags cell _ e1 hl
    · simp [hw] at h

/-- Under a valid request a visit aborts only on the assertion its decisions trip, with all
decided calls made; otherwise it completes. -/
theorem cell_action_valid (num : Numbers) (m : Mesh Cell) (w : Workers Cell S C)
    (flags : AssembleFlags) (sample_copy_data : C) (cell : Cell) (scratch : S) (copy : C)
    (hv : request_valid w flags = true) :
    (cell_action num m w flags sample_copy_data cell scratch copy).failure =
      (cell_plan num m flags cell).2 := by
  rw [cell_action_eq_run]
  obtain ⟨st1, h1⟩ := exec_supplied w (cell_plan num m flags cell).1
    { scratch := scratch, copy := sample_copy_data, trace := [] }
    (cell_plan_supplied num m w flags cell hv)
  unfold run
  rw [h1]
  cases (cell_plan num m flags cell).2 <;> rfl

/-- C29 (no absent worker is called under a valid request). If the request satisfies the
six asserted conditions of `mesh_loop`, then on every mesh and for every cell the visit
does not abort on the call of an empty worker, and the worker of every call it makes, the
cell call, a boundary call, a face call or the swapped second face call at a refinement
edge, is supplied. -/
theorem no_absent_callable (num : Numbers) (m : Mesh Cell) (w : Workers Cell S C)
    (flags : AssembleFlags) (sample_copy_data : C) (cell : Cell) (scratch : S) (copy : C)
    (hv : request_valid w flags = true) :
    (cell_action num m w flags sample_copy_data cell scratch copy).failure ≠
        some Failure.bad_function_call ∧
      ∀ x ∈ (cell_action num m w flags sample_copy_data cell scratch copy).state.trace,
        Call.supplied w x = true := by
  constructor
  · rw [cell_action_valid num m w flags sample_copy_data cell scratch copy hv]
    intro h
    have := cell_plan_failure num m flags cell _ h
    cases this
  · intro x hx
    exact cell_plan_supplied num m w flags cell hv x
      (visit_trace_mem num m w flags sample_copy_data cell scratch copy x hx)

/-- Witness for C29: the visit of the fine cell of the refinement edge with cell, boundary
and both-sided own-face work requested and all three workers supplied. -/
theorem no_absent_callable_witness :
    (cell_action numbers32 (hanging 7 7) counting
        (assemble_own_cells ||| assemble_own_interior_faces_both ||| assemble_boundary_faces)
        0 2 0 0).failure ≠ some Failure.bad_function_call ∧
      ∀ x ∈ (cell_action numbers32 (hanging 7 7) counting
        (assemble_own_cells ||| assemble_own_interior_faces_both ||| assemble_boundary_faces)
        0 2 0 0).state.trace, Call.supplied counting x = true :=
  no_absent_callable numbers32 (hanging 7 7) counting
    (assemble_own_cells ||| assemble_own_interior_faces_both ||| assemble_boundary_faces)
    0 2 0 0 (by decide)

/-! ### How many calls a visit makes -/

theorem face_calls_length (num : Numbers) (m : Mesh Cell) (flags : AssembleFlags)
    (cell : Cell) (f : Nat) : (face_calls num m flags cell f).length ≤ 2 := by
  rcases face_calls_cases num m flags cell f with e | ⟨e, -⟩ |
      ⟨-, -, -, -, -, -, ⟨e, -⟩ | ⟨e, -⟩⟩ | ⟨-, -, -, e, -⟩
  all_goals rw [e]
  all_goals simp

theorem loop_plan_length (num : Numbers) (m : Mesh Cell) (flags : AssembleFlags)
    (cell : Cell) (faces : List Nat) :
    (loop_plan num m flags cell faces).1.length ≤ 2 * faces.length := by
  obtain ⟨done, rest, hsplit, hcalls, -, -⟩ := loop_plan_split num m flags cell faces
  rw [hcalls, hsplit, List.length_append]
  have h : ∀ l : List Nat, (l.flatMap (face_calls num m flags cell)).length ≤ 2 * l.length := by
    intro l
    induction l with
    | nil => simp
    | cons a as ih =>
      have := face_calls_length num m flags cell a
      simp only [List.flatMap_cons, List.length_append, List.length_cons]
      omega
  have := h done
  omega

/-- A visit decides on at most one cell call and at most two other calls per face. -/
theorem cell_plan_counts (num : Numbers) (m : Mesh Cell) (flags : AssembleFlags)
    (cell : Cell) :
    ((cell_plan num m flags cell).1.filter Call.isCell).length ≤ 1 ∧
      ((cell_plan num m flags cell).1.filter (fun x => !Call.isCell x)).length ≤
        2 * m.faces_per_cell := by
  constructor
  · obtain ⟨mid, a, b, hmid, hplan, ha, hb⟩ := cell_plan_shape num m flags cell
    have hm : mid.filter Call.isCell = [] := by
      rw [List.filter_eq_nil_iff]
      intro c hc
      rw [hmid c hc]
      exact Bool.false_ne_true
    rw [hplan, List.filter_append, List.filter_append, hm]
    cases a with
    | false => cases b <;> simp [Call.isCell]
    | true =>
      cases b with
      | false => simp [Call.isCell]
      | true =>
        have h1 := ha rfl
        rw [hb rfl] at h1
        exact Bool.noConfusion h1
  · unfold cell_plan
    by_cases hart : (!ignore_subdomain num m &&
        (current_subdomain_id m cell == num.artificial_subdomain_id)) = true
    · rw [if_pos hart]
      simp
    · rw [if_neg hart]
      dsimp only
      have hcell : ∀ b : Bool,
          (if b = true then [Call.cell cell] else []).filter (fun x => !Call.isCell x) = [] := by
        intro b
        cases b <;> simp [Call.isCell]
      have hmid : (if test flags (work_on_faces ||| work_on_boundary) = true then
          loop_plan num m flags cell (List.range m.faces_per_cell) else ([], none)).1.length ≤
          2 * m.faces_per_cell := by
        split_ifs
        · have := loop_plan_length num m flags cell (List.range m.faces_per_cell)
          simpa using this
        · simp
      generalize (if test flags (work_on_faces ||| work_on_boundary) = true then
          loop_plan num m flags cell (List.range m.faces_per_cell) else ([], none)) = faces
        at hmid ⊢
      obtain ⟨l, fl⟩ := faces
      cases fl with
      | some e =>
        simp only [List.filter_append, hcell, List.nil_append]
        exact le_trans (List.length_filter_le _ _) hmid
      | none =>
        simp only [List.filter_append, hcell, List.nil_append, List.append_nil]
        exact le_trans (List.length_filter_le _ _) hmid

/-- C30 (how many callbacks a face and a visit get). For every cell, every local face
index `f` and every state, the calls the body of the face loop adds to the record at `f`
are: none or one boundary call and no face call; or face calls only, at most two, and two
only at an interior face whose neighbor is coarser with
`assemble_own_interior_faces_both` set. A visit, completed or aborted, records at most one
cell call and at most `2 * faces_per_cell` face and boundary calls. -/
theorem callbacks_per_face (num : Numbers) (m : Mesh Cell) (w : Workers Cell S C)
    (flags : AssembleFlags) (sample_copy_data : C) (cell : Cell) (scratch : S) (copy : C) :
    (∀ (f : Nat) (st : State Cell S C), ∃ l,
        (face_body num m w flags cell f st).state.trace = st.trace ++ l ∧
        ((l = [] ∨ l = [Call.boundary cell f]) ∨
          ((∀ x ∈ l, Call.isFace x = true) ∧ l.length ≤ 2 ∧
            (l.length = 2 → m.boundary_face cell f = false ∧ m.coarser cell f = true ∧
              test flags assemble_own_interior_faces_both = true)))) ∧
      ((cell_action num m w flags sample_copy_data cell scratch copy).state.trace.filter
          Call.isCell).length ≤ 1 ∧
      ((cell_action num m w flags sample_copy_data cell scratch copy).state.trace.filter
          (fun x => !Call.isCell x)).length ≤ 2 * m.faces_per_cell := by
  refine ⟨?_, ?_⟩
  · intro f st
    obtain ⟨l1, l2, hl, htr⟩ := face_body_trace num m w flags cell f st
    refine ⟨l1, htr, ?_⟩
    have hlen : l1.length ≤ (face_calls num m flags cell f).length := by
      rw [hl, List.length_append]
      omega
    have hmem : ∀ x ∈ l1, x ∈ face_calls num m flags cell f := by
      intro x hx
      rw [hl]
      exact List.mem_append_left _ hx
    rcases face_calls_cases num m flags cell f with e | ⟨e, -⟩ |
        ⟨hb, -, hc, -, -, -, ⟨e, -⟩ | ⟨e, hboth⟩⟩ | ⟨-, -, -, e, -⟩
    · rw [e] at hlen
      exact Or.inl (Or.inl (List.length_eq_zero.mp (Nat.le_zero.mp hlen)))
    · rw [e] at hl
      cases l1 with
      | nil => exact Or.inl (Or.inl rfl)
      | cons x xs =>
        simp only [List.cons_append, List.cons.injEq] at hl
        obtain ⟨hx, hxs⟩ := hl
        have hnil := (List.append_eq_nil.mp hxs.symm).1
        rw [← hx, hnil]
        exact Or.inl (Or.inr rfl)
    · rw [e] at hlen hmem
      refine Or.inr ⟨?_, by simp only [List.length_singleton] at hlen; omega, ?_⟩
      · intro x hx
        have := hmem x hx
        simp only [List.mem_singleton] at this
        rw [this]
        rfl
      · intro h2
        simp only [List.length_singleton] at hlen
        omega
    · rw [e] at hlen hmem
      refine Or.inr ⟨?_, hlen, fun _ => ⟨hb, hc, hboth⟩⟩
      intro x hx
      have := hmem x hx
      simp only [List.mem_cons, List.mem_singleton, List.not_mem_nil, or_false] at this
      rcases this with h | h <;> rw [h] <;> rfl
    · rw [e] at hlen hmem
      refine Or.inr ⟨?_, by simp only [List.length_singleton] at hlen; omega, ?_⟩
      · intro x hx
        have := hmem x hx
        simp only [List.mem_singleton] at this
        rw [this]
        rfl
      · intro h2
        simp only [List.length_singleton] at hlen
        omega
  · rw [cell_action_eq_run]
    obtain ⟨l1, l2, hl, htr, -, -⟩ := run_spec w (cell_plan num m flags cell)
      { scratch := scratch, copy := sample_copy_data, trace := [] }
    simp only [List.nil_append] at htr
    rw [htr]
    obtain ⟨h1, h2⟩ := cell_plan_counts num m flags cell
    rw [hl, List.filter_append, List.length_append] at h1 h2
    exact ⟨by omega, by omega⟩

/-! ### The assertions on the topology -/

theorem same_level_plan_same_face (num : Numbers) (m : Mesh Cell) (flags : AssembleFlags)
    (cell : Cell) (f : Nat) (n : Cell) (pn : Bool) (l : List (Call Cell))
    (h : same_level_plan num m flags cell f n pn = .ok l) (hne : l ≠ []) :
    m.level cell = m.level n ∧
      (pn || m.same_face cell f n
        (if pn then m.periodic_neighbor_face_no cell f else m.neighbor_face_no cell f))
        = true := by
  unfold same_level_plan at h
  dsimp only at h
  split_ifs at h
  all_goals cases h
  all_goals simp_all

/-- A call is decided on at an interior face whose neighbor is not coarser only if the
neighbor is on the level of the cell and, the face not being periodic, the resolved
neighbor face is the queried face. -/
theorem face_plan_same_face (num : Numbers) (m : Mesh Cell) (flags : AssembleFlags)
    (cell : Cell) (f : Nat) (l : List (Call Cell))
    (hint : m.boundary_face cell f = false) (hco : m.coarser cell f = false)
    (h : face_plan num m flags cell f = .ok l) (hne : l ≠ []) :
    m.level cell = m.level (m.neighbor_or_periodic_neighbor cell f) ∧
      (m.has_periodic_neighbor cell f ||
        m.same_face cell f (m.neighbor_or_periodic_neighbor cell f)
          (if m.has_periodic_neighbor cell f then m.periodic_neighbor_face_no cell f
           else m.neighbor_face_no cell f)) = true := by
  have hb : (m.at_boundary cell f && !m.has_periodic_neighbor cell f) = false := hint
  have hc : ((!m.has_periodic_neighbor cell f && m.neighbor_is_coarser cell f) ||
      (m.has_periodic_neighbor cell f && m.periodic_neighbor_is_coarser cell f)) = false := hco
  unfold face_plan at h
  dsimp only at h
  rw [hb, hc] at h
  simp only [Bool.false_eq_true, if_false] at h
  by_cases h1 : (!own_cell num m cell &&
      !own_neighbor num m (m.neighbor_or_periodic_neighbor cell f)) = true
  · rw [if_pos h1] at h
    cases h
    exact absurd rfl hne
  · rw [if_neg h1] at h
    by_cases h2 : (own_cell num m cell &&
        own_neighbor num m (m.neighbor_or_periodic_neighbor cell f) &&
        !test flags (assemble_own_interior_faces_both ||| assemble_own_interior_faces_once))
        = true
    · rw [if_pos h2] at h
      cases h
      exact absurd rfl hne
    · rw [if_neg h2] at h
      by_cases h3 : ((own_cell num m cell !=
          own_neighbor num m (m.neighbor_or_periodic_neighbor cell f)) &&
          !test flags (assemble_ghost_faces_both ||| assemble_ghost_faces_once)) = true
      · rw [if_pos h3] at h
        cases h
        exact absurd rfl hne
      · rw [if_neg h3] at h
        exact same_level_plan_same_face num m flags cell f _ _ l h hne

/-- Where the assertions are reached: an interior face that passes the filters and at
which the topology is inconsistent trips an internal-consistency assertion. -/
theorem face_plan_trips (num : Numbers) (m : Mesh Cell) (flags : AssembleFlags)
    (cell : Cell) (f : Nat)
    (hint : m.boundary_face cell f = false)
    (hviol : (m.coarser cell f = true ∧ (m.has_children cell = true ∨
          m.has_children (m.neighbor_or_periodic_neighbor cell f) = true)) ∨
        (m.coarser cell f = false ∧
          (m.level cell ≠ m.level (m.neighbor_or_periodic_neighbor cell f) ∨
            (m.has_periodic_neighbor cell f = false ∧
              m.same_face cell f (m.neighbor_or_periodic_neighbor cell f)
                (m.neighbor_face_no cell f) = false))))
    (hpass : passes_filters num m flags cell f = true)
    (hreach : m.coarser cell f = false →
      (m.is_active_iterator && m.has_children (m.neighbor_or_periodic_neighbor cell f))
          = false ∧
        (m.level cell = m.level (m.neighbor_or_periodic_neighbor cell f) →
          passes_once_rules num m flags cell f = true)) :
    face_plan num m flags cell f = .error Failure.ExcInternalError := by
  have hb : (m.at_boundary cell f && !m.has_periodic_neighbor cell f) = false := hint
  unfold passes_filters at hpass
  simp only [Bool.and_eq_true, Bool.not_eq_true'] at hpass
  obtain ⟨⟨h1, h2⟩, h3⟩ := hpass
  unfold face_plan
  dsimp only
  rw [hb, h1, h2, h3]
  simp only [Bool.false_eq_true, if_false]
  rcases hviol with ⟨hco, hch⟩ | ⟨hco, hbad⟩
  · have hc : ((!m.has_periodic_neighbor cell f && m.neighbor_is_coarser cell f) ||
        (m.has_periodic_neighbor cell f && m.periodic_neighbor_is_coarser cell f)) = true := hco
    rw [hc]
    simp only [if_true]
    unfold refinement_edge_plan
    rcases hch with hch | hch
    · rw [hch]
      rfl
    · rw [hch]
      cases m.has_children cell <;> rfl
  · have hc : ((!m.has_periodic_neighbor cell f && m.neighbor_is_coarser cell f) ||
        (m.has_periodic_neighbor cell f && m.periodic_neighbor_is_coarser cell f)) = false := hco
    obtain ⟨hskip, honce⟩ := hreach hco
    rw [hc]
    simp only [Bool.false_eq_true, if_false]
    unfold same_level_plan
    dsimp only
    rw [hskip]
    simp only [Bool.false_eq_true, if_false]
    by_cases hlev : m.level cell = m.level (m.neighbor_or_periodic_neighbor cell f)
    · have ho := honce hlev
      unfold passes_once_rules at ho
      simp only [Bool.and_eq_true, Bool.not_eq_true'] at ho
      obtain ⟨⟨o1, o2⟩, o3⟩ := ho
      rcases hbad with hbad | ⟨hper, hsame⟩
      · exact absurd hlev hbad
      · have hl : (m.level cell != m.level (m.neighbor_or_periodic_neighbor cell f)) = false := by
          rw [hlev]
          simp
        rw [hl, o1, o2, o3, hper]
        simp only [Bool.false_eq_true, if_false, Bool.false_or, hsame, Bool.not_false, if_true]
    · have hl : (m.level cell != m.level (m.neighbor_or_periodic_neighbor cell f)) = true := by
        simpa using hlev
      rw [hl]
      rfl

theorem passes_filters_work_on_faces (num : Numbers) (m : Mesh Cell) (flags : AssembleFlags)
    (cell : Cell) (f : Nat) (hp : passes_filters num m flags cell f = true) :
    test flags work_on_faces = true := by
  obtain ⟨h1, h2, h3⟩ := passes_filters_spec num m flags cell f hp
  unfold work_on_faces
  simp only [test_or, Bool.or_eq_true]
  have hown : ∀ p : test flags assemble_own_interior_faces_once = true ∨
      test flags assemble_own_interior_faces_both = true,
      ((test flags assemble_own_interior_faces_once = true ∨
        test flags assemble_own_interior_faces_both = true) ∨
        test flags assemble_ghost_faces_once = true) ∨
        test flags assemble_ghost_faces_both = true :=
    fun p => Or.inl (Or.inl p)
  have hghost : ∀ p : test flags assemble_ghost_faces_once = true ∨
      test flags assemble_ghost_faces_both = true,
      ((test flags assemble_own_interior_faces_once = true ∨
        test flags assemble_own_interior_faces_both = true) ∨
        test flags assemble_ghost_faces_once = true) ∨
        test flags assemble_ghost_faces_both = true :=
    fun p => p.elim (fun q => Or.inl (Or.inr q)) Or.inr
  by_cases hoc : own_cell num m cell = true
  · by_cases hon : own_neighbor num m (m.neighbor_or_periodic_neighbor cell f) = true
    · exact hown (h2 hoc hon)
    · exact hghost (h3 (by rw [hoc]; exact fun e => hon e.symm))
  · have hon : own_neighbor num m (m.neighbor_or_periodic_neighbor cell f) = true := by
      rcases h1 with h | h
      · exact absurd h hoc
      · exact h
    exact hghost (h3 (by rw [hon]; exact hoc))

/-- A tripped assertion at one of the local faces is a tripped assertion of the visit. -/
theorem cell_plan_trips (num : Numbers) (m : Mesh Cell) (flags : AssembleFlags)
    (cell : Cell) (f : Nat) (e : Failure)
    (hart : is_artificial num m cell = false)
    (hw : test flags (work_on_faces ||| work_on_boundary) = true)
    (hf : f < m.faces_per_cell) (hp : face_plan num m flags cell f = .error e) :
    (cell_plan num m flags cell).2 = some Failure.ExcInternalError := by
  cases h : (cell_plan num m flags cell).2 with
  | none =>
    obtain ⟨l, hl⟩ := (cell_plan_none num m flags cell hart h).2 hw f hf
    rw [hp] at hl
    cases hl
  | some e1 => rw [cell_plan_failure num m flags cell e1 h]

/-- C28, refuted as stated: in `broken_edge 7 7` the neighbor across the interior face 0
of cell `2` is reported coarser and cell `2` has children, yet with cell, boundary and
once-only ghost-face work requested the visit of cell `2` completes: the face lies between
two owned cells and is skipped before the assertion is reached. -/
theorem topology_assertions_counterexample :
    request_valid counting
        (assemble_own_cells ||| assemble_boundary_faces ||| assemble_ghost_faces_once) = true ∧
      (broken_edge 7 7).boundary_face 2 0 = false ∧ (broken_edge 7 7).coarser 2 0 = true ∧
      (broken_edge 7 7).has_children 2 = true ∧
      (cell_action numbers32 (broken_edge 7 7) counting
        (assemble_own_cells ||| assemble_boundary_faces ||| assemble_ghost_faces_once)
        0 2 0 0).failure = none ∧
      (cell_action numbers32 (broken_edge 7 7) counting
        (assemble_own_cells ||| assemble_boundary_faces ||| assemble_ghost_faces_once)
        0 2 0 0).state.trace = [Call.cell 2, Call.boundary 2 1] := by
  decide

/-- C28 as amended (assertions on the topology). Take an interior face at which the
topology is inconsistent: the neighbor is reported coarser and the visited cell or the
neighbor has children; or the neighbor is not coarser and is on a different level, or the
face is not periodic and the resolved neighbor face is not the queried face. Then the body
of the face loop never makes a call for that face. If moreover the face gets past the three
ownership and flag skips and, the neighbor not being coarser, is not skipped for a refined
neighbor under an active iterator and, the levels being equal, gets past the three "once"
and ownership skips, then the body fails with the internal-consistency error, no call
made; and under a valid request the visit of a cell that is not artificial fails with that
error. -/
theorem topology_assertions (num : Numbers) (m : Mesh Cell) (w : Workers Cell S C)
    (flags : AssembleFlags) (sample_copy_data : C) (cell : Cell) (scratch : S) (copy : C)
    (f : Nat)
    (hint : m.boundary_face cell f = false)
    (hviol : (m.coarser cell f = true ∧ (m.has_children cell = true ∨
          m.has_children (m.neighbor_or_periodic_neighbor cell f) = true)) ∨
        (m.coarser cell f = false ∧
          (m.level cell ≠ m.level (m.neighbor_or_periodic_neighbor cell f) ∨
            (m.has_periodic_neighbor cell f = false ∧
              m.same_face cell f (m.neighbor_or_periodic_neighbor cell f)
                (m.neighbor_face_no cell f) = false)))) :
    (∀ st : State Cell S C, (face_body num m w flags cell f st).state = st) ∧
      (passes_filters num m flags cell f = true →
        (m.coarser cell f = false →
          (m.is_active_iterator && m.has_children (m.neighbor_or_periodic_neighbor cell f))
              = false ∧
            (m.level cell = m.level (m.neighbor_or_periodic_neighbor cell f) →
              passes_once_rules num m flags cell f = true)) →
        (∀ st : State Cell S C,
          face_body num m w flags cell f st = .error (Failure.ExcInternalError, st)) ∧
        (request_valid w flags = true → is_artificial num m cell = false →
          f < m.faces_per_cell →
          (cell_action num m w flags sample_copy_data cell scratch copy).failure =
            some Failure.ExcInternalError)) := by
  constructor
  · intro st
    rw [face_body_eq]
    cases hp : face_plan num m flags cell f with
    | error e => rfl
    | ok l =>
      have hnil : l = [] := by
        by_contra hne
        rcases face_plan_cases num m flags cell f l hp with e | ⟨-, hb, -⟩ |
            ⟨-, -, hc, c1, c2, -⟩ | ⟨-, -, hc, -⟩
        · exact hne e
        · rw [hint] at hb
          exact Bool.noConfusion hb
        · rcases hviol with ⟨-, h | h⟩ | ⟨h, -⟩
          · rw [c1] at h
            exact Bool.noConfusion h
          · rw [c2] at h
            exact Bool.noConfusion h
          · rw [hc] at h
            exact Bool.noConfusion h
        · obtain ⟨hlev, hsame⟩ := face_plan_same_face num m flags cell f l hint hc hp hne
          rcases hviol with ⟨h, -⟩ | ⟨-, h | ⟨hper, hs⟩⟩
          · rw [hc] at h
            exact Bool.noConfusion h
          · exact h hlev
          · rw [hper] at hsame
            simp only [Bool.false_or, Bool.false_eq_true, if_false] at hsame
            rw [hs] at hsame
            exact Bool.noConfusion hsame
      subst hnil
      rfl
  · intro hpass hreach
    have hp := face_plan_trips num m flags cell f hint hviol hpass hreach
    constructor
    · intro st
      rw [face_body_eq, hp]
    · intro hv hart hf
      rw [cell_action_valid num m w flags sample_copy_data cell scratch copy hv]
      apply cell_plan_trips num m flags cell f _ hart _ hf hp
      rw [test_or, passes_filters_work_on_faces num m flags cell f hpass]
      rfl

/-- Witness for C28: the same face of `broken_edge 7 7` with both-sided own-face work
requested passes the skips, and the visit of cell `2` fails. -/
theorem topology_assertions_witness :
    (cell_action numbers32 (broken_edge 7 7) counting
        (assemble_own_cells ||| assemble_own_interior_faces_both ||| assemble_boundary_faces)
        0 2 0 0).failure = some Failure.ExcInternalError :=
  ((topology_assertions numbers32 (broken_edge 7 7) counting
      (assemble_own_cells ||| assemble_own_interior_faces_both ||| assemble_boundary_faces)
      0 2 0 0 0 rfl (Or.inl ⟨rfl, Or.inl rfl⟩)).2 (by decide)
      (fun h => absurd h (by decide))).2 (by decide) (by decide) (by decide)

/-! ### The order of the faces -/

theorem filter_not_cell_self (l : List (Call Cell)) (h : ∀ c ∈ l, Call.isCell c = false) :
    l.filter (fun x => !Call.isCell x) = l := by
  rw [List.filter_eq_self]
  intro c hc
  rw [h c hc]
  rfl

/-- The face and boundary calls a visit decides on are an initial part of the calls
decided on at the faces `0, 1, ..., faces_per_cell - 1`, taken in this order. -/
theorem cell_plan_faces (num : Numbers) (m : Mesh Cell) (flags : AssembleFlags)
    (cell : Cell) :
    ∃ l3, (List.range m.faces_per_cell).flatMap (face_calls num m flags cell) =
      (cell_plan num m flags cell).1.filter (fun x => !Call.isCell x) ++ l3 := by
  unfold cell_plan
  by_cases hart : (!ignore_subdomain num m &&
      (current_subdomain_id m cell == num.artificial_subdomain_id)) = true
  · rw [if_pos hart]
    exact ⟨(List.range m.faces_per_cell).flatMap (face_calls num m flags cell), by simp⟩
  · rw [if_neg hart]
    dsimp only
    have hcell : ∀ b : Bool,
        (if b = true then [Call.cell cell] else []).filter (fun x => !Call.isCell x) = [] := by
      intro b
      cases b <;> simp [Call.isCell]
    have hmid : ∃ l3, (List.range m.faces_per_cell).flatMap (face_calls num m flags cell) =
        (if test flags (work_on_faces ||| work_on_boundary) = true then
          loop_plan num m flags cell (List.range m.faces_per_cell)
          else ([], none)).1.filter (fun x => !Call.isCell x) ++ l3 := by
      split_ifs
      · obtain ⟨done, rest, hsplit, hcalls, -, -⟩ :=
          loop_plan_split num m flags cell (List.range m.faces_per_cell)
        refine ⟨rest.flatMap (face_calls num m flags cell), ?_⟩
        rw [filter_not_cell_self _ (loop_plan_not_cell num m flags cell _), hcalls, hsplit,
          List.flatMap_append]
      · exact ⟨(List.range m.faces_per_cell).flatMap (face_calls num m flags cell), by simp⟩
    generalize (if test flags (work_on_faces ||| work_on_boundary) = true then
        loop_plan num m flags cell (List.range m.faces_per_cell) else ([], none)) = faces
      at hmid ⊢
    obtain ⟨l, fl⟩ := faces
    obtain ⟨l3, h3⟩ := hmid
    cases fl with
    | some e =>
      refine ⟨l3, ?_⟩
      simp only [List.filter_append, hcell, List.nil_append]
      exact h3
    | none =>
      refine ⟨l3, ?_⟩
      simp only [List.filter_append, hcell, List.nil_append, List.append_nil]
      exact h3

/-- C31 (faces in increasing order). The face and boundary calls recorded by a visit,
completed or aborted, are an initial part of the concatenation, over the local face
indices `0, 1, ..., faces_per_cell - 1` in this order, each taken once, of the calls
decided on at that face; a completed visit of a cell that is not artificial, with face or
boundary work requested, records the whole concatenation. The calls decided on at face `f`
are the boundary call at `f` or face calls whose visited-cell face number is `f`. -/
theorem faces_in_increasing_order (num : Numbers) (m : Mesh Cell) (w : Workers Cell S C)
    (flags : AssembleFlags) (sample_copy_data : C) (cell : Cell) (scratch : S) (copy : C) :
    (∃ l2, (List.range m.faces_per_cell).flatMap (face_calls num m flags cell) =
        (cell_action num m w flags sample_copy_data cell scratch copy).state.trace.filter
          (fun x => !Call.isCell x) ++ l2) ∧
      (∀ r, cell_action num m w flags sample_copy_data cell scratch copy = .ok r →
        is_artificial num m cell = false →
        test flags (work_on_faces ||| work_on_boundary) = true →
        r.trace.filter (fun x => !Call.isCell x) =
          (List.range m.faces_per_cell).flatMap (face_calls num m flags cell)) ∧
      (∀ f x, x ∈ face_calls num m flags cell f →
        x = Call.boundary cell f ∨ x = level_call num m cell f ∨
          x = edge_call num m cell f ∨ x = edge_call_swapped num m cell f) := by
  refine ⟨?_, ?_, ?_⟩
  · obtain ⟨l3, h3⟩ := cell_plan_faces num m flags cell
    rw [cell_action_eq_run]
    obtain ⟨l1, l2, hl, htr, -, -⟩ := run_spec w (cell_plan num m flags cell)
      { scratch := scratch, copy := sample_copy_data, trace := [] }
    simp only [List.nil_append] at htr
    rw [htr, h3, hl, List.filter_append, List.append_assoc]
    exact ⟨_, rfl⟩
  · intro r hr hart hw
    obtain ⟨htr, hnone⟩ := cell_action_ok num m w flags sample_copy_data cell scratch copy r hr
    obtain ⟨hplan, -⟩ := cell_plan_none num m flags cell hart hnone
    rw [htr, hplan, if_pos hw]
    have hcell : ∀ b : Bool,
        (if b = true then [Call.cell cell] else []).filter (fun x => !Call.isCell x) = [] := by
      intro b
      cases b <;> simp [Call.isCell]
    simp only [List.filter_append, hcell, List.nil_append, List.append_nil]
    apply filter_not_cell_self
    intro c hc
    obtain ⟨f, -, hf⟩ := List.mem_flatMap.mp hc
    exact face_calls_not_cell num m flags cell f c hf
  · intro f x hx
    rcases face_calls_cases num m flags cell f with e | ⟨e, -⟩ |
        ⟨-, -, -, -, -, -, ⟨e, -⟩ | ⟨e, -⟩⟩ | ⟨-, -, -, e, -⟩
    all_goals rw [e] at hx
    all_goals simp only [List.mem_cons, List.mem_singleton, List.not_mem_nil, or_false] at hx
    · exact Or.inl hx
    · exact Or.inr (Or.inr (Or.inl hx))
    · rcases hx with hx | hx
      · exact Or.inr (Or.inr (Or.inl hx))
      · exact Or.inr (Or.inr (Or.inr hx))
    · exact Or.inr (Or.inl hx)

/-- Witness for C31: the completed visit of the fine cell of `hanging 7 7` with boundary
and both-sided own-face work requested records the two calls of face 0, then the
boundary call of face 1. -/
theorem faces_in_increasing_order_witness :
    [Call.face 2 0 4294967295 0 1 0, Call.face 0 1 0 2 0 4294967295, Call.boundary 2 1] =
      (List.range (hanging 7 7).faces_per_cell).flatMap (face_calls numbers32 (hanging 7 7)
        (assemble_own_interior_faces_both ||| assemble_boundary_faces) 2) :=
  (faces_in_increasing_order numbers32 (hanging 7 7) counting
    (assemble_own_interior_faces_both ||| assemble_boundary_faces) 0 2 0 0).2.1
    ⟨3, 210,
      [Call.face 2 0 4294967295 0 1 0, Call.face 0 1 0 2 0 4294967295, Call.boundary 2 1]⟩
    rfl rfl rfl

/-! ### The swapped call at a refinement edge -/

/-- The calls decided on at a consistent refinement edge that is not skipped. -/
theorem face_plan_edge (num : Numbers) (m : Mesh Cell) (flags : AssembleFlags)
    (cell : Cell) (f : Nat)
    (hint : m.boundary_face cell f = false)
    (hpass : passes_filters num m flags cell f = true)
    (hco : m.coarser cell f = true)
    (hc1 : m.has_children cell = false)
    (hc2 : m.has_children (m.neighbor_or_periodic_neighbor cell f) = false)
    (hskip : (!own_cell num m cell && test flags assemble_ghost_faces_once) = false) :
    face_plan num m flags cell f =
      .ok (edge_call num m cell f ::
        (if test flags assemble_own_interior_faces_both then [edge_call_swapped num m cell f]
         else [])) := by
  have hb : (m.at_boundary cell f && !m.has_periodic_neighbor cell f) = false := hint
  have hc : ((!m.has_periodic_neighbor cell f && m.neighbor_is_coarser cell f) ||
      (m.has_periodic_neighbor cell f && m.periodic_neighbor_is_coarser cell f)) = true := hco
  unfold passes_filters at hpass
  simp only [Bool.and_eq_true, Bool.not_eq_true'] at hpass
  obtain ⟨⟨h1, h2⟩, h3⟩ := hpass
  unfold face_plan
  dsimp only
  rw [hb, h1, h2, h3, hc]
  simp only [Bool.false_eq_true, if_false, if_true]
  unfold refinement_edge_plan
  dsimp only
  rw [hc1, hc2, hskip]
  simp only [Bool.false_eq_true, if_false]
  unfold edge_call edge_call_swapped Mesh.coarser_face_no
  cases test flags assemble_own_interior_faces_both <;> rfl

/-- C32 (the swapped call depends on the flag alone). At an interior face with a coarser
neighbor and no children on either side, with the face worker supplied: if the face gets
past the three ownership and flag skips and the skip of a fine cell that is not owned
under `assemble_ghost_faces_once`, the body of the face loop completes having called the
face worker for `(cell, face_no, none, neighbor, nf, nsf)` and then, exactly when
`assemble_own_interior_faces_both` is set, for the swapped arguments, whether or not the
neighbor is owned. In particular, for an owned fine cell with a neighbor that is not
owned and flags containing `assemble_own_interior_faces_both` and a ghost-face flag, the
face worker is called twice. -/
theorem swapped_call_by_flag_alone (num : Numbers) (m : Mesh Cell) (w : Workers Cell S C)
    (flags : AssembleFlags) (cell : Cell) (f : Nat) (st : State Cell S C)
    (hw : w.face_worker.isSome = true)
    (hint : m.boundary_face cell f = false)
    (hco : m.coarser cell f = true)
    (hc1 : m.has_children cell = false)
    (hc2 : m.has_children (m.neighbor_or_periodic_neighbor cell f) = false) :
    (passes_filters num m flags cell f = true →
      (!own_cell num m cell && test flags assemble_ghost_faces_once) = false →
      (face_body num m w flags cell f st).failure = none ∧
        (face_body num m w flags cell f st).state.trace =
          st.trace ++ (edge_call num m cell f ::
            (if test flags assemble_own_interior_faces_both then
               [edge_call_swapped num m cell f]
             else []))) ∧
    (own_cell num m cell = true →
      own_neighbor num m (m.neighbor_or_periodic_neighbor cell f) = false →
      test flags assemble_own_interior_faces_both = true →
      (test flags assemble_ghost_faces_once = true ∨
        test flags assemble_ghost_faces_both = true) →
      (face_body num m w flags cell f st).failure = none ∧
        (face_body num m w flags cell f st).state.trace =
          st.trace ++ [edge_call num m cell f, edge_call_swapped num m cell f]) := by
  have key : passes_filters num m flags cell f = true →
      (!own_cell num m cell && test flags assemble_ghost_faces_once) = false →
      (face_body num m w flags cell f st).failure = none ∧
        (face_body num m w flags cell f st).state.trace =
          st.trace ++ (edge_call num m cell f ::
            (if test flags assemble_own_interior_faces_both then
               [edge_call_swapped num m cell f]
             else [])) := by
    intro hpass hskip
    have hp := face_plan_edge num m flags cell f hint hpass hco hc1 hc2 hskip
    rw [face_body_eq, hp]
    dsimp only
    have hsup : ∀ x ∈ (edge_call num m cell f ::
        (if test flags assemble_own_interior_faces_both then [edge_call_swapped num m cell f]
         else [])), Call.supplied w x = true := by
      intro x hx
      rcases List.mem_cons.mp hx with h | h
      · rw [h]
        exact hw
      · split_ifs at h
        · rw [List.mem_singleton.mp h]
          exact hw
        · exact absurd h (List.not_mem_nil x)
    obtain ⟨st1, h1⟩ := exec_supplied w _ st hsup
    obtain ⟨l1, l2, hl, htr, -, hfail⟩ := exec_spec w (edge_call num m cell f ::
        (if test flags assemble_own_interior_faces_both then [edge_call_swapped num m cell f]
         else [])) st
    rw [h1] at htr hfail ⊢
    have h2 := hfail rfl
    subst h2
    rw [List.append_nil] at hl
    exact ⟨rfl, by rw [htr, ← hl]⟩
  refine ⟨key, ?_⟩
  intro hown hnb hboth hghost
  have hpass : passes_filters num m flags cell f = true := by
    unfold passes_filters
    rw [hown, hnb]
    simp only [test_or]
    rcases hghost with h | h <;> simp [h]
  have hskip : (!own_cell num m cell && test flags assemble_ghost_faces_once) = false := by
    rw [hown]
    rfl
  have := key hpass hskip
  rw [hboth] at this
  exact this

/-- Witness for C32: participant 7 visits its fine cell `2` of `hanging 7 3`, whose coarser
neighbor `0` belongs to participant 3, with `assemble_ghost_faces_once` and
`assemble_own_interior_faces_both` set. -/
theorem swapped_call_by_flag_alone_witness :
    (face_body numbers32 (hanging 7 3) counting
        (assemble_ghost_faces_once ||| assemble_own_interior_faces_both) 2 0
        ⟨0, 0, []⟩).failure = none ∧
      (face_body numbers32 (hanging 7 3) counting
        (assemble_ghost_faces_once ||| assemble_own_interior_faces_both) 2 0
        ⟨0, 0, []⟩).state.trace =
        [] ++ [edge_call numbers32 (hanging 7 3) 2 0,
          edge_call_swapped numbers32 (hanging 7 3) 2 0] :=
  (swapped_call_by_flag_alone numbers32 (hanging 7 3) counting
    (assemble_ghost_faces_once ||| assemble_own_interior_faces_both) 2 0 ⟨0, 0, []⟩
    rfl rfl rfl rfl rfl).2 rfl rfl (by decide) (Or.inl (by decide))

/-! ### The ghost flags on an unpartitioned mesh -/

/-- Two flag sets that agree outside the bits of `g` give the same answer to the test of a
mask that has none of the bits of `g`. -/
theorem test_outside (f1 f2 g b : Nat) (h : f1 ||| g = f2 ||| g) (hb : g &&& b = 0) :
    test f1 b = test f2 b := by
  have e : ∀ f : Nat, (f ||| g) &&& b = f &&& b := by
    intro f
    rw [Nat.and_comm, Nat.and_or_distrib_left, Nat.and_comm b g, hb, Nat.or_zero,
      Nat.and_comm]
  unfold test
  rw [← e f1, ← e f2, h]

theorem face_plan_unpartitioned_congr (num : Numbers) (m : Mesh Cell)
    (flags1 flags2 : AssembleFlags) (cell : Cell) (f : Nat)
    (hun : m.locally_owned_subdomain = num.invalid_subdomain_id)
    (honce : test flags1 assemble_own_interior_faces_once =
      test flags2 assemble_own_interior_faces_once)
    (hboth : test flags1 assemble_own_interior_faces_both =
      test flags2 assemble_own_interior_faces_both)
    (hbd : test flags1 assemble_boundary_faces = test flags2 assemble_boundary_faces) :
    face_plan num m flags1 cell f = face_plan num m flags2 cell f := by
  have ho : own_cell num m cell = true := (unpartitioned_own num m cell hun).2.1
  have hn : ∀ c, own_neighbor num m c = true := fun c => (unpartitioned_own num m c hun).2.2.1
  unfold face_plan refinement_edge_plan same_level_plan
  simp only [ho, hn, test_or, honce, hboth, hbd, Bool.not_true, Bool.false_and,
    Bool.and_false, bne_self_eq_false, Bool.true_and, Bool.false_eq_true, if_false]

theorem loop_plan_congr (num : Numbers) (m : Mesh Cell) (flags1 flags2 : AssembleFlags)
    (cell : Cell) (faces : List Nat)
    (h : ∀ f, face_plan num m flags1 cell f = face_plan num m flags2 cell f) :
    loop_plan num m flags1 cell faces = loop_plan num m flags2 cell faces := by
  induction faces with
  | nil => rfl
  | cons f fs ih => simp only [loop_plan, h f, ih]

/-- On an unpartitioned mesh with no own-face and no boundary work requested, the face
loop decides on nothing. -/
theorem loop_plan_unpartitioned_idle (num : Numbers) (m : Mesh Cell) (flags : AssembleFlags)
    (cell : Cell) (faces : List Nat)
    (hun : m.locally_owned_subdomain = num.invalid_subdomain_id)
    (honce : test flags assemble_own_interior_faces_once = false)
    (hboth : test flags assemble_own_interior_faces_both = false)
    (hbd : test flags assemble_boundary_faces = false) :
    loop_plan num m flags cell faces = ([], none) := by
  have ho : own_cell num m cell = true := (unpartitioned_own num m cell hun).2.1
  have hn : ∀ c, own_neighbor num m c = true := fun c => (unpartitioned_own num m c hun).2.2.1
  have hf : ∀ f, face_plan num m flags cell f = .ok [] := by
    intro f
    unfold face_plan
    simp only [ho, hn, test_or, honce, hboth, hbd, Bool.not_true, Bool.false_and,
      Bool.and_false, Bool.true_and, Bool.false_eq_true, if_false, Bool.or_self,
      Bool.not_false, Bool.and_self, if_true, ite_self]
  induction faces with
  | nil => rfl
  | cons f fs ih => simp only [loop_plan, hf f, ih, List.append_nil]

/-- C33 (ghost flags are without effect on an unpartitioned mesh). If the locally owned
subdomain is the invalid value, two flag sets that differ only in `assemble_ghost_cells`,
`assemble_ghost_faces_once` and `assemble_ghost_faces_both` give, for every cell, workers
and data, the same result of the cell action: the same calls with the same arguments in
the same order, the same data, the same failure if any. -/
theorem unpartitioned_ignores_ghost_flags (num : Numbers) (m : Mesh Cell)
    (w : Workers Cell S C) (flags1 flags2 : AssembleFlags) (sample_copy_data : C)
    (cell : Cell) (scratch : S) (copy : C)
    (hun : m.locally_owned_subdomain = num.invalid_subdomain_id)
    (hsame : flags1 ||| (assemble_ghost_cells ||| assemble_ghost_faces_once |||
        assemble_ghost_faces_both) =
      flags2 ||| (assemble_ghost_cells ||| assemble_ghost_faces_once |||
        assemble_ghost_faces_both)) :
    cell_action num m w flags1 sample_copy_data cell scratch copy =
      cell_action num m w flags2 sample_copy_data cell scratch copy := by
  have hcells := test_outside flags1 flags2 _ assemble_own_cells hsame (by decide)
  have honce := test_outside flags1 flags2 _ assemble_own_interior_faces_once hsame
    (by decide)
  have hboth := test_outside flags1 flags2 _ assemble_own_interior_faces_both hsame
    (by decide)
  have hbd := test_outside flags1 flags2 _ assemble_boundary_faces hsame (by decide)
  have hafter := test_outside flags1 flags2 _ cells_after_faces hsame (by decide)
  have ho : own_cell num m cell = true := (unpartitioned_own num m cell hun).2.1
  have hguard : ∀ flags, cell_guard num m flags cell = test flags assemble_own_cells := by
    intro flags
    simp [cell_guard, ho]
  have hfaces : ∀ flags,
      (if test flags (work_on_faces ||| work_on_boundary) = true then
        loop_plan num m flags cell (List.range m.faces_per_cell) else ([], none)) =
      (if (test flags assemble_own_interior_faces_once ||
          test flags assemble_own_interior_faces_both ||
          test flags assemble_boundary_faces) = true then
        loop_plan num m flags cell (List.range m.faces_per_cell) else ([], none)) := by
    intro flags
    by_cases hA : (test flags assemble_own_interior_faces_once ||
        test flags assemble_own_interior_faces_both ||
        test flags assemble_boundary_faces) = true
    · have hw : test flags (work_on_faces ||| work_on_boundary) = true := by
        unfold work_on_faces work_on_boundary
        simp only [test_or]
        simp only [Bool.or_eq_true] at hA ⊢
        rcases hA with (h | h) | h
        · exact Or.inl (Or.inl (Or.inl (Or.inl h)))
        · exact Or.inl (Or.inl (Or.inl (Or.inr h)))
        · exact Or.inr h
      rw [if_pos hw, if_pos hA]
    · rw [if_neg hA]
      simp only [Bool.or_eq_true, not_or, Bool.not_eq_true] at hA
      rw [loop_plan_unpartitioned_idle num m flags cell _ hun hA.1.1 hA.1.2 hA.2]
      exact ite_self _
  rw [cell_action_eq_run, cell_action_eq_run]
  have hplan : cell_plan num m flags1 cell = cell_plan num m flags2 cell := by
    unfold cell_plan
    dsimp only
    rw [hfaces flags1, hfaces flags2, hguard flags1, hguard flags2, hcells, honce, hboth,
      hbd, hafter,
      loop_plan_congr num m flags1 flags2 cell _
        (fun f => face_plan_unpartitioned_congr num m flags1 flags2 cell f hun honce hboth hbd)]
  rw [hplan]

/-- Witness for C33: the unpartitioned two-cell mesh with own cells and once-only own
faces requested, with and without the three ghost flags. -/
theorem unpartitioned_ignores_ghost_flags_witness :
    cell_action numbers32 (two_cells 4294967295) counting
        (assemble_own_cells ||| assemble_own_interior_faces_once) 0 0 0 0 =
      cell_action numbers32 (two_cells 4294967295) counting
        (assemble_own_cells ||| assemble_own_interior_faces_once ||| assemble_ghost_cells |||
          assemble_ghost_faces_once) 0 0 0 0 :=
  unpartitioned_ignores_ghost_flags numbers32 (two_cells 4294967295) counting
    (assemble_own_cells ||| assemble_own_interior_faces_once)
    (assemble_own_cells ||| assemble_own_interior_faces_once ||| assemble_ghost_cells |||
      assemble_ghost_faces_once) 0 0 0 0 rfl (by decide)

/-! ### Requests that pass the assertions -/

/-- A request of which the six asserted conditions hold is submitted to the pipeline. -/
theorem mesh_loop_accepts {G : Type} (num : Numbers) (m : Mesh Cell) (cells : List Cell)
    (w : Workers Cell S C) (copier : C → G → G) (sample_scratch_data : S)
    (sample_copy_data : C) (flags : AssembleFlags) (queue_length chunk_size : Nat) (g : G)
    (h : request_valid w flags = true) :
    mesh_loop num m cells w copier sample_scratch_data sample_copy_data flags
        queue_length chunk_size g =
      WorkStream.run cells (cell_action num m w flags sample_copy_data) copier
        sample_scratch_data sample_copy_data queue_length chunk_size g := by
  unfold request_valid at h
  simp only [Bool.and_eq_true] at h
  obtain ⟨⟨⟨⟨⟨h1, h2⟩, h3⟩, h4⟩, h5⟩, h6⟩ := h
  unfold mesh_loop
  rw [h1, h2, h3, h4, h5, h6]
  rfl

/-- The six conditions in the words of the claim imply the asserted ones. -/
theorem request_valid_of_conditions (w : Workers Cell S C) (flags : AssembleFlags)
    (hcell : w.cell_worker.isSome =
      (test flags assemble_own_cells || test flags assemble_ghost_cells))
    (hface : w.face_worker.isSome =
      (test flags assemble_own_interior_faces_once ||
        test flags assemble_own_interior_faces_both ||
        test flags assemble_ghost_faces_once || test flags assemble_ghost_faces_both))
    (hbd : w.boundary_worker.isSome = test flags assemble_boundary_faces)
    (hown : ¬(test flags assemble_own_interior_faces_once = true ∧
      test flags assemble_own_interior_faces_both = true))
    (hghost : ¬(test flags assemble_ghost_faces_once = true ∧
      test flags assemble_ghost_faces_both = true))
    (hafter : test flags cells_after_faces = true →
      test flags assemble_own_cells = true ∨ test flags assemble_ghost_cells = true) :
    request_valid w flags = true := by
  unfold request_valid
  rw [own_once_both_mask, ghost_once_both_mask]
  unfold work_on_cells work_on_faces
  simp only [test_or, Bool.and_eq_true]
  refine ⟨⟨⟨⟨⟨?_, ?_⟩, ?_⟩, ?_⟩, ?_⟩, ?_⟩
  · rw [← hcell]
    cases w.cell_worker <;> rfl
  · generalize test flags assemble_own_interior_faces_once = a at hown ⊢
    generalize test flags assemble_own_interior_faces_both = b at hown ⊢
    revert a b
    decide
  · generalize test flags assemble_ghost_faces_once = a at hghost ⊢
    generalize test flags assemble_ghost_faces_both = b at hghost ⊢
    revert a b
    decide
  · generalize test flags cells_after_faces = a at hafter ⊢
    generalize test flags assemble_own_cells = b at hafter ⊢
    generalize test flags assemble_ghost_cells = c at hafter ⊢
    revert a b c
    decide
  · rw [← hface]
    cases w.face_worker <;> rfl
  · rw [← hbd]
    cases w.boundary_worker <;> rfl

/-- The pipeline fails only with the failure of a worker. -/
theorem run_items_failure {G : Type} (worker : Cell → S → C → Res Cell S C)
    (copier : C → G → G) (sample_copy_data : C) (cells : List Cell) (scratch : S) (g : G)
    (tr : List (Call Cell)) (e : Failure)
    (h : (WorkStream.run_items worker copier sample_copy_data cells scratch g tr).failure =
      some e) :
    ∃ cell s, (worker cell s sample_copy_data).failure = some e := by
  induction cells generalizing scratch g tr with
  | nil => simp [WorkStream.run_items] at h
  | cons c cs ih =>
    unfold WorkStream.run_items at h
    cases hw : worker c scratch sample_copy_data with
    | error es =>
      obtain ⟨e1, st⟩ := es
      rw [hw] at h
      simp only [Option.some.injEq] at h
      exact ⟨c, scratch, by rw [hw, ← h]; rfl⟩
    | ok st =>
      rw [hw] at h
      exact ih _ _ _ h

/-- C35 (the assertions reject nothing else). A request in which the cell worker is
present exactly when `assemble_own_cells` or `assemble_ghost_cells` is set, the face
worker exactly when one of the four face flags is set, the boundary worker exactly when
`assemble_boundary_faces` is set, the two own-interior-face flags are not both set, the
two ghost-face flags are not both set, and `cells_after_faces` comes with a cell flag,
passes the six assertions: `mesh_loop` is the submission of the cell action to the
pipeline, and it fails with no assertion message. In particular a request with flags
`assemble_own_cells` and a cell worker alone is accepted. -/
theorem validation_accepts {G : Type} (num : Numbers) (m : Mesh Cell) (cells : List Cell)
    (w : Workers Cell S C) (copier : C → G → G) (sample_scratch_data : S)
    (sample_copy_data : C) (flags : AssembleFlags) (queue_length chunk_size : Nat) (g : G) :
    (w.cell_worker.isSome =
        (test flags assemble_own_cells || test flags assemble_ghost_cells) →
      w.face_worker.isSome =
        (test flags assemble_own_interior_faces_once ||
          test flags assemble_own_interior_faces_both ||
          test flags assemble_ghost_faces_once || test flags assemble_ghost_faces_both) →
      w.boundary_worker.isSome = test flags assemble_boundary_faces →
      ¬(test flags assemble_own_interior_faces_once = true ∧
        test flags assemble_own_interior_faces_both = true) →
      ¬(test flags assemble_ghost_faces_once = true ∧
        test flags assemble_ghost_faces_both = true) →
      (test flags cells_after_faces = true →
        test flags assemble_own_cells = true ∨ test flags assemble_ghost_cells = true) →
      mesh_loop num m cells w copier sample_scratch_data sample_copy_data flags
          queue_length chunk_size g =
        WorkStream.run cells (cell_action num m w flags sample_copy_data) copier
          sample_scratch_data sample_copy_data queue_length chunk_size g ∧
      ∀ rule, (mesh_loop num m cells w copier sample_scratch_data sample_copy_data flags
          queue_length chunk_size g).failure ≠ some (Failure.ExcMessage rule)) ∧
    (w.cell_worker.isSome = true → w.boundary_worker.isSome = false →
      w.face_worker.isSome = false →
      mesh_loop num m cells w copier sample_scratch_data sample_copy_data
          assemble_own_cells queue_length chunk_size g =
        WorkStream.run cells (cell_action num m w assemble_own_cells sample_copy_data)
          copier sample_scratch_data sample_copy_data queue_length chunk_size g) := by
  constructor
  · intro hcell hface hbd hown hghost hafter
    have hv := request_valid_of_conditions w flags hcell hface hbd hown hghost hafter
    have hacc := mesh_loop_accepts num m cells w copier sample_scratch_data
      sample_copy_data flags queue_length chunk_size g hv
    refine ⟨hacc, ?_⟩
    intro rule hfail
    rw [hacc] at hfail
    obtain ⟨c, s, hc⟩ := run_items_failure _ copier sample_copy_data cells
      sample_scratch_data g [] _ hfail
    rw [cell_action_valid num m w flags sample_copy_data c s sample_copy_data hv] at hc
    have := cell_plan_failure num m flags c _ hc
    cases this
  · intro hc hb hf
    apply mesh_loop_accepts
    apply request_valid_of_conditions
    · rw [hc]
      decide
    · rw [hf]
      decide
    · rw [hb]
      decide
    · decide
    · decide
    · decide

/-- Witness for C35: the default request, `assemble_own_cells` with a cell worker alone,
on the two-cell mesh. -/
theorem validation_accepts_witness :
    mesh_loop numbers32 (two_cells 0) [0, 1] cell_only (fun c g => g + c) 0 0
        assemble_own_cells 2 8 0 =
      WorkStream.run [0, 1] (cell_action numbers32 (two_cells 0) cell_only
        assemble_own_cells 0) (fun c g => g + c) 0 0 2 8 0 :=
  (validation_accepts numbers32 (two_cells 0) [0, 1] cell_only (fun c g => g + c) 0 0
    assemble_own_cells 2 8 0).2 rfl rfl rfl

/-! ### The member-function variant -/

/-- C34, the code against its documentation: on the unpartitioned two-cell mesh, with an
object that is a counter starting at 0, a cell worker member that adds 1 to the copy data
and a copier member that adds the copy data to the object, the member-function variant
makes both cell calls and completes, and the caller's object is still 0: the two
additions went to the copy held by the bound copier, which ends at 2. The `std::function`
variant with the same worker and a copier acting on the caller's counter ends at 2. -/
theorem member_copier_acts_on_copy :
    (mesh_loop_member numbers32 (two_cells 4294967295) [0, 1] (0 : Nat)
        (some (fun _ _ s c => (s, c + 1))) (fun object c => object + c) 0 0
        assemble_own_cells none none 2 8).1 = 0 ∧
      (mesh_loop_member numbers32 (two_cells 4294967295) [0, 1] (0 : Nat)
        (some (fun _ _ s c => (s, c + 1))) (fun object c => object + c) 0 0
        assemble_own_cells none none 2 8).2.global = 2 ∧
      (mesh_loop_member numbers32 (two_cells 4294967295) [0, 1] (0 : Nat)
        (some (fun _ _ s c => (s, c + 1))) (fun object c => object + c) 0 0
        assemble_own_cells none none 2 8).2.failure = none ∧
      (mesh_loop_member numbers32 (two_cells 4294967295) [0, 1] (0 : Nat)
        (some (fun _ _ s c => (s, c + 1))) (fun object c => object + c) 0 0
        assemble_own_cells none none 2 8).2.trace = [Call.cell 0, Call.cell 1] ∧
      (mesh_loop numbers32 (two_cells 4294967295) [0, 1]
        { cell_worker := some (fun _ s c => (s, c + 1))
          boundary_worker := none
          face_worker := none }
        (fun c (object : Nat) => object + c) 0 0 assemble_own_cells 2 8 0).global = 2 := by
  decide

end Exec

end MeshWorker

/-! ## The limit on the number of threads -/

namespace MultithreadInfo

theorem to_unsigned_natCast (e : Nat) (h : e < 4294967296) : to_unsigned (e : Int) = e := by
  unfold to_unsigned
  omega

/-- A negative `int` becomes a positive `unsigned int`. -/
theorem to_unsigned_negative (i : Int) (hlow : -2147483648 ≤ i) (hneg : i < 0) :
    2147483648 ≤ to_unsigned i := by
  unfold to_unsigned
  omega

/-- Whatever `string_to_int` is, a text for which it returns a negative `int` makes
`set_thread_limit` return normally. -/
theorem set_thread_limit_accepts_negative (num : MeshWorker.Numbers)
    (string_to_int : String → Option Int) (default_num_threads : Nat) (text : String)
    (max_threads : Nat) (i : Int) (hparse : string_to_int text = some i)
    (hlow : -2147483648 ≤ i) (hneg : i < 0) :
    ∃ n, set_thread_limit num string_to_int default_num_threads (some text) max_threads =
      .ok n := by
  have hpos : to_unsigned i > 0 := by
    have := to_unsigned_negative i hlow hneg
    omega
  unfold set_thread_limit
  simp only [hparse, hpos, decide_True, Bool.not_true, Bool.false_eq_true, if_false]
  split_ifs
  all_goals dsimp only
  all_goals split_ifs
  all_goals exact ⟨_, rfl⟩

/-- C36, the code against its own message: with `DEAL_II_NUM_THREADS` set to `-1`, for
which `string_to_int` returns the `int` -1, `set_thread_limit(4)` returns normally with
`n_max_threads = 4`, and `set_thread_limit(invalid_unsigned_int)` returns normally with
the default of TBB: the `int` is stored in an `unsigned int`, where it is 4294967295 and
passes the test `max_threads_env > 0`. A text that `string_to_int` rejects and the value 0
do throw. -/
theorem negative_thread_count_accepted :
    to_unsigned (-1) = 4294967295 ∧
      set_thread_limit MeshWorker.numbers32
        (fun text => if text = "-1" then some (-1) else none) 8 (some "-1") 4 = .ok 4 ∧
      set_thread_limit MeshWorker.numbers32
        (fun text => if text = "-1" then some (-1) else none) 8 (some "-1") 4294967295 =
        .ok 8 ∧
      set_thread_limit MeshWorker.numbers32
        (fun text => if text = "0" then some 0 else none) 8 (some "0") 4 =
        .error (Thrown.not_a_positive_number, 4) ∧
      set_thread_limit MeshWorker.numbers32
        (fun text => if text = "0" then some 0 else none) 8 (some "four") 4 =
        .error (Thrown.not_an_integer, 4) :=
  ⟨by decide, rfl, rfl, rfl, rfl⟩

/-- C37 (the number of threads after `set_thread_limit`). Let `invalid_unsigned_int` be
the largest `unsigned int`, and let `string_to_int` return the positive `int` `e` for the
text of `DEAL_II_NUM_THREADS`. Then `set_thread_limit(m)` returns normally with
`n_max_threads = min(m, e)`, which `n_threads()` returns; this is `e` when `m` is
`invalid_unsigned_int`. With the variable unset and `m` not `invalid_unsigned_int`,
`set_thread_limit(m)` leaves `n_max_threads = m`, which `n_threads()` returns. -/
theorem n_threads_after_set_thread_limit (num : MeshWorker.Numbers)
    (string_to_int : String → Option Int) (default_num_threads : Nat) (text : String)
    (m e : Nat)
    (hinv : num.invalid_unsigned_int = 4294967295)
    (hpos : 0 < e) (hint : e < 2147483648)
    (hparse : string_to_int text = some (e : Int)) :
    (set_thread_limit num string_to_int default_num_threads (some text) m = .ok (min m e) ∧
        n_threads num (min m e) = .ok (min m e)) ∧
      (m = num.invalid_unsigned_int →
        set_thread_limit num string_to_int default_num_threads (some text) m = .ok e) ∧
      (m ≠ num.invalid_unsigned_int →
        set_thread_limit num string_to_int default_num_threads none m = .ok m ∧
          n_threads num m = .ok m) := by
  have hconv : to_unsigned (e : Int) = e := to_unsigned_natCast e (by omega)
  have hmin : min m e ≠ 4294967295 := by
    have : min m e ≤ e := Nat.min_le_right m e
    omega
  have hset : set_thread_limit num string_to_int default_num_threads (some text) m =
      .ok (min m e) := by
    unfold set_thread_limit
    simp only [hparse, hconv, hinv]
    have hgt : decide (e > 0) = true := decide_eq_true hpos
    rw [hgt]
    simp only [Bool.not_true, Bool.false_eq_true, if_false]
    by_cases hmi : m = 4294967295
    · have hme : min m e = e := by
        rw [hmi]
        exact Nat.min_eq_right (by omega)
      have he : (e == 4294967295) = false := beq_eq_false_iff_ne.mpr (by omega)
      have hle : e ≤ 4294967295 := by omega
      simp [hmi, he, hle]
    · have h1 : (m != 4294967295) = true := by simpa using hmi
      have h2 : (min m e == 4294967295) = false := beq_eq_false_iff_ne.mpr hmin
      simp [h1, h2]
  refine ⟨⟨hset, ?_⟩, ?_, ?_⟩
  · unfold n_threads
    have h2 : (min m e != num.invalid_unsigned_int) = true := by
      rw [hinv]
      simpa using hmin
    simp [h2]
  · intro hmi
    rw [hset, hmi, hinv, Nat.min_eq_right (by omega)]
  · intro hmi
    have h1 : (m == num.invalid_unsigned_int) = false := beq_eq_false_iff_ne.mpr hmi
    have h2 : (m != num.invalid_unsigned_int) = true := by simpa using hmi
    constructor
    · unfold set_thread_limit
      simp [h1]
    · unfold n_threads
      simp [h2]

/-- Witness for C37: `DEAL_II_NUM_THREADS` is `3`, the limit asked for is 8. -/
theorem n_threads_after_set_thread_limit_witness :
    (set_thread_limit MeshWorker.numbers32 (fun text => if text = "3" then some 3 else none)
          16 (some "3") 8 = .ok (min 8 3) ∧
        n_threads MeshWorker.numbers32 (min 8 3) = .ok (min 8 3)) ∧
      (8 = MeshWorker.numbers32.invalid_unsigned_int →
        set_thread_limit MeshWorker.numbers32
          (fun text => if text = "3" then some 3 else none) 16 (some "3") 8 = .ok 3) ∧
      (8 ≠ MeshWorker.numbers32.invalid_unsigned_int →
        set_thread_limit MeshWorker.numbers32
          (fun text => if text = "3" then some 3 else none) 16 none 8 = .ok 8 ∧
          n_threads MeshWorker.numbers32 8 = .ok 8) :=
  n_threads_after_set_thread_limit MeshWorker.numbers32
    (fun text => if text = "3" then some 3 else none) 16 "3" 8 3 rfl (by decide) (by decide)
    rfl

end MultithreadInfo

/-! ## The scaled sum of squares -/

namespace LinearAlgebra

/-- One pass of the loop body keeps `scale ^ 2 * sum` equal to the sum of the squares seen,
without dividing by zero. -/
theorem l2_norm_step_invariant {K : Type} [LinearOrderedField K] (scale sum T x : K)
    (h0 : 0 ≤ scale) (h1 : 1 ≤ sum) (hT : scale ^ 2 * sum = T) :
    ∃ scale1 sum1, Vector.l2_norm_step (scale, sum) x = some (scale1, sum1) ∧
      0 ≤ scale1 ∧ 1 ≤ sum1 ∧ scale1 ^ 2 * sum1 = T + abs x ^ 2 := by
  unfold Vector.l2_norm_step
  by_cases hx : x = 0
  · refine ⟨scale, sum, ?_, h0, h1, ?_⟩
    · simp [hx]
    · rw [hx, hT]
      simp
  · have hpos : 0 < abs x := abs_pos.mpr hx
    have hne : abs x ≠ 0 := ne_of_gt hpos
    rw [if_pos hx]
    dsimp only
    by_cases hlt : scale < abs x
    · rw [if_pos hlt, if_neg hne]
      refine ⟨abs x, 1 + sum * (scale / abs x) * (scale / abs x), rfl, le_of_lt hpos, ?_, ?_⟩
      · have : 0 ≤ sum * (scale / abs x) * (scale / abs x) := by
          rw [mul_assoc]
          exact mul_nonneg (le_trans zero_le_one h1) (mul_self_nonneg _)
        linarith
      · rw [← hT]
        field_simp
        ring
    · have hs : 0 < scale := lt_of_lt_of_le hpos (not_lt.mp hlt)
      have hsne : scale ≠ 0 := ne_of_gt hs
      rw [if_neg hlt, if_neg hsne]
      refine ⟨scale, sum + (abs x / scale) * (abs x / scale), rfl, h0, ?_, ?_⟩
      · have : 0 ≤ (abs x / scale) * (abs x / scale) := mul_self_nonneg _
        linarith
      · rw [← hT]
        field_simp
        ring

theorem l2_norm_loop_invariant {K : Type} [LinearOrderedField K] (values : List K)
    (scale sum T : K) (h0 : 0 ≤ scale) (h1 : 1 ≤ sum) (hT : scale ^ 2 * sum = T) :
    ∃ scale1 sum1, Vector.l2_norm_loop values (scale, sum) = some (scale1, sum1) ∧
      0 ≤ scale1 ∧ 1 ≤ sum1 ∧
      scale1 ^ 2 * sum1 = T + (values.map (fun x => abs x ^ 2)).sum := by
  induction values generalizing scale sum T with
  | nil => exact ⟨scale, sum, rfl, h0, h1, by simp [hT]⟩
  | cons x rest ih =>
    obtain ⟨s1, u1, hstep, g0, g1, gT⟩ := l2_norm_step_invariant scale sum T x h0 h1 hT
    obtain ⟨s2, u2, hloop, k0, k1, kT⟩ := ih s1 u1 (T + abs x ^ 2) g0 g1 gT
    refine ⟨s2, u2, ?_, k0, k1, ?_⟩
    · simp only [Vector.l2_norm_loop, hstep, hloop]
    · rw [kT, List.map_cons, List.sum_cons, add_assoc]

/-- C38 (the fallback loop of `l2_norm` in exact arithmetic). Over any ordered field, for
every vector of entries: after any number `k` of entries the loop, started from
`scale = 0`, `sum = 1`, has divided by zero nowhere and holds values with
`scale ^ 2 * sum` equal to the sum of the squared absolute values of the entries processed
so far; and with a `sqrt` whose square at the final `sum` is that `sum`, the value
returned, `scale * sqrt(sum)`, has as its square the sum of the squared absolute values of
all entries. -/
theorem l2_norm_fallback_exact {K : Type} [LinearOrderedField K] (values : List K) :
    (∀ k : Nat, ∃ scale sum,
        Vector.l2_norm_loop (values.take k) (0, 1) = some (scale, sum) ∧
        scale ^ 2 * sum = ((values.take k).map (fun x => abs x ^ 2)).sum) ∧
      ∃ scale sum, Vector.l2_norm_loop values (0, 1) = some (scale, sum) ∧
        scale ^ 2 * sum = (values.map (fun x => abs x ^ 2)).sum ∧
        ∀ sqrt : K → K, sqrt sum ^ 2 = sum →
          Vector.l2_norm_fallback sqrt values = some (scale * sqrt sum) ∧
          (scale * sqrt sum) ^ 2 = (values.map (fun x => abs x ^ 2)).sum := by
  constructor
  · intro k
    obtain ⟨s, u, hloop, -, -, hT⟩ :=
      l2_norm_loop_invariant (values.take k) (0 : K) 1 0 le_rfl le_rfl (by simp)
    exact ⟨s, u, hloop, by rw [hT, zero_add]⟩
  · obtain ⟨s, u, hloop, -, -, hT⟩ :=
      l2_norm_loop_invariant values (0 : K) 1 0 le_rfl le_rfl (by simp)
    rw [zero_add] at hT
    refine ⟨s, u, hloop, hT, ?_⟩
    intro sqrt hs
    constructor
    · unfold Vector.l2_norm_fallback
      rw [hloop]
    · rw [mul_pow, hs, hT]

/-- The vector (3, 4) over the rationals: the loop ends with `scale = 4`,
`sum = 25 / 16`, and with 5 / 4 as the square root of 25 / 16 the value returned is 5. -/
theorem l2_norm_fallback_three_four :
    Vector.l2_norm_loop ([3, 4] : List ℚ) (0, 1) = some (4, 25 / 16) ∧
      Vector.l2_norm_fallback (fun y => if y = 25 / 16 then 5 / 4 else 0) ([3, 4] : List ℚ) =
        some 5 := by
  constructor
  · norm_num [Vector.l2_norm_loop, Vector.l2_norm_step]
  · norm_num [Vector.l2_norm_fallback, Vector.l2_norm_loop, Vector.l2_norm_step]

end LinearAlgebra
